import Mathlib

/-!
Stockstudy: price-sheet synchronisation

A shallow embedding of the synchronisation core of the repository
(`src/services/googleSheetService.js`, `src/services/exchangeRate.js`,
`src/context/AppContext.jsx`) and the properties its specification states
about it.

Conventions of the embedding.

* A JavaScript string is the list of its characters (`Str`).
* A JavaScript number is `JSNum`: either `NaN` or an exact rational.  The
  rounding of IEEE doubles and the two infinities are outside the model.
* `undefined` / `null` is `none` of an `Option`.
* The clock (`Date.now()`, `new Date().toISOString()`) and the outcome of each
  network request are explicit arguments.
* The builtins `String.prototype.toUpperCase` and `toLowerCase` are the
  parameters `toUpperCase` and `toLowerCase` of the definitions that call them;
  the examples instantiate them with `asciiUpperCase` and `asciiLowerCase`.
-/

namespace StockStudy

/-! ## Strings and numbers -/

/-- A JavaScript string, as the list of its characters. -/
abbrev Str := List Char

/-- A JavaScript number in exact arithmetic: `NaN` or a rational. -/
inductive JSNum where
  | nan : JSNum
  | fin (q : ℚ) : JSNum
  deriving DecidableEq

namespace JSNum

/-- The global `isNaN` on a number. -/
def isNaN : JSNum → Bool
  | nan => true
  | fin _ => false

/-- The comparison `x > 0`; it is false for `NaN`. -/
def gtZero : JSNum → Bool
  | nan => false
  | fin q => decide (0 < q)

/-- Truthiness of a number: every number except `0` and `NaN`. -/
def truthy : JSNum → Bool
  | nan => false
  | fin q => decide (q ≠ 0)

/-- The function `Math.round`: the nearest integer, ties towards `+∞`. -/
def round : JSNum → JSNum
  | nan => nan
  | fin q => fin (⌊q + 1 / 2⌋ : ℤ)

end JSNum

/-- An ASCII instance of `String.prototype.toUpperCase`: it agrees with the
builtin on every string of ASCII characters.  The definitions below take the
builtin as the parameter `toUpperCase`, so that the theorems hold for the full
Unicode mapping as well. -/
def asciiUpperCase (s : Str) : Str := s.map Char.toUpper

/-- The white space and line terminators that `String.prototype.trim` strips. -/
def isJSWhitespace (c : Char) : Bool :=
  let n := c.toNat
  n = 9 || n = 10 || n = 11 || n = 12 || n = 13 || n = 32 || n = 160 || n = 5760 ||
  (8192 ≤ n && n ≤ 8202) || n = 8232 || n = 8233 || n = 8239 || n = 8287 ||
  n = 12288 || n = 65279

/-- The method `String.prototype.trimStart`. -/
def trimStart (s : Str) : Str := s.dropWhile isJSWhitespace

/-- The method `String.prototype.trimEnd`. -/
def trimEnd (s : Str) : Str := (s.reverse.dropWhile isJSWhitespace).reverse

/-- The method `String.prototype.trim`. -/
def trim (s : Str) : Str := trimEnd (trimStart s)

/-- The method `String.prototype.split` with a one-character separator: it always
returns at least one piece. -/
def split (sep : Char) : Str → List Str
  | [] => [[]]
  | c :: cs =>
    if c = sep then [] :: split sep cs
    else
      match split sep cs with
      | [] => [[c]]
      | piece :: pieces => (c :: piece) :: pieces

/-- The method `String.prototype.includes`. -/
def includes : Str → Str → Bool
  | [], sub => sub.isEmpty
  | c :: cs, sub => sub.isPrefixOf (c :: cs) || includes cs sub

/-- Truthiness of a possibly undefined string: defined and not empty. -/
def truthyStr : Option Str → Bool
  | some (_ :: _) => true
  | _ => false

/-- The expression `a || b` on possibly undefined strings. -/
def orStr (a b : Option Str) : Option Str := if truthyStr a then a else b


/-- The replacement `s.replace(/[^0-9.]/g, "")`: only digits and dots are kept. -/
def stripNonNumeric (s : Str) : Str := s.filter (fun c => c.isDigit || c == '.')

/-- The value of a run of decimal digits. -/
def digitsToNat (ds : List Char) : Nat := ds.foldl (fun acc c => 10 * acc + (c.toNat - 48)) 0

/-- The exponent part of a decimal literal (`e`, an optional sign, digits), `0`
when the text does not start with a complete exponent part. -/
def scanExponent : Str → Int
  | [] => 0
  | e :: rest =>
    if e = 'e' || e = 'E' then
      match rest with
      | '-' :: ds =>
        if (ds.takeWhile Char.isDigit).isEmpty then 0
        else -(digitsToNat (ds.takeWhile Char.isDigit) : Int)
      | '+' :: ds => (digitsToNat (ds.takeWhile Char.isDigit) : Int)
      | ds => (digitsToNat (ds.takeWhile Char.isDigit) : Int)
    else 0

/-- The scanner of `parseFloat`: leading white space is skipped, then the longest
prefix `[+-] digits [. digits] [exponent]` is read.  The result is the sign, the
digits read as one natural number, and the power of ten to scale it by; `none`
when no digit is found (the result `NaN`).  The literal `Infinity` is not
modelled. -/
def scanFloat (s : Str) : Option (Bool × Nat × Int) :=
  let signed : Bool × Str :=
    match trimStart s with
    | '-' :: r => (true, r)
    | '+' :: r => (false, r)
    | r => (false, r)
  let intDigits := signed.2.takeWhile Char.isDigit
  let afterInt := signed.2.dropWhile Char.isDigit
  let frac : Str × Str :=
    match afterInt with
    | '.' :: r => (r.takeWhile Char.isDigit, r.dropWhile Char.isDigit)
    | r => ([], r)
  if intDigits.isEmpty && frac.1.isEmpty then none
  else some (signed.1, digitsToNat (intDigits ++ frac.1), scanExponent frac.2 - frac.1.length)

/-- The global `parseFloat`, in exact arithmetic. -/
def parseFloat (s : Str) : JSNum :=
  match scanFloat s with
  | none => JSNum.nan
  | some (negative, mantissa, exponent) =>
    JSNum.fin ((if negative then -1 else 1) * (mantissa : ℚ) * (10 : ℚ) ^ exponent)

/-! ## Data model -/

/-- A portfolio position, with the fields `AddStockModal` and
`fetchPortfolioFromSheet` give it and the `lastUpdated` stamp of the reconciler.
Both writers set `name` to a string; `ticker` may be missing. -/
structure Holding where
  id : Str
  name : Str
  ticker : Option Str
  country : Str
  currency : Str
  category : Str
  quantity : JSNum
  avgPrice : JSNum
  currentPrice : JSNum
  createdAt : Nat
  lastUpdated : Option Str
  deriving DecidableEq

/-- An element of the `stocks` list of `fetchGoogleSheetData`. -/
structure Quote where
  ticker : Str
  price : JSNum
  deriving DecidableEq

/-- The value `fetchGoogleSheetData` resolves to. -/
structure SheetData where
  stocks : List Quote
  exchangeRate : JSNum
  lastUpdated : Str
  deriving DecidableEq

/-- A row object of `parseCSV`: its properties in insertion order, with
`undefined` for a header that has no cell. -/
abbrev Row := List (Str × Option Str)

/-- The assignment `row[key] = value`. -/
def Row.set : Row → Str → Option Str → Row
  | [], key, value => [(key, value)]
  | (k, v) :: rest, key, value =>
    if k = key then (k, value) :: rest else (k, v) :: Row.set rest key value

/-- The property read `row[key]`, `undefined` when the property is absent. -/
def Row.get : Row → Str → Option Str
  | [], _ => none
  | (k, v) :: rest, key => if k = key then v else Row.get rest key

/-! ## The CSV parser: `parseCSV` -/

/-- The `hasError` test of `parseCSV`: some cell contains a spreadsheet error
marker. -/
def hasError (values : List Str) : Bool :=
  values.any (fun v =>
    includes v "#N/A".toList || includes v "#ERROR".toList || includes v "#REF!".toList)

/-- The loop `headers.forEach((header, index) => row[header] = values[index])`,
from position `index` on. -/
def fillRow (values : List Str) : List Str → Nat → Row → Row
  | [], _, row => row
  | header :: rest, index, row => fillRow values rest (index + 1) (row.set header values[index]?)

/-- The row object built from the header names and the cells of one line. -/
def buildRow (headers values : List Str) : Row := fillRow values headers 0 []

/-- The cells of one line: `line.split(",").map(v => v.trim())`. -/
def cellsOf (line : Str) : List Str := (split ',' line).map trim

/-- The loop of `parseCSV` over the data lines, with the accumulator `data`. -/
def parseLines (headers : List Str) : List Str → List Row → List Row
  | [], data => data
  | line :: rest, data =>
    if hasError (cellsOf line) then parseLines headers rest data
    else parseLines headers rest (data ++ [buildRow headers (cellsOf line)])

/-- The function `parseCSV` of `googleSheetService.js`; `Except.error` is the
thrown `Error`. -/
def parseCSV (csvText : Str) : Except Str (List Row) :=
  match split '\n' (trim csvText) with
  | header :: line :: rest =>
    Except.ok (parseLines (cellsOf header) (line :: rest) [])
  | _ => Except.error "CSV data is empty or invalid".toList

/-! ## The price extraction: `fetchGoogleSheetData` -/

/-- The ticker cell of a row, by the header aliases in the order of the source. -/
def rowTicker (row : Row) : Option Str :=
  orStr (orStr (orStr (orStr (row.get "Ticker (종목코드)".toList) (row.get "Ticker (A열)".toList))
    (row.get "Ticker".toList)) (row.get "ticker".toList)) (row.get "TICKER".toList)

/-- The price cell of a row, by the header aliases in the order of the source. -/
def rowPrice (row : Row) : Option Str :=
  orStr (orStr (orStr (orStr (row.get "Price (현재가)".toList)
    (row.get "Price (B열: 여기에 수식이 들어갑니다)".toList))
    (row.get "Price".toList)) (row.get "price".toList)) (row.get "PRICE".toList)

/-- The test `price.includes("#N/A") || price.includes("#ERROR") || price.includes("#REF!")`. -/
def priceHasError (price : Str) : Bool :=
  includes price "#N/A".toList || includes price "#ERROR".toList || includes price "#REF!".toList

/-- The default exchange rate of `fetchGoogleSheetData` (`let exchangeRate = 1300`). -/
def sheetDefaultRate : JSNum := JSNum.fin 1300

section
variable (toUpperCase : Str → Str)

/-- The sentinel test `ticker.toUpperCase() === "USD" || ticker.toUpperCase() === "USDKRW"`. -/
def isSentinel (ticker : Str) : Bool :=
  toUpperCase ticker == "USD".toList || toUpperCase ticker == "USDKRW".toList

/-- The body of `parsedData.forEach` in `fetchGoogleSheetData`, on the pair of the
`stocks` array and the `exchangeRate` variable. -/
def extractRow (acc : List Quote × JSNum) (row : Row) : List Quote × JSNum :=
  match rowTicker row, rowPrice row with
  | some (t :: ts), some (p :: ps) =>
    if priceHasError (p :: ps) then acc
    else if isSentinel toUpperCase (t :: ts) then
      let rate := parseFloat (stripNonNumeric (p :: ps))
      if !rate.isNaN && rate.gtZero then (acc.1, rate) else acc
    else
      let parsedPrice := parseFloat (stripNonNumeric (p :: ps))
      if !parsedPrice.isNaN && parsedPrice.gtZero then
        (acc.1 ++ [{ ticker := trim (t :: ts), price := parsedPrice }], acc.2)
      else acc
  | _, _ => acc

/-- The extraction of `fetchGoogleSheetData` from the parsed rows: the `stocks`
array and the `exchangeRate` variable after the `forEach`. -/
def extractPrices (parsedData : List Row) : List Quote × JSNum :=
  parsedData.foldl (extractRow toUpperCase) ([], sheetDefaultRate)

end

/-- The outcome of an HTTP request made with `fetch`: the promise rejects, or it
resolves to a response with its `ok` flag and its body text. -/
inductive FetchOutcome where
  | rejected : FetchOutcome
  | response (ok : Bool) (body : Str) : FetchOutcome
  deriving DecidableEq

section
variable (toUpperCase : Str → Str)

/-- The function `fetchGoogleSheetData` of `googleSheetService.js`, on the outcome
of its request; `now` is `new Date().toISOString()` and `Except.error` is the
rethrown error. -/
def fetchGoogleSheetData (now : Str) (outcome : FetchOutcome) : Except Str SheetData :=
  match outcome with
  | FetchOutcome.rejected => Except.error "Failed to fetch".toList
  | FetchOutcome.response ok body =>
    if !ok then Except.error "HTTP error!".toList
    else
      match parseCSV body with
      | Except.error e => Except.error e
      | Except.ok parsedData =>
        Except.ok
          { stocks := (extractPrices toUpperCase parsedData).1
            exchangeRate := (extractPrices toUpperCase parsedData).2
            lastUpdated := now }

/-! ## The reconciler: `updatePortfolioWithSheetData` -/

/-- The expression `stock.ticker || stock.name`. -/
def holdingKey (stock : Holding) : Str :=
  match stock.ticker with
  | some (c :: cs) => c :: cs
  | _ => stock.name

/-- The predicate of the `find` call:
`s.ticker.toUpperCase() === (stock.ticker || stock.name).toUpperCase()`. -/
def matchesHolding (stock : Holding) (s : Quote) : Bool :=
  toUpperCase s.ticker == toUpperCase (holdingKey stock)

/-- The callback of `portfolio.map` in `updatePortfolioWithSheetData`; `now` is
`new Date().toISOString()`. -/
def updateHolding (now : Str) (sheetStocks : List Quote) (stock : Holding) : Holding :=
  match sheetStocks.find? (matchesHolding toUpperCase stock) with
  | some sheetStock => { stock with currentPrice := sheetStock.price, lastUpdated := some now }
  | none => stock

/-- The function `updatePortfolioWithSheetData` of `googleSheetService.js`. -/
def updatePortfolioWithSheetData (now : Str) (portfolio : List Holding)
    (sheetStocks : List Quote) : List Holding :=
  if portfolio.length = 0 then portfolio
  else portfolio.map (updateHolding toUpperCase now sheetStocks)

end

/-! ## The secondary exchange-rate source: `exchangeRate.js` -/

/-- The constant `DEFAULT_EXCHANGE_RATE` of `constants.js`. -/
def DEFAULT_EXCHANGE_RATE : JSNum := JSNum.fin 1477

/-- The outcome of one `axios.get`: the request fails (network, timeout, status),
or it resolves with a body whose `rates.KRW` is a number or is missing. -/
inductive ApiOutcome where
  | failed : ApiOutcome
  | data (krw : Option JSNum) : ApiOutcome
  deriving DecidableEq

/-- The function `fetchFromFrankfurter`: the rate, or `null`. -/
def fetchFromFrankfurter : ApiOutcome → Option JSNum
  | ApiOutcome.data (some krw) => if krw.truthy then some krw else none
  | _ => none

/-- The function `fetchFromExchangeRateAPI`: the rate, or `null`. -/
def fetchFromExchangeRateAPI : ApiOutcome → Option JSNum
  | ApiOutcome.data (some krw) => if krw.truthy then some krw else none
  | _ => none

/-- The object `fetchExchangeRate` and `autoFetchExchangeRate` resolve to. -/
structure RateResult where
  rate : JSNum
  source : Str
  error : Option Str
  timestamp : Nat
  deriving DecidableEq

/-- The outcomes one call of `fetchExchangeRate` meets: the primary request, the
fallback request (made only when the primary gives no rate), and `Date.now()`. -/
structure ApiAttempt where
  primary : ApiOutcome
  fallback : ApiOutcome
  now : Nat
  deriving DecidableEq

/-- The function `fetchExchangeRate` of `exchangeRate.js`. -/
def fetchExchangeRate (a : ApiAttempt) : RateResult :=
  match fetchFromFrankfurter a.primary with
  | some rate => { rate := rate.round, source := "api".toList, error := none, timestamp := a.now }
  | none =>
    match fetchFromExchangeRateAPI a.fallback with
    | some rate => { rate := rate.round, source := "api".toList, error := none, timestamp := a.now }
    | none =>
      { rate := DEFAULT_EXCHANGE_RATE
        source := "manual".toList
        error := some "API 연결 실패. 기본값을 사용합니다.".toList
        timestamp := a.now }

/-- The loop of `autoFetchExchangeRate` from attempt number `attempt`, with
`remaining` iterations left (`maxRetries + 1 - attempt`); `finalNow` is the
`Date.now()` of the default result.  The waits between attempts have no effect on
the result. -/
def autoFetchLoop (attempts : Nat → ApiAttempt) (finalNow : Nat) : Nat → Nat → RateResult
  | 0, _ =>
    { rate := DEFAULT_EXCHANGE_RATE
      source := "manual".toList
      error := some "API 연결 실패. 수동으로 환율을 설정해주세요.".toList
      timestamp := finalNow }
  | remaining + 1, attempt =>
    let result := fetchExchangeRate (attempts attempt)
    if result.source == "api".toList && result.error.isNone then result
    else autoFetchLoop attempts finalNow remaining (attempt + 1)

/-- The function `autoFetchExchangeRate` of `exchangeRate.js`; `attempts k` holds
the outcomes of attempt number `k`. -/
def autoFetchExchangeRate (attempts : Nat → ApiAttempt) (finalNow : Nat) (maxRetries : Nat) :
    RateResult :=
  autoFetchLoop attempts finalNow (maxRetries + 1) 0

/-! ## The state container: `appReducer` -/

/-- A primitive value stored in a journal, study or indicator object. -/
inductive JSVal where
  | str (s : Str) : JSVal
  | num (n : JSNum) : JSVal
  deriving DecidableEq

/-- A journal entry, study note or macro indicator: its properties in insertion
order. -/
abbrev Obj := List (Str × JSVal)

/-- The property read `o[key]`, `undefined` when the property is absent. -/
def Obj.get : Obj → Str → Option JSVal
  | [], _ => none
  | (k, v) :: rest, key => if k = key then some v else Obj.get rest key

/-- The assignment `o[key] = value`. -/
def Obj.set : Obj → Str → JSVal → Obj
  | [], key, value => [(key, value)]
  | (k, v) :: rest, key, value =>
    if k = key then (k, value) :: rest else (k, v) :: Obj.set rest key value

/-- The spread `{ ...o, ...updates }`. -/
def Obj.merge (o updates : Obj) : Obj := updates.foldl (fun acc kv => acc.set kv.1 kv.2) o

/-- The strict equality `a === b` of two possibly undefined primitive values:
`NaN` is not equal to itself. -/
def strictEq : Option JSVal → Option JSVal → Bool
  | some (JSVal.num JSNum.nan), _ => false
  | _, some (JSVal.num JSNum.nan) => false
  | a, b => decide (a = b)

/-- The `settings` slice of the state. -/
structure Settings where
  exchangeRate : JSNum
  exchangeRateSource : Str
  exchangeRateLastUpdated : Nat
  currency : Str
  deriving DecidableEq

/-- A `settings` object of a restore payload: each property may be missing; a
property that is present holds a value of its type. -/
structure SettingsPatch where
  exchangeRate : Option JSNum
  exchangeRateSource : Option Str
  exchangeRateLastUpdated : Option Nat
  currency : Option Str
  deriving DecidableEq

/-- The spread `{ ...settings, ...patch }`. -/
def Settings.merge (settings : Settings) (patch : SettingsPatch) : Settings :=
  { exchangeRate := patch.exchangeRate.getD settings.exchangeRate
    exchangeRateSource := patch.exchangeRateSource.getD settings.exchangeRateSource
    exchangeRateLastUpdated := patch.exchangeRateLastUpdated.getD settings.exchangeRateLastUpdated
    currency := patch.currency.getD settings.currency }

/-- The state of the container. -/
structure State where
  portfolio : List Holding
  journals : List Obj
  studies : List Obj
  macroIndicators : List Obj
  settings : Settings
  deriving DecidableEq

/-- The payload of `RESTORE_ALL`: each slice may be missing. -/
structure RestorePayload where
  portfolio : Option (List Holding)
  journals : Option (List Obj)
  studies : Option (List Obj)
  macroIndicators : Option (List Obj)
  settings : Option SettingsPatch
  deriving DecidableEq

/-- The actions of `appReducer`; `OTHER` stands for every other `type`. -/
inductive Action where
  | ADD_STOCK (payload : Holding) : Action
  | UPDATE_STOCK (payload : Holding) : Action
  | DELETE_STOCK (payload : Str) : Action
  | ADD_JOURNAL (payload : Obj) : Action
  | UPDATE_JOURNAL (payload : Obj) : Action
  | DELETE_JOURNAL (payload : Option JSVal) : Action
  | ADD_STUDY (payload : Obj) : Action
  | UPDATE_STUDY (id : Option JSVal) (updates : Obj) : Action
  | DELETE_STUDY (payload : Option JSVal) : Action
  | UPDATE_INDICATOR (id : Option JSVal) (data : Obj) : Action
  | UPDATE_EXCHANGE_RATE (rate : JSNum) (source : Str) (timestamp : Nat) : Action
  | SET_MANUAL_EXCHANGE_RATE (payload : JSNum) : Action
  | UPDATE_PORTFOLIO_PRICES (portfolio : List Holding) (exchangeRate : JSNum) : Action
  | RESTORE_ALL (payload : RestorePayload) : Action
  | OTHER : Action
  deriving DecidableEq

/-- The function `appReducer` of `AppContext.jsx`; `now` is `Date.now()`. -/
def appReducer (now : Nat) (state : State) : Action → State
  | Action.ADD_STOCK payload => { state with portfolio := state.portfolio ++ [payload] }
  | Action.UPDATE_STOCK payload =>
    { state with
      portfolio := state.portfolio.map (fun item => if item.id = payload.id then payload else item) }
  | Action.DELETE_STOCK payload =>
    { state with portfolio := state.portfolio.filter (fun item => item.id ≠ payload) }
  | Action.ADD_JOURNAL payload => { state with journals := payload :: state.journals }
  | Action.UPDATE_JOURNAL payload =>
    { state with
      journals := state.journals.map (fun j =>
        if strictEq (j.get "id".toList) (payload.get "id".toList) then payload else j) }
  | Action.DELETE_JOURNAL payload =>
    { state with journals := state.journals.filter (fun j => !strictEq (j.get "id".toList) payload) }
  | Action.ADD_STUDY payload => { state with studies := payload :: state.studies }
  | Action.UPDATE_STUDY id updates =>
    { state with
      studies := state.studies.map (fun study =>
        if strictEq (study.get "id".toList) id then study.merge updates else study) }
  | Action.DELETE_STUDY payload =>
    { state with
      studies := state.studies.filter (fun study => !strictEq (study.get "id".toList) payload) }
  | Action.UPDATE_INDICATOR id data =>
    { state with
      macroIndicators := state.macroIndicators.map (fun indicator =>
        if strictEq (indicator.get "id".toList) id then
          (indicator.merge data).set "lastUpdated".toList (JSVal.num (JSNum.fin now))
        else indicator) }
  | Action.UPDATE_EXCHANGE_RATE rate source timestamp =>
    { state with
      settings :=
        { state.settings with
          exchangeRate := rate
          exchangeRateSource := source
          exchangeRateLastUpdated := timestamp } }
  | Action.SET_MANUAL_EXCHANGE_RATE payload =>
    { state with
      settings :=
        { state.settings with
          exchangeRate := payload
          exchangeRateSource := "manual".toList
          exchangeRateLastUpdated := now } }
  | Action.UPDATE_PORTFOLIO_PRICES portfolio exchangeRate =>
    { state with
      portfolio := portfolio
      settings :=
        { state.settings with
          exchangeRate := exchangeRate
          exchangeRateSource := "google-sheets".toList
          exchangeRateLastUpdated := now } }
  | Action.RESTORE_ALL payload =>
    { portfolio := payload.portfolio.getD []
      journals := payload.journals.getD []
      studies := payload.studies.getD []
      macroIndicators := payload.macroIndicators.getD state.macroIndicators
      settings :=
        match payload.settings with
        | some patch => state.settings.merge patch
        | none => state.settings }
  | Action.OTHER => state

/-! ## The synchronisation cycle: `fetchAndUpdateData` -/

/-- What one run of `fetchAndUpdateData` meets: the result of
`fetchPortfolioFromSheet` (a thrown error, `null`, or the imported holdings), the
outcome of the price request made after a bootstrap import, the outcome of the
price request of the refresh step, the outcomes of the attempts of the secondary
exchange-rate source, and the clock. -/
structure CycleEnv where
  portfolioFetch : Except Str (Option (List Holding))
  bootstrapPrices : FetchOutcome
  prices : FetchOutcome
  attempts : Nat → ApiAttempt
  isoNow : Str
  finalNow : Nat

section
variable (toUpperCase : Str → Str)

/-- The `catch` block of `fetchAndUpdateData`: the action it dispatches, if any. -/
def exchangeRateFallback (env : CycleEnv) : Option Action :=
  let result := autoFetchExchangeRate env.attempts env.finalNow 2
  if result.rate.truthy then
    some (Action.UPDATE_EXCHANGE_RATE result.rate result.source result.timestamp)
  else none

/-- Step 2 of `fetchAndUpdateData` (the price refresh of the portfolio `state`
holds) together with the `catch` block its failure leads to. -/
def refreshPrices (state : State) (env : CycleEnv) : Option Action :=
  match fetchGoogleSheetData toUpperCase env.isoNow env.prices with
  | Except.ok sheetData =>
    some (Action.UPDATE_PORTFOLIO_PRICES
      (updatePortfolioWithSheetData toUpperCase env.isoNow state.portfolio sheetData.stocks)
      sheetData.exchangeRate)
  | Except.error _ => exchangeRateFallback env

/-- The function `fetchAndUpdateData` of `AppProvider`: the action one cycle
dispatches, if any.  `state` is the variable the closure reads.  A failure inside
step 1 is caught by the inner `catch` and the cycle goes on with step 2; the value
of `fetchGoogleSheetData` is an object, so the tests `if (sheetData)` succeed. -/
def fetchAndUpdateData (state : State) (env : CycleEnv) : Option Action :=
  if state.portfolio.length = 0 then
    match env.portfolioFetch with
    | Except.ok (some portfolioFromSheet) =>
      if portfolioFromSheet.length > 0 then
        match fetchGoogleSheetData toUpperCase env.isoNow env.bootstrapPrices with
        | Except.ok sheetData =>
          some (Action.UPDATE_PORTFOLIO_PRICES
            (updatePortfolioWithSheetData toUpperCase env.isoNow portfolioFromSheet
              sheetData.stocks)
            sheetData.exchangeRate)
        | Except.error _ => refreshPrices toUpperCase state env
      else refreshPrices toUpperCase state env
    | _ => refreshPrices toUpperCase state env
  else refreshPrices toUpperCase state env

/-- The state committed by one synchronisation cycle.  The effect that defines
`fetchAndUpdateData` has the dependency list `[]`: it runs once, after the first
render, and every run of the closure (on mount and on each timer tick) reads the
`state` of that render, `mounted`.  The dispatched action is reduced against the
state the container holds when it arrives, `current`. -/
def commitCycle (now : Nat) (mounted current : State) (env : CycleEnv) : State :=
  match fetchAndUpdateData toUpperCase mounted env with
  | some action => appReducer now current action
  | none => current

end

/-- The state after a sequence of dispatched actions, each with its `Date.now()`. -/
def dispatchAll (state : State) (actions : List (Nat × Action)) : State :=
  actions.foldl (fun s a => appReducer a.1 s a.2) state

/-! ## The bootstrap import: `fetchPortfolioFromSheet` -/

/-- An ASCII instance of `String.prototype.toLowerCase`: it agrees with the
builtin on every string of ASCII characters.  The definitions below take the
builtin as the parameter `toLowerCase`. -/
def asciiLowerCase (s : Str) : Str := s.map Char.toLower

/-- The decimal text of a natural number, as a template literal prints it. -/
def natToStr (n : Nat) : Str :=
  if n = 0 then ['0'] else (Nat.digits 10 n).reverse.map Nat.digitChar

/-- The expression `parseFloat(cell || 0)` on a possibly undefined cell: the
number `0` is parsed from its text `0`. -/
def parseFloatOrZero : Option Str → JSNum
  | some (c :: cs) => parseFloat (c :: cs)
  | _ => parseFloat "0".toList

/-- The cell `row.Name || row.name || row.NAME`. -/
def portfolioName (row : Row) : Option Str :=
  orStr (orStr (row.get "Name".toList) (row.get "name".toList)) (row.get "NAME".toList)

/-- The cell `row.Ticker || row.ticker || row.TICKER`. -/
def portfolioTicker (row : Row) : Option Str :=
  orStr (orStr (row.get "Ticker".toList) (row.get "ticker".toList)) (row.get "TICKER".toList)

/-- The cell `row.Country || row.country || row.COUNTRY`. -/
def portfolioCountry (row : Row) : Option Str :=
  orStr (orStr (row.get "Country".toList) (row.get "country".toList)) (row.get "COUNTRY".toList)

/-- The cell `row.Quantity || row.quantity || row.QUANTITY`. -/
def portfolioQuantity (row : Row) : Option Str :=
  orStr (orStr (row.get "Quantity".toList) (row.get "quantity".toList))
    (row.get "QUANTITY".toList)

/-- The cell `row.AvgPrice || row.avgPrice || row.AVG_PRICE`. -/
def portfolioAvgPrice (row : Row) : Option Str :=
  orStr (orStr (row.get "AvgPrice".toList) (row.get "avgPrice".toList))
    (row.get "AVG_PRICE".toList)

/-- The cell `row.Category || row.category || row.CATEGORY`. -/
def portfolioCategory (row : Row) : Option Str :=
  orStr (orStr (row.get "Category".toList) (row.get "category".toList))
    (row.get "CATEGORY".toList)

section
variable (toUpperCase toLowerCase : Str → Str)

/-- The callback of `parsedData.map` in `fetchPortfolioFromSheet`: the holding of
one sheet row, `null` for a row without name, ticker or country.  `idNow` and
`createdNow` are the two readings of `Date.now()`. -/
def portfolioRow (idNow createdNow : Nat) (row : Row) (index : Nat) : Option Holding :=
  let quantity := parseFloatOrZero (portfolioQuantity row)
  let avgPrice := parseFloatOrZero (portfolioAvgPrice row)
  let category :=
    toLowerCase
      (match portfolioCategory row with
        | some (c :: cs) => c :: cs
        | _ => "growth".toList)
  match portfolioName row, portfolioTicker row, portfolioCountry row with
  | some (n :: ns), some (t :: ts), some (c :: cs) =>
    some
      { id := toLowerCase (c :: cs) ++ "-".toList ++ (t :: ts) ++ "-".toList ++ natToStr idNow
          ++ "-".toList ++ natToStr index
        name := trim (n :: ns)
        ticker := some (trim (t :: ts))
        country := toUpperCase (c :: cs)
        category := category
        quantity := quantity
        avgPrice := avgPrice
        currentPrice := avgPrice
        currency := if toUpperCase (c :: cs) = "US".toList then "USD".toList else "KRW".toList
        createdAt := createdNow
        lastUpdated := none }
  | _, _, _ => none

/-- The call `parsedData.map((row, index) => ...)` of `fetchPortfolioFromSheet`,
from position `index` on; `idClock i` and `createdClock i` are the readings of
`Date.now()` at row `i`. -/
def portfolioMap (idClock createdClock : Nat → Nat) : List Row → Nat → List (Option Holding)
  | [], _ => []
  | row :: rest, index =>
    portfolioRow toUpperCase toLowerCase (idClock index) (createdClock index) row index
      :: portfolioMap idClock createdClock rest (index + 1)

/-- The row transform of `fetchPortfolioFromSheet`: the map, then
`filter(item => item !== null)`. -/
def portfolioOfRows (idClock createdClock : Nat → Nat) (parsedData : List Row) : List Holding :=
  (portfolioMap toUpperCase toLowerCase idClock createdClock parsedData 0).filterMap id

/-- The function `fetchPortfolioFromSheet` of `googleSheetService.js`, on the
outcome of its request.  The configured URL does not contain `PORTFOLIO_GID`, so
the early `return null` is not taken. -/
def fetchPortfolioFromSheet (idClock createdClock : Nat → Nat) (outcome : FetchOutcome) :
    Except Str (Option (List Holding)) :=
  match outcome with
  | FetchOutcome.rejected => Except.error "Failed to fetch".toList
  | FetchOutcome.response ok body =>
    if !ok then Except.error "HTTP error!".toList
    else
      match parseCSV body with
      | Except.error e => Except.error e
      | Except.ok parsedData =>
        Except.ok (some (portfolioOfRows toUpperCase toLowerCase idClock createdClock parsedData))

end

/-! ## Validation of a manual rate: `validateExchangeRate` -/

/-- The object `validateExchangeRate` returns. -/
structure Validation where
  isValid : Bool
  error : Option Str
  deriving DecidableEq

/-- The function `validateExchangeRate` of `exchangeRate.js`, on any argument: a
number, a string, or `undefined`. -/
def validateExchangeRate : Option JSVal → Validation
  | some (JSVal.num (JSNum.fin rate)) =>
    if rate ≤ 0 then
      { isValid := false, error := some "환율은 0보다 커야 합니다.".toList }
    else if rate < 100 ∨ rate > 10000 then
      { isValid := false, error := some "환율이 정상 범위(100-10,000)를 벗어났습니다.".toList }
    else { isValid := true, error := none }
  | _ => { isValid := false, error := some "유효한 숫자를 입력해주세요.".toList }

/-! ## The persistent store: `localStorage.js` -/

/-- The items of `localStorage`, in insertion order. -/
abbrev Store := List (Str × Str)

/-- The method `localStorage.getItem`. -/
def Store.getItem : Store → Str → Option Str
  | [], _ => none
  | (k, v) :: rest, key => if k = key then some v else Store.getItem rest key

/-- The effect of a `localStorage.setItem` that does not throw. -/
def Store.setItem : Store → Str → Str → Store
  | [], key, value => [(key, value)]
  | (k, v) :: rest, key, value =>
    if k = key then (k, value) :: rest else (k, v) :: Store.setItem rest key value

/-- What a call of `saveToStorage` does: the boolean it returns, the store it
leaves, and whether it showed the quota `alert`. -/
structure SaveResult where
  success : Bool
  store : Store
  alerted : Bool
  deriving DecidableEq

/-- The `catch` block of `saveToStorage`, on the `name` of the caught error. -/
def saveFailed (store : Store) (errorName : Str) : SaveResult :=
  { success := false, store := store, alerted := decide (errorName = "QuotaExceededError".toList) }

/-- The function `saveToStorage` of `localStorage.js`.  `serialized` is what
`JSON.stringify(data)` returns, or the name of the error it throws; `writeError`
is the name of the error `localStorage.setItem` throws, if it throws. -/
def saveToStorage (store : Store) (key : Str) (serialized : Except Str Str)
    (writeError : Option Str) : SaveResult :=
  match serialized with
  | Except.error errorName => saveFailed store errorName
  | Except.ok text =>
    match writeError with
    | some errorName => saveFailed store errorName
    | none => { success := true, store := store.setItem key text, alerted := false }

/-- The keys `STORAGE_KEYS` of `constants.js`. -/
def STORAGE_KEYS_PORTFOLIO : Str := "insight-log-portfolio".toList

/-- See `STORAGE_KEYS_PORTFOLIO`. -/
def STORAGE_KEYS_JOURNALS : Str := "insight-log-journals".toList

/-- See `STORAGE_KEYS_PORTFOLIO`. -/
def STORAGE_KEYS_STUDIES : Str := "insight-log-studies".toList

/-- See `STORAGE_KEYS_PORTFOLIO`. -/
def STORAGE_KEYS_MACRO : Str := "insight-log-macro".toList

/-- See `STORAGE_KEYS_PORTFOLIO`. -/
def STORAGE_KEYS_SETTINGS : Str := "insight-log-settings".toList

/-- What the persistence effects of `AppProvider` meet: the outcome of
`JSON.stringify` on each slice, and for each key the error `setItem` throws, if
it throws. -/
structure PersistEnv where
  portfolioJson : List Holding → Except Str Str
  journalsJson : List Obj → Except Str Str
  studiesJson : List Obj → Except Str Str
  macroJson : List Obj → Except Str Str
  settingsJson : Settings → Except Str Str
  writeError : Str → Option Str

/-- The reducer branch of the action assigns a new `portfolio`. -/
def assignsPortfolio : Action → Bool
  | Action.ADD_STOCK _ => true
  | Action.UPDATE_STOCK _ => true
  | Action.DELETE_STOCK _ => true
  | Action.UPDATE_PORTFOLIO_PRICES _ _ => true
  | Action.RESTORE_ALL _ => true
  | _ => false

/-- The reducer branch of the action assigns new `journals`. -/
def assignsJournals : Action → Bool
  | Action.ADD_JOURNAL _ => true
  | Action.UPDATE_JOURNAL _ => true
  | Action.DELETE_JOURNAL _ => true
  | Action.RESTORE_ALL _ => true
  | _ => false

/-- The reducer branch of the action assigns new `studies`. -/
def assignsStudies : Action → Bool
  | Action.ADD_STUDY _ => true
  | Action.UPDATE_STUDY _ _ => true
  | Action.DELETE_STUDY _ => true
  | Action.RESTORE_ALL _ => true
  | _ => false

/-- The reducer branch of the action assigns new `macroIndicators`. -/
def assignsMacro : Action → Bool
  | Action.UPDATE_INDICATOR _ _ => true
  | Action.RESTORE_ALL payload => payload.macroIndicators.isSome
  | _ => false

/-- The reducer branch of the action assigns new `settings`. -/
def assignsSettings : Action → Bool
  | Action.UPDATE_EXCHANGE_RATE _ _ _ => true
  | Action.SET_MANUAL_EXCHANGE_RATE _ => true
  | Action.UPDATE_PORTFOLIO_PRICES _ _ => true
  | Action.RESTORE_ALL _ => true
  | _ => false

/-- The five persistence effects of `AppProvider` after a render: each slice that
was assigned anew is saved under its key; the value `saveToStorage` returns is
not used. -/
def persistSlices (env : PersistEnv) (action : Action) (state : State) (store : Store) : Store :=
  let s1 :=
    if assignsPortfolio action then
      (saveToStorage store STORAGE_KEYS_PORTFOLIO (env.portfolioJson state.portfolio)
        (env.writeError STORAGE_KEYS_PORTFOLIO)).store
    else store
  let s2 :=
    if assignsJournals action then
      (saveToStorage s1 STORAGE_KEYS_JOURNALS (env.journalsJson state.journals)
        (env.writeError STORAGE_KEYS_JOURNALS)).store
    else s1
  let s3 :=
    if assignsStudies action then
      (saveToStorage s2 STORAGE_KEYS_STUDIES (env.studiesJson state.studies)
        (env.writeError STORAGE_KEYS_STUDIES)).store
    else s2
  let s4 :=
    if assignsMacro action then
      (saveToStorage s3 STORAGE_KEYS_MACRO (env.macroJson state.macroIndicators)
        (env.writeError STORAGE_KEYS_MACRO)).store
    else s3
  if assignsSettings action then
    (saveToStorage s4 STORAGE_KEYS_SETTINGS (env.settingsJson state.settings)
      (env.writeError STORAGE_KEYS_SETTINGS)).store
  else s4

/-- One dispatch in `AppProvider`: `useReducer` commits the state `appReducer`
returns, then the persistence effects run on the committed state. -/
def providerDispatch (env : PersistEnv) (now : Nat) (state : State) (store : Store)
    (action : Action) : State × Store :=
  (appReducer now state action, persistSlices env action (appReducer now state action) store)

/-! ## The retry loop, with its calls counted -/

/-- The loop of `autoFetchExchangeRate` as `autoFetchLoop`, together with the
number of calls of `fetchExchangeRate` it makes. -/
def autoFetchCounted (attempts : Nat → ApiAttempt) (finalNow : Nat) :
    Nat → Nat → RateResult × Nat
  | 0, _ =>
    ({ rate := DEFAULT_EXCHANGE_RATE
       source := "manual".toList
       error := some "API 연결 실패. 수동으로 환율을 설정해주세요.".toList
       timestamp := finalNow }, 0)
  | remaining + 1, attempt =>
    let result := fetchExchangeRate (attempts attempt)
    if result.source == "api".toList && result.error.isNone then (result, 1)
    else
      ((autoFetchCounted attempts finalNow remaining (attempt + 1)).1,
        (autoFetchCounted attempts finalNow remaining (attempt + 1)).2 + 1)

/-! ## The study streak: `streakHandler.js` -/

/-- The record of `streakHandler.js`; the streak counts are integers. -/
structure StreakData where
  lastStudyDate : Option Str
  currentStreak : Int
  maxStreak : Int
  deriving DecidableEq

/-- The object `checkIn` returns. -/
structure CheckInResult where
  lastStudyDate : Option Str
  currentStreak : Int
  maxStreak : Int
  isNewRecord : Bool
  streakIncreased : Bool
  deriving DecidableEq

/-- The function `getStreakData`; `stored` is the record `JSON.parse` reads from
the item of the streak key, `none` when the item is missing, empty or does not
parse. -/
def getStreakData (stored : Option StreakData) : StreakData :=
  match stored with
  | some data => data
  | none => { lastStudyDate := none, currentStreak := 0, maxStreak := 0 }

/-- The function `saveStreakData`: the record stored afterwards; a failing write
is caught and leaves the item as it was. -/
def saveStreakData (writeFails : Bool) (stored : Option StreakData) (data : StreakData) :
    Option StreakData :=
  if writeFails then stored else some data

/-- The function `isYesterday`; `yesterdayStr` is the date string it computes
from the clock. -/
def isYesterday (yesterdayStr : Str) (dateStr : Option Str) : Bool :=
  match dateStr with
  | some (c :: cs) => decide (c :: cs = yesterdayStr)
  | _ => false

/-- The function `checkIn`: the object it returns and the record stored
afterwards.  `today` is `getTodayDateString()`. -/
def checkIn (today yesterdayStr : Str) (writeFails : Bool) (stored : Option StreakData) :
    CheckInResult × Option StreakData :=
  let streakData := getStreakData stored
  if streakData.lastStudyDate = some today then
    ({ lastStudyDate := streakData.lastStudyDate
       currentStreak := streakData.currentStreak
       maxStreak := streakData.maxStreak
       isNewRecord := false
       streakIncreased := false }, stored)
  else
    let newStreak : Int :=
      if isYesterday yesterdayStr streakData.lastStudyDate then streakData.currentStreak + 1
      else 1
    let newMaxStreak : Int := max newStreak streakData.maxStreak
    let isNewRecord : Bool := decide (newMaxStreak > streakData.maxStreak)
    let updatedData : StreakData :=
      { lastStudyDate := some today, currentStreak := newStreak, maxStreak := newMaxStreak }
    ({ lastStudyDate := updatedData.lastStudyDate
       currentStreak := updatedData.currentStreak
       maxStreak := updatedData.maxStreak
       isNewRecord := isNewRecord
       streakIncreased :=
         decide (newStreak > 1) || (decide (newStreak = 1) && decide (streakData.currentStreak = 0)) },
      saveStreakData writeFails stored updatedData)

/-! ## Portfolio value and market score: `calculations.js` -/

namespace JSNum

/-- The sum `x + y` of two numbers. -/
def add : JSNum → JSNum → JSNum
  | fin a, fin b => fin (a + b)
  | _, _ => nan

/-- The product `x * y` of two numbers. -/
def mul : JSNum → JSNum → JSNum
  | fin a, fin b => fin (a * b)
  | _, _ => nan

/-- The comparison `x >= y`; it is false when a side is `NaN`. -/
def ge : JSNum → JSNum → Bool
  | fin a, fin b => decide (b ≤ a)
  | _, _ => false

/-- The comparison `x <= y`; it is false when a side is `NaN`. -/
def le : JSNum → JSNum → Bool
  | fin a, fin b => decide (a ≤ b)
  | _, _ => false

end JSNum

/-- The function `calculateTotalValue`. -/
def calculateTotalValue (currentPrice quantity : JSNum) : JSNum := currentPrice.mul quantity

/-- The object `calculatePortfolioValue` returns. -/
structure PortfolioValue where
  totalKRW : JSNum
  totalUSD : JSNum
  krStocksValue : JSNum
  usStocksValue : JSNum
  usStocksValueInKRW : JSNum
  deriving DecidableEq

/-- The four accumulators of `calculatePortfolioValue`: `totalKRW`, `totalUSD`,
`krStocksValue` and `usStocksValue`. -/
structure ValueTotals where
  totalKRW : JSNum
  totalUSD : JSNum
  krStocksValue : JSNum
  usStocksValue : JSNum
  deriving DecidableEq

/-- The body of `portfolio.forEach` in `calculatePortfolioValue`. -/
def addHoldingValue (exchangeRate : JSNum) (acc : ValueTotals) (item : Holding) : ValueTotals :=
  let value := calculateTotalValue item.currentPrice item.quantity
  if item.currency = "KRW".toList then
    { acc with
      krStocksValue := acc.krStocksValue.add value
      totalKRW := acc.totalKRW.add value }
  else if item.currency = "USD".toList then
    { acc with
      usStocksValue := acc.usStocksValue.add value
      totalUSD := acc.totalUSD.add value
      totalKRW := acc.totalKRW.add (value.mul exchangeRate) }
  else acc

/-- The function `calculatePortfolioValue` of `calculations.js`. -/
def calculatePortfolioValue (portfolio : List Holding) (exchangeRate : JSNum) : PortfolioValue :=
  let totals :=
    portfolio.foldl (addHoldingValue exchangeRate)
      { totalKRW := JSNum.fin 0
        totalUSD := JSNum.fin 0
        krStocksValue := JSNum.fin 0
        usStocksValue := JSNum.fin 0 }
  { totalKRW := totals.totalKRW
    totalUSD := totals.totalUSD
    krStocksValue := totals.krStocksValue
    usStocksValue := totals.usStocksValue
    usStocksValueInKRW := totals.usStocksValue.mul exchangeRate }

/-- A macro indicator as `calculateMarketScore` reads it: its `judgment` is a
number or is missing. -/
structure Indicator where
  id : Str
  judgment : Option JSNum
  deriving DecidableEq

/-- The function `getMarketSentiment`. -/
def getMarketSentiment (score : JSNum) : Str :=
  if score.ge (JSNum.fin 12) then "강력 매수".toList
  else if score.ge (JSNum.fin 6) then "매수 우위".toList
  else if score.ge (JSNum.fin (-6)) then "중립".toList
  else if score.ge (JSNum.fin (-12)) then "매도 우위".toList
  else "강력 매도".toList

/-- The function `getSentimentColor`. -/
def getSentimentColor (score : JSNum) : Str :=
  if score.ge (JSNum.fin 12) then "text-red-600".toList
  else if score.ge (JSNum.fin 6) then "text-red-500".toList
  else if score.ge (JSNum.fin (-6)) then "text-gray-600".toList
  else if score.ge (JSNum.fin (-12)) then "text-blue-500".toList
  else "text-blue-600".toList

/-- The object `calculateMarketScore` returns. -/
structure MarketScore where
  totalScore : JSNum
  maxScore : JSNum
  minScore : JSNum
  sentiment : Str
  sentimentColor : Str
  deriving DecidableEq

/-- The expression `indicator.judgment || 0`. -/
def judgmentOrZero (indicator : Indicator) : JSNum :=
  match indicator.judgment with
  | some j => if j.truthy then j else JSNum.fin 0
  | none => JSNum.fin 0

/-- The function `calculateMarketScore` of `calculations.js`; `STRONG_BUY` is 2
and `STRONG_SELL` is -2. -/
def calculateMarketScore (indicators : List Indicator) : MarketScore :=
  let totalScore :=
    indicators.foldl (fun sum indicator => sum.add (judgmentOrZero indicator)) (JSNum.fin 0)
  { totalScore := totalScore
    maxScore := (JSNum.fin indicators.length).mul (JSNum.fin 2)
    minScore := (JSNum.fin indicators.length).mul (JSNum.fin (-2))
    sentiment := getMarketSentiment totalScore
    sentimentColor := getSentimentColor totalScore }

/-- The object `getRebalancingRecommendation` returns. -/
structure Recommendation where
  text : Str
  color : Str
  icon : Str
  deriving DecidableEq

/-- The `switch` of `getRebalancingRecommendation` on the four categories it
names, with the recommendation of each; `null` in the `default` case. -/
def recommendationSwitch (category : Str) (leverage growth inverse dividend : Recommendation) :
    Option Recommendation :=
  if category = "leverage".toList then some leverage
  else if category = "growth".toList then some growth
  else if category = "inverse".toList then some inverse
  else if category = "dividend".toList then some dividend
  else none

/-- The table of `getRebalancingRecommendation` for `marketScore >= 10`. -/
def bullishTable (category : Str) : Option Recommendation :=
  recommendationSwitch category
    { text := "비중 확대 추천".toList, color := "bg-red-100 text-red-700".toList, icon := "📈".toList }
    { text := "비중 확대 추천".toList, color := "bg-red-100 text-red-700".toList, icon := "🚀".toList }
    { text := "비중 축소 추천".toList, color := "bg-blue-100 text-blue-700".toList, icon := "📉".toList }
    { text := "현재 유지".toList, color := "bg-gray-100 text-gray-700".toList, icon := "➡️".toList }

/-- The table of `getRebalancingRecommendation` for `marketScore <= -10`. -/
def bearishTable (category : Str) : Option Recommendation :=
  recommendationSwitch category
    { text := "비중 축소 추천".toList, color := "bg-blue-100 text-blue-700".toList, icon := "⚠️".toList }
    { text := "신중한 접근".toList, color := "bg-yellow-100 text-yellow-700".toList, icon := "⚡".toList }
    { text := "진입 고려".toList, color := "bg-green-100 text-green-700".toList, icon := "✅".toList }
    { text := "비중 확대 추천".toList, color := "bg-green-100 text-green-700".toList, icon := "🛡️".toList }

/-- The table of `getRebalancingRecommendation` for every other score. -/
def neutralTable (category : Str) : Option Recommendation :=
  recommendationSwitch category
    { text := "변동성 주의".toList, color := "bg-yellow-100 text-yellow-700".toList, icon := "⚡".toList }
    { text := "현재 유지".toList, color := "bg-gray-100 text-gray-700".toList, icon := "➡️".toList }
    { text := "시장 대응 준비".toList, color := "bg-gray-100 text-gray-700".toList, icon := "👀".toList }
    { text := "안정적 보유".toList, color := "bg-green-100 text-green-700".toList, icon := "💎".toList }

/-- The function `getRebalancingRecommendation` of `calculations.js`. -/
def getRebalancingRecommendation (category : Str) (marketScore : JSNum) : Option Recommendation :=
  if marketScore.ge (JSNum.fin 10) then bullishTable category
  else if marketScore.le (JSNum.fin (-10)) then bearishTable category
  else neutralTable category

/-- The values of `STOCK_CATEGORIES` in `constants.js`. -/
def STOCK_CATEGORIES : List Str :=
  ["leverage".toList, "growth".toList, "dividend".toList, "inverse".toList, "value".toList,
    "defense".toList]

/-! ## The order of the market reports: `parseReportsCSV` -/

/-- A report object of `parseReportsCSV`. -/
structure Report where
  id : Str
  title : Str
  firm : Str
  date : Str
  views : Str
  url : Str
  deriving DecidableEq

/-- The function `parseInt(s, 10)`: leading white space is skipped, then an
optional sign and the longest run of digits are read; `none` is `NaN`. -/
def parseInt10 (s : Str) : Option Int :=
  let signed : Bool × Str :=
    match trimStart s with
    | '-' :: r => (true, r)
    | '+' :: r => (false, r)
    | r => (false, r)
  let digits := signed.2.takeWhile Char.isDigit
  if digits.isEmpty then none
  else some (if signed.1 then -(digitsToNat digits : Int) else (digitsToNat digits : Int))

/-- The function `parseDate` of the comparator: `0` for an empty date, else the
integer read from the date without its dots and slashes. -/
def parseDate (dateStr : Str) : Option Int :=
  if dateStr.isEmpty then some 0
  else parseInt10 (dateStr.filter (fun c => !(c == '.' || c == '/')))

/-- The comparator `(a, b) => parseDate(b.date) - parseDate(a.date)`; `none` is
`NaN`. -/
def compareReports (a b : Report) : Option Int :=
  match parseDate b.date, parseDate a.date with
  | some kb, some ka => some (kb - ka)
  | _, _ => none

/-- The order the comparator allows: `a` may stand before `b` unless the
comparator is positive; `NaN` counts as `0`. -/
def reportsInOrder (a b : Report) : Bool :=
  match compareReports a b with
  | some v => decide (v ≤ 0)
  | none => true

/-- The call `reports.sort(comparator)`, the last step of `parseReportsCSV` on
the reports its loop has built.  The sort of JavaScript is stable; it is taken
here as the insertion sort, with which every stable sort agrees when the dates
are numeric. -/
def sortReports (reports : List Report) : List Report :=
  reports.insertionSort (fun a b => reportsInOrder a b = true)

/-- The values of the object `JUDGMENT_LEVELS` of `constants.js`. -/
def JUDGMENT_LEVELS : List JSNum :=
  [JSNum.fin 2, JSNum.fin 1, JSNum.fin 0, JSNum.fin (-1), JSNum.fin (-2)]

/-! ## Notions of the specification -/

/-- A field contains one of the spreadsheet error markers. -/
def containsMarker (field : Str) : Bool :=
  includes field "#N/A".toList || includes field "#ERROR".toList || includes field "#REF!".toList

/-- Some comma-separated field of the line contains an error marker. -/
def lineHasMarker (line : Str) : Bool := (split ',' line).any containsMarker

/-- The rows built, in order, from the lines that carry no error marker. -/
def rowsOfCleanLines (header : Str) (lines : List Str) : List Row :=
  (lines.filter (fun line => !lineHasMarker line)).map
    (fun line => buildRow (cellsOf header) (cellsOf line))

section
variable (toUpperCase : Str → Str)

/-- The row is an exchange-rate sentinel: its ticker equals `USD` or `USDKRW`
case-insensitively. -/
def isSentinelRow (row : Row) : Bool :=
  match rowTicker row with
  | some t => isSentinel toUpperCase t
  | none => false

/-- The number the price cell of a row stands for: every character other than a
digit or a dot is deleted and the rest is parsed; `NaN` without a price cell. -/
def rowPriceValue (row : Row) : JSNum :=
  match rowPrice row with
  | some p => parseFloat (stripNonNumeric p)
  | none => JSNum.nan

/-- The row yields a quote: it has a ticker, is no sentinel, and its price is a
positive number. -/
def isStockRow (row : Row) : Bool :=
  truthyStr (rowTicker row) && !isSentinelRow toUpperCase row && (rowPriceValue row).gtZero

/-- The row sets the exchange rate: it is a sentinel whose price is a positive
number. -/
def isRateRow (row : Row) : Bool :=
  truthyStr (rowTicker row) && isSentinelRow toUpperCase row && (rowPriceValue row).gtZero

/-- The quote a row stands for: its ticker cell and the number of its price cell. -/
def quoteOfRow (row : Row) : Quote :=
  { ticker := (rowTicker row).getD [], price := rowPriceValue row }

/-- The exchange rate a list of rows determines: the price of the last sentinel
row with a positive price, and the default `1300` when there is none. -/
def rateOfRows (rows : List Row) : JSNum :=
  (((rows.filter (isRateRow toUpperCase)).map rowPriceValue).getLast?).getD sheetDefaultRate

end

/-- Every cell of the row is trimmed and free of error markers, as the cells of
the rows of `parseCSV` are. -/
def Row.Clean (row : Row) : Prop :=
  ∀ k v, (k, some v) ∈ row → trim v = v ∧ containsMarker v = false

/-- The rate one attempt of the secondary source obtains: the answer of the
primary API, else the answer of the fallback API, else nothing. -/
def attemptRate (a : ApiAttempt) : Option JSNum :=
  match fetchFromFrankfurter a.primary with
  | some rate => some rate
  | none => fetchFromExchangeRateAPI a.fallback

/-- The ids of the portfolio are pairwise distinct. -/
def idsDistinct (portfolio : List Holding) : Prop := (portfolio.map Holding.id).Nodup

/-- The number is a non-negative real number (not `NaN`). -/
def nonNegative (x : JSNum) : Prop := ∃ q, x = JSNum.fin q ∧ 0 ≤ q

/-- The attempt is a success for the retry loop: its result has the source `api`
and no error. -/
def attemptSucceeds (a : ApiAttempt) : Bool :=
  (fetchExchangeRate a).source == "api".toList && (fetchExchangeRate a).error.isNone

/-- The sum of a list of numbers, from the left. -/
def jsSum (values : List JSNum) : JSNum := values.foldl JSNum.add (JSNum.fin 0)

/-- The value `currentPrice × quantity` of a holding. -/
def holdingValue (item : Holding) : JSNum := calculateTotalValue item.currentPrice item.quantity

/-- The sum of `currentPrice × quantity` over the holdings of the given currency. -/
def valueOfCurrency (currency : String) (portfolio : List Holding) : JSNum :=
  jsSum ((portfolio.filter (fun item => item.currency = currency.toList)).map holdingValue)

/-! ## Sample data -/

/-- A holding with the given name, ticker and current price. -/
def sampleHolding (name ticker : String) (price : ℚ) : Holding :=
  { id := ("stock-" ++ ticker).toList
    name := name.toList
    ticker := some ticker.toList
    country := "US".toList
    currency := "USD".toList
    category := "growth".toList
    quantity := JSNum.fin 10
    avgPrice := JSNum.fin 90
    currentPrice := JSNum.fin price
    createdAt := 1
    lastUpdated := none }

/-- A quote with the given ticker and price. -/
def sampleQuote (ticker : String) (price : ℚ) : Quote :=
  { ticker := ticker.toList, price := JSNum.fin price }

/-- The time stamp used in the examples. -/
def sampleNow : Str := "2026-01-14T00:00:00.000Z".toList

/-- A state that holds one position and the exchange rate 1400 of an earlier
price-sheet refresh. -/
def sampleState : State :=
  { portfolio := [sampleHolding "Apple" "AAPL" 100]
    journals := []
    studies := []
    macroIndicators := []
    settings :=
      { exchangeRate := JSNum.fin 1400
        exchangeRateSource := "google-sheets".toList
        exchangeRateLastUpdated := 0
        currency := "KRW".toList } }

/-- An attempt of the secondary source in which both requests fail. -/
def offlineAttempt : ApiAttempt :=
  { primary := ApiOutcome.failed, fallback := ApiOutcome.failed, now := 5 }

/-- An attempt of the secondary source in which the primary API answers with the
given rate. -/
def onlineAttempt (rate : ℚ) : ApiAttempt :=
  { primary := ApiOutcome.data (some (JSNum.fin rate)), fallback := ApiOutcome.failed, now := 5 }

/-- A cycle in which the portfolio import fails, both price requests have the
given outcome and every attempt of the secondary source goes as given. -/
def sampleEnv (prices : FetchOutcome) (attempt : ApiAttempt) : CycleEnv :=
  { portfolioFetch := Except.error "Failed to fetch".toList
    bootstrapPrices := prices
    prices := prices
    attempts := fun _ => attempt
    isoNow := sampleNow
    finalNow := 9 }

/-- A price sheet with one stock row and no sentinel row. -/
def sampleSheet : Str := "Ticker,Price\nAAPL,150.25".toList

/-- The price sheet of Scenario A, with its header line. -/
def scenarioSheet : Str := "Ticker,Price\nAAPL,150.25\nUSD,1300\n#N/A,999".toList

/-- The row of a sheet with the header `Ticker,Price`. -/
def sampleRow (ticker price : String) : Row :=
  [("Ticker".toList, some ticker.toList), ("Price".toList, some price.toList)]

/-- A price sheet whose only data row has an empty ticker cell. -/
def tickerlessSheet : Str := "Ticker,Price\n,5".toList

/-- A row of the portfolio sheet with the given country, quantity and average
price cells. -/
def samplePortfolioRow (country quantity avgPrice : String) : Row :=
  [("Name".toList, some "Apple".toList), ("Ticker".toList, some "AAPL".toList),
    ("Country".toList, some country.toList), ("Quantity".toList, some quantity.toList),
    ("AvgPrice".toList, some avgPrice.toList), ("Category".toList, some "Growth".toList)]

/-- A price sheet whose price cell is quoted and holds a comma. -/
def quotedSheet : Str := "Ticker,Price\nAAPL,\"1,300\"".toList

/-- The holding the bootstrap import makes of `samplePortfolioRow "us" "10" "90"`
at index 0, with the clock readings 7 and 8. -/
def importedSample : Holding :=
  { id := "us-AAPL-7-0".toList
    name := "Apple".toList
    ticker := some "AAPL".toList
    country := "US".toList
    currency := "USD".toList
    category := "growth".toList
    quantity := JSNum.fin 10
    avgPrice := JSNum.fin 90
    currentPrice := JSNum.fin 90
    createdAt := 8
    lastUpdated := none }

/-- A stored streak record: last study on the given date, with the given current
and maximal streak. -/
def sampleStreak (date : String) (current best : Int) : StreakData :=
  { lastStudyDate := some date.toList, currentStreak := current, maxStreak := best }

/-- A report with the given title and date. -/
def sampleReport (title date : String) : Report :=
  { id := ("report-" ++ title).toList
    title := title.toList
    firm := "firm".toList
    date := date.toList
    views := "0".toList
    url := [] }

/-- Three indicators: a strong buy, a sell, and one without judgment. -/
def sampleIndicators : List Indicator :=
  [{ id := "vix".toList, judgment := some (JSNum.fin 2) },
    { id := "cpi".toList, judgment := some (JSNum.fin (-1)) },
    { id := "sp500".toList, judgment := none }]

/-! ## Strings: lemmas -/

theorem dropWhile_of_head_false {α : Type} (p : α → Bool) (l : List α)
    (h : ∀ a, l.head? = some a → p a = false) : l.dropWhile p = l := by
  cases l with
  | nil => rfl
  | cons a as => simp [List.dropWhile, h a rfl]

theorem head_dropWhile_false {α : Type} (p : α → Bool) (l : List α) (a : α)
    (h : (l.dropWhile p).head? = some a) : p a = false := by
  induction l with
  | nil => simp at h
  | cons b bs ih =>
    by_cases hb : p b = true
    · simp only [List.dropWhile, hb] at h
      exact ih h
    · simp only [List.dropWhile, hb] at h
      simp only [List.head?_cons, Option.some.injEq] at h
      subst h
      simpa using hb

theorem trimEnd_isInitial (s : Str) : trimEnd s <+: s := by
  unfold trimEnd
  rw [← List.reverse_suffix, List.reverse_reverse]
  exact List.dropWhile_suffix _

theorem trimEnd_trimEnd (s : Str) : trimEnd (trimEnd s) = trimEnd s := by
  simp [trimEnd, List.dropWhile_idempotent]

theorem prefix_head_eq {α : Type} {l₁ l₂ : List α} (h : l₁ <+: l₂) (a : α)
    (ha : l₁.head? = some a) : l₂.head? = some a := by
  obtain ⟨t, rfl⟩ := h
  cases l₁ with
  | nil => simp at ha
  | cons b bs => simpa using ha

/-- The method `trim` is idempotent. -/
theorem trim_trim (s : Str) : trim (trim s) = trim s := by
  have hstart : trimStart (trim s) = trim s := by
    apply dropWhile_of_head_false
    intro a ha
    exact head_dropWhile_false isJSWhitespace s a (prefix_head_eq (trimEnd_isInitial _) a ha)
  show trimEnd (trimStart (trim s)) = trim s
  rw [hstart]
  exact trimEnd_trimEnd _

theorem includes_iff_infix (s sub : Str) : includes s sub = true ↔ sub <:+: s := by
  induction s with
  | nil => simp [includes, List.isEmpty_iff]
  | cons c cs ih =>
    simp only [includes, Bool.or_eq_true, ih, List.infix_cons_iff, List.isPrefixOf_iff_prefix]

theorem infix_dropWhile {α : Type} (p : α → Bool) (x : α) (m l : List α) (hx : p x = false)
    (h : x :: m <:+: l) : x :: m <:+: l.dropWhile p := by
  induction l with
  | nil => simp at h
  | cons c cs ih =>
    by_cases hc : p c = true
    · simp only [List.dropWhile, hc]
      rcases List.infix_cons_iff.mp h with hp | hi
      · obtain ⟨t, ht⟩ := hp
        simp only [List.cons_append, List.cons.injEq] at ht
        rw [ht.1] at hx
        simp [hx] at hc
      · exact ih hi
    · simpa only [List.dropWhile, hc] using h

theorem infix_trim (m s : Str) (x y : Char) (mid : Str) (hm : m = x :: mid)
    (hrev : m.reverse = y :: (x :: mid).reverse.tail)
    (hx : isJSWhitespace x = false) (hy : isJSWhitespace y = false) :
    m <:+: trim s ↔ m <:+: s := by
  constructor
  · intro h
    exact h.trans ((trimEnd_isInitial _).isInfix.trans (List.dropWhile_suffix _).isInfix)
  · intro h
    have h1 : m <:+: trimStart s := by
      rw [hm] at h ⊢
      exact infix_dropWhile _ x mid s hx h
    have h2 : m.reverse <:+: (trimStart s).reverse := List.reverse_infix.mpr h1
    rw [hrev] at h2
    have h3 := infix_dropWhile isJSWhitespace y _ _ hy h2
    rw [← hrev] at h3
    unfold trim trimEnd
    rw [← List.reverse_infix, List.reverse_reverse]
    exact h3

/-! ## Reconciler: lemmas -/

section
variable (toUpperCase : Str → Str)

theorem updatePortfolio_eq_map (now : Str) (portfolio : List Holding) (sheetStocks : List Quote) :
    updatePortfolioWithSheetData toUpperCase now portfolio sheetStocks
      = portfolio.map (updateHolding toUpperCase now sheetStocks) := by
  unfold updatePortfolioWithSheetData
  split
  · next h => simp [List.length_eq_zero.mp h]
  · rfl

theorem find_matches_none {stock : Holding} {sheetStocks : List Quote}
    (h : ∀ q ∈ sheetStocks, toUpperCase q.ticker ≠ toUpperCase (holdingKey stock)) :
    sheetStocks.find? (matchesHolding toUpperCase stock) = none := by
  rw [List.find?_eq_none]
  intro q hq
  simpa [matchesHolding] using h q hq

theorem find_matches_first {stock : Holding} {pre post : List Quote} {q : Quote}
    (hpre : ∀ p ∈ pre, toUpperCase p.ticker ≠ toUpperCase (holdingKey stock))
    (hq : toUpperCase q.ticker = toUpperCase (holdingKey stock)) :
    (pre ++ q :: post).find? (matchesHolding toUpperCase stock) = some q := by
  induction pre with
  | nil => simp [List.find?, matchesHolding, hq]
  | cons p ps ih =>
    have hp : matchesHolding toUpperCase stock p = false := by
      simpa [matchesHolding] using hpre p (List.mem_cons_self _ _)
    simp only [List.cons_append, List.find?, hp]
    exact ih (fun x hx => hpre x (List.mem_cons_of_mem _ hx))

theorem updateHolding_frame (now : Str) (sheetStocks : List Quote) (stock : Holding) :
    { updateHolding toUpperCase now sheetStocks stock with
      currentPrice := stock.currentPrice, lastUpdated := stock.lastUpdated } = stock := by
  unfold updateHolding
  split <;> rfl

/-! ## Reconciler: specification -/

/-- C1 (non-destructive merge): a holding whose key (its ticker, or its name when
the ticker is absent or empty) equals no quote's ticker case-insensitively is
returned at its position with every field unchanged. -/
theorem updatePortfolio_unmatched_unchanged (now : Str) (H : List Holding) (Q : List Quote)
    (i : Nat) (h : Holding) (hi : H[i]? = some h)
    (hno : ∀ q ∈ Q, toUpperCase q.ticker ≠ toUpperCase (holdingKey h)) :
    (updatePortfolioWithSheetData toUpperCase now H Q)[i]? = some h := by
  rw [updatePortfolio_eq_map, List.getElem?_map, hi]
  simp [updateHolding, find_matches_none toUpperCase hno]

/-- C2 (frame of the reconciler): the result has the length of the input, and its
holding at each position agrees with the input holding at that position on every
field other than `currentPrice` and `lastUpdated`. -/
theorem updatePortfolio_frame (now : Str) (H : List Holding) (Q : List Quote) :
    (updatePortfolioWithSheetData toUpperCase now H Q).length = H.length ∧
    ∀ (i : Nat) (h : Holding), H[i]? = some h →
      ∃ r, (updatePortfolioWithSheetData toUpperCase now H Q)[i]? = some r ∧
        { r with currentPrice := h.currentPrice, lastUpdated := h.lastUpdated } = h := by
  rw [updatePortfolio_eq_map]
  refine ⟨by simp, ?_⟩
  intro i h hi
  refine ⟨updateHolding toUpperCase now Q h, ?_, updateHolding_frame toUpperCase now Q h⟩
  rw [List.getElem?_map, hi]
  rfl

/-- C3 (matching rule): when `q` is the first quote of `Q` whose ticker equals the
key of the holding `h` (its ticker, or its name when the ticker is absent or
empty) case-insensitively, the reconciled holding at the position of `h` has the
price of `q` as its `currentPrice`. -/
theorem updatePortfolio_first_match (now : Str) (H : List Holding) (pre post : List Quote)
    (q : Quote) (i : Nat) (h : Holding) (hi : H[i]? = some h)
    (hpre : ∀ p ∈ pre, toUpperCase p.ticker ≠ toUpperCase (holdingKey h))
    (hq : toUpperCase q.ticker = toUpperCase (holdingKey h)) :
    ∃ r, (updatePortfolioWithSheetData toUpperCase now H (pre ++ q :: post))[i]? = some r ∧
      r.currentPrice = q.price := by
  rw [updatePortfolio_eq_map, List.getElem?_map, hi]
  refine ⟨_, rfl, ?_⟩
  simp [updateHolding, find_matches_first toUpperCase hpre hq]

end

/-- Scenario C, as an instance of C1: TSLA at 300 against the quote AAPL at 200
stays as it is. -/
theorem updatePortfolio_unmatched_unchanged_witness :
    (updatePortfolioWithSheetData asciiUpperCase sampleNow [sampleHolding "Tesla" "TSLA" 300]
        [sampleQuote "AAPL" 200])[0]? = some (sampleHolding "Tesla" "TSLA" 300) ∧
    (sampleHolding "Tesla" "TSLA" 300).currentPrice = JSNum.fin 300 :=
  ⟨updatePortfolio_unmatched_unchanged asciiUpperCase sampleNow [sampleHolding "Tesla" "TSLA" 300]
      [sampleQuote "AAPL" 200] 0 (sampleHolding "Tesla" "TSLA" 300) rfl
      (by intro q hq; simp only [List.mem_singleton] at hq; subst hq; decide),
    rfl⟩

/-- An instance of C2: a matched and an unmatched holding keep their fields. -/
theorem updatePortfolio_frame_witness :
    ∃ r, (updatePortfolioWithSheetData asciiUpperCase sampleNow
        [sampleHolding "Apple" "AAPL" 100, sampleHolding "Tesla" "TSLA" 300]
        [sampleQuote "aapl" 155])[0]? = some r ∧
      { r with currentPrice := JSNum.fin 100, lastUpdated := none }
        = sampleHolding "Apple" "AAPL" 100 :=
  (updatePortfolio_frame asciiUpperCase sampleNow
    [sampleHolding "Apple" "AAPL" 100, sampleHolding "Tesla" "TSLA" 300]
    [sampleQuote "aapl" 155]).2 0 (sampleHolding "Apple" "AAPL" 100) rfl

/-- Scenario B, as an instance of C3: AAPL at 100 against the quote aapl at 155
gets the price 155. -/
theorem updatePortfolio_first_match_witness :
    ∃ r, (updatePortfolioWithSheetData asciiUpperCase sampleNow [sampleHolding "Apple" "AAPL" 100]
        [sampleQuote "aapl" 155])[0]? = some r ∧ r.currentPrice = JSNum.fin 155 :=
  updatePortfolio_first_match asciiUpperCase sampleNow [sampleHolding "Apple" "AAPL" 100] [] []
    (sampleQuote "aapl" 155) 0 (sampleHolding "Apple" "AAPL" 100) rfl
    (by intro p hp; cases hp) (by decide)

/-! ## The CSV parser: lemmas -/

theorem containsMarker_trim (v : Str) : containsMarker (trim v) = containsMarker v := by
  have h1 := infix_trim "#N/A".toList v '#' 'A' "N/A".toList rfl rfl (by decide) (by decide)
  have h2 := infix_trim "#ERROR".toList v '#' 'R' "ERROR".toList rfl rfl (by decide) (by decide)
  have h3 := infix_trim "#REF!".toList v '#' '!' "REF!".toList rfl rfl (by decide) (by decide)
  rw [Bool.eq_iff_iff]
  simp only [containsMarker, Bool.or_eq_true, includes_iff_infix, h1, h2, h3]

theorem hasError_cellsOf (line : Str) : hasError (cellsOf line) = lineHasMarker line := by
  unfold hasError cellsOf lineHasMarker
  rw [List.any_map]
  congr 1
  funext v
  exact containsMarker_trim v

theorem parseLines_eq (headers : List Str) (lines : List Str) (data : List Row) :
    parseLines headers lines data
      = data ++ (lines.filter (fun line => !lineHasMarker line)).map
          (fun line => buildRow headers (cellsOf line)) := by
  induction lines generalizing data with
  | nil => simp [parseLines]
  | cons line rest ih =>
    unfold parseLines
    by_cases h : lineHasMarker line = true
    · simp [hasError_cellsOf, h, ih]
    · simp [hasError_cellsOf, h, ih]

theorem parseCSV_of_lines (csvText header : Str) (lines : List Str)
    (hsplit : split '\n' (trim csvText) = header :: lines) (hne : lines ≠ []) :
    parseCSV csvText = Except.ok (rowsOfCleanLines header lines) := by
  unfold parseCSV
  rw [hsplit]
  cases lines with
  | nil => exact absurd rfl hne
  | cons line rest => simp [parseLines_eq, rowsOfCleanLines]

theorem rowsOfCleanLines_skip (header : Str) (before after : List Str) (bad : Str)
    (hbad : lineHasMarker bad = true) :
    rowsOfCleanLines header (before ++ bad :: after) = rowsOfCleanLines header (before ++ after) := by
  simp [rowsOfCleanLines, List.filter_append, List.filter_cons, hbad]

/-! ## The CSV parser: specification -/

/-- C7 (error-row exclusion): for a CSV text with a header line and at least one
data line, `parseCSV` returns exactly the rows built, in order, from the data
lines none of whose comma-separated fields contains `#N/A`, `#ERROR` or `#REF!`;
and when a data line contains such a marker, the result is the one of any text
that has the same lines without that line. -/
theorem parseCSV_error_rows_excluded (csvText header : Str) (lines : List Str)
    (hsplit : split '\n' (trim csvText) = header :: lines) (hne : lines ≠ []) :
    parseCSV csvText = Except.ok (rowsOfCleanLines header lines) ∧
    ∀ (before after : List Str) (bad : Str) (csvText2 : Str),
      lines = before ++ bad :: after → lineHasMarker bad = true →
      split '\n' (trim csvText2) = header :: (before ++ after) → before ++ after ≠ [] →
      parseCSV csvText2 = parseCSV csvText := by
  refine ⟨parseCSV_of_lines csvText header lines hsplit hne, ?_⟩
  intro before after bad csvText2 hlines hbad hsplit2 hne2
  rw [parseCSV_of_lines csvText header lines hsplit hne,
    parseCSV_of_lines csvText2 header (before ++ after) hsplit2 hne2, hlines,
    rowsOfCleanLines_skip header before after bad hbad]

/-! ## The price extraction: lemmas -/

theorem Row.mem_set {row : Row} {key k : Str} {value : Option Str} {v : Str}
    (h : (k, some v) ∈ Row.set row key value) : (k, some v) ∈ row ∨ value = some v := by
  induction row with
  | nil =>
    simp only [Row.set, List.mem_singleton, Prod.mk.injEq] at h
    exact Or.inr h.2.symm
  | cons kv rest ih =>
    obtain ⟨k0, v0⟩ := kv
    unfold Row.set at h
    split at h
    · rcases List.mem_cons.mp h with h1 | h1
      · simp only [Prod.mk.injEq] at h1
        exact Or.inr h1.2.symm
      · exact Or.inl (List.mem_cons_of_mem _ h1)
    · rcases List.mem_cons.mp h with h1 | h1
      · exact Or.inl (h1 ▸ List.mem_cons_self _ _)
      · rcases ih h1 with h2 | h2
        · exact Or.inl (List.mem_cons_of_mem _ h2)
        · exact Or.inr h2

theorem Row.mem_of_get {row : Row} {key v : Str} (h : Row.get row key = some v) :
    (key, some v) ∈ row := by
  induction row with
  | nil => simp [Row.get] at h
  | cons kv rest ih =>
    obtain ⟨k0, v0⟩ := kv
    unfold Row.get at h
    split at h
    · next hk => subst hk; subst h; exact List.mem_cons_self _ _
    · exact List.mem_cons_of_mem _ (ih h)

theorem fillRow_clean (values headers : List Str) (index : Nat) (row : Row)
    (hvalues : ∀ v ∈ values, trim v = v ∧ containsMarker v = false) (hrow : Row.Clean row) :
    Row.Clean (fillRow values headers index row) := by
  induction headers generalizing index row with
  | nil => exact hrow
  | cons header rest ih =>
    unfold fillRow
    apply ih
    intro k v hmem
    rcases Row.mem_set hmem with h | h
    · exact hrow k v h
    · exact hvalues v (List.getElem?_mem h)

theorem buildRow_clean (headers : List Str) (line : Str) (h : lineHasMarker line = false) :
    Row.Clean (buildRow headers (cellsOf line)) := by
  apply fillRow_clean
  · intro v hv
    have herr : hasError (cellsOf line) = false := by rw [hasError_cellsOf, h]
    constructor
    · obtain ⟨w, _, rfl⟩ := List.mem_map.mp hv
      exact trim_trim w
    · have := List.any_eq_false.mp herr v hv
      simpa [containsMarker] using this
  · intro k v hmem
    cases hmem

theorem rowsOfCleanLines_clean (header : Str) (lines : List Str) :
    ∀ row ∈ rowsOfCleanLines header lines, Row.Clean row := by
  intro row hrow
  obtain ⟨line, hline, rfl⟩ := List.mem_map.mp hrow
  have := (List.mem_filter.mp hline).2
  exact buildRow_clean _ line (by simpa using this)

theorem orStr_some {a b : Option Str} {v : Str} (h : orStr a b = some v) :
    a = some v ∨ b = some v := by
  unfold orStr at h
  split at h
  · exact Or.inl h
  · exact Or.inr h

theorem rowTicker_clean {row : Row} (hrow : Row.Clean row) {t : Str}
    (h : rowTicker row = some t) : trim t = t := by
  unfold rowTicker at h
  rcases orStr_some h with h | h
  · rcases orStr_some h with h | h
    · rcases orStr_some h with h | h
      · rcases orStr_some h with h | h
        · exact (hrow _ _ (Row.mem_of_get h)).1
        · exact (hrow _ _ (Row.mem_of_get h)).1
      · exact (hrow _ _ (Row.mem_of_get h)).1
    · exact (hrow _ _ (Row.mem_of_get h)).1
  · exact (hrow _ _ (Row.mem_of_get h)).1

theorem rowPrice_clean {row : Row} (hrow : Row.Clean row) {p : Str}
    (h : rowPrice row = some p) : priceHasError p = false := by
  have hc : containsMarker p = false := by
    unfold rowPrice at h
    rcases orStr_some h with h | h
    · rcases orStr_some h with h | h
      · rcases orStr_some h with h | h
        · rcases orStr_some h with h | h
          · exact (hrow _ _ (Row.mem_of_get h)).2
          · exact (hrow _ _ (Row.mem_of_get h)).2
        · exact (hrow _ _ (Row.mem_of_get h)).2
      · exact (hrow _ _ (Row.mem_of_get h)).2
    · exact (hrow _ _ (Row.mem_of_get h)).2
  exact hc

theorem JSNum.notNaN_and_gtZero (x : JSNum) : (!x.isNaN && x.gtZero) = x.gtZero := by
  cases x <;> simp [JSNum.isNaN, JSNum.gtZero]

theorem JSNum.isNaN_of_gtZero {x : JSNum} (h : x.gtZero = true) : x.isNaN = false := by
  cases x
  · simp [JSNum.gtZero] at h
  · rfl

theorem parseFloat_empty : parseFloat (stripNonNumeric []) = JSNum.nan := rfl

section
variable (toUpperCase : Str → Str)

theorem extractRow_eq (acc : List Quote × JSNum) (row : Row) (hrow : Row.Clean row) :
    extractRow toUpperCase acc row
      = (acc.1 ++ (if isStockRow toUpperCase row then [quoteOfRow row] else []),
          if isRateRow toUpperCase row then rowPriceValue row else acc.2) := by
  rcases hT : rowTicker row with _ | (_ | ⟨t, ts⟩)
  · simp [extractRow, isStockRow, isRateRow, hT, truthyStr]
  · simp [extractRow, isStockRow, isRateRow, hT, truthyStr]
  · rcases hP : rowPrice row with _ | (_ | ⟨p, ps⟩)
    · simp [extractRow, isStockRow, isRateRow, rowPriceValue, hT, hP, JSNum.gtZero]
    · simp [extractRow, isStockRow, isRateRow, rowPriceValue, hT, hP, parseFloat_empty,
        JSNum.gtZero]
    · have herr : priceHasError (p :: ps) = false := rowPrice_clean hrow hP
      have htrim : trim (t :: ts) = t :: ts := rowTicker_clean hrow hT
      by_cases hs : isSentinel toUpperCase (t :: ts) = true
      · by_cases hg : (parseFloat (stripNonNumeric (p :: ps))).gtZero = true
        · simp [extractRow, isStockRow, isRateRow, isSentinelRow, rowPriceValue, hT, hP, herr,
            hs, hg, truthyStr, JSNum.isNaN_of_gtZero hg]
        · simp [extractRow, isStockRow, isRateRow, isSentinelRow, rowPriceValue, hT, hP, herr,
            hs, hg, truthyStr, JSNum.notNaN_and_gtZero]
      · by_cases hg : (parseFloat (stripNonNumeric (p :: ps))).gtZero = true
        · simp [extractRow, isStockRow, isRateRow, isSentinelRow, rowPriceValue, quoteOfRow, hT,
            hP, herr, hs, hg, htrim, truthyStr, JSNum.isNaN_of_gtZero hg]
        · simp [extractRow, isStockRow, isRateRow, isSentinelRow, rowPriceValue, hT, hP, herr,
            hs, hg, truthyStr, JSNum.notNaN_and_gtZero]

theorem foldl_extractRow (rows : List Row) (hrows : ∀ row ∈ rows, Row.Clean row)
    (acc : List Quote × JSNum) :
    rows.foldl (extractRow toUpperCase) acc
      = (acc.1 ++ (rows.filter (isStockRow toUpperCase)).map quoteOfRow,
          (((rows.filter (isRateRow toUpperCase)).map rowPriceValue).getLast?).getD acc.2) := by
  induction rows generalizing acc with
  | nil => simp
  | cons row rest ih =>
    have hrow := hrows row (List.mem_cons_self _ _)
    have hrest : ∀ r ∈ rest, Row.Clean r := fun r hr => hrows r (List.mem_cons_of_mem _ hr)
    rw [List.foldl_cons, ih hrest, extractRow_eq toUpperCase acc row hrow]
    by_cases h1 : isStockRow toUpperCase row = true <;>
      by_cases h2 : isRateRow toUpperCase row = true <;>
      simp [h1, h2, List.filter_cons, List.getLast?_cons]

theorem extractPrices_eq (rows : List Row) (hrows : ∀ row ∈ rows, Row.Clean row) :
    extractPrices toUpperCase rows
      = ((rows.filter (isStockRow toUpperCase)).map quoteOfRow, rateOfRows toUpperCase rows) := by
  unfold extractPrices rateOfRows
  rw [foldl_extractRow toUpperCase rows hrows]
  simp

theorem fetchGoogleSheetData_of_lines (now : Str) (csvText header : Str) (lines : List Str)
    (hsplit : split '\n' (trim csvText) = header :: lines) (hne : lines ≠ []) :
    fetchGoogleSheetData toUpperCase now (FetchOutcome.response true csvText)
      = Except.ok
          { stocks := ((rowsOfCleanLines header lines).filter (isStockRow toUpperCase)).map
              quoteOfRow
            exchangeRate := rateOfRows toUpperCase (rowsOfCleanLines header lines)
            lastUpdated := now } := by
  simp only [fetchGoogleSheetData, parseCSV_of_lines csvText header lines hsplit hne,
    extractPrices_eq toUpperCase _ (rowsOfCleanLines_clean header lines)]
  rfl

end

/-! ## The secondary exchange-rate source: lemmas -/

theorem fetchExchangeRate_of_rate {a : ApiAttempt} {rate : JSNum} (h : attemptRate a = some rate) :
    fetchExchangeRate a
      = { rate := rate.round, source := "api".toList, error := none, timestamp := a.now } := by
  unfold attemptRate at h
  unfold fetchExchangeRate
  cases hp : fetchFromFrankfurter a.primary with
  | some r => rw [hp] at h; simp only [Option.some.injEq] at h; subst h; rfl
  | none => rw [hp] at h; simp only at h; simp only [h]

theorem fetchExchangeRate_of_none {a : ApiAttempt} (h : attemptRate a = none) :
    (fetchExchangeRate a).source = "manual".toList := by
  unfold attemptRate at h
  unfold fetchExchangeRate
  cases hp : fetchFromFrankfurter a.primary with
  | some r => rw [hp] at h; cases h
  | none => rw [hp] at h; simp only at h; simp only [h]

theorem autoFetchLoop_all_fail (attempts : Nat → ApiAttempt) (finalNow : Nat) (remaining start : Nat)
    (hfail : ∀ j, start ≤ j → j < start + remaining → attemptRate (attempts j) = none) :
    autoFetchLoop attempts finalNow remaining start
      = { rate := DEFAULT_EXCHANGE_RATE
          source := "manual".toList
          error := some "API 연결 실패. 수동으로 환율을 설정해주세요.".toList
          timestamp := finalNow } := by
  induction remaining generalizing start with
  | zero => rfl
  | succ n ih =>
    unfold autoFetchLoop
    have h0 := fetchExchangeRate_of_none (hfail start (Nat.le_refl _) (by omega))
    have hne : ((fetchExchangeRate (attempts start)).source == "api".toList) = false := by
      rw [h0]; decide
    simp only [hne, Bool.false_and]
    exact ih (start + 1) (fun j h1 h2 => hfail j (by omega) (by omega))

theorem autoFetchLoop_first_rate (attempts : Nat → ApiAttempt) (finalNow : Nat)
    (remaining start k : Nat) (rate : JSNum) (hk : k < remaining)
    (hfail : ∀ j, j < k → attemptRate (attempts (start + j)) = none)
    (hrate : attemptRate (attempts (start + k)) = some rate) :
    autoFetchLoop attempts finalNow remaining start
      = { rate := rate.round
          source := "api".toList
          error := none
          timestamp := (attempts (start + k)).now } := by
  induction k generalizing remaining start with
  | zero =>
    obtain ⟨n, rfl⟩ : ∃ n, remaining = n + 1 := ⟨remaining - 1, by omega⟩
    unfold autoFetchLoop
    rw [Nat.add_zero] at hrate ⊢
    simp [fetchExchangeRate_of_rate hrate]
  | succ k ih =>
    obtain ⟨n, rfl⟩ : ∃ n, remaining = n + 1 := ⟨remaining - 1, by omega⟩
    unfold autoFetchLoop
    have h0 := fetchExchangeRate_of_none (hfail 0 (Nat.succ_pos _))
    rw [Nat.add_zero] at h0
    have hne : ((fetchExchangeRate (attempts start)).source == "api".toList) = false := by
      rw [h0]; decide
    simp only [hne, Bool.false_and]
    have := ih n (start + 1) (by omega)
      (fun j hj => by have := hfail (j + 1) (by omega); rwa [Nat.add_assoc, Nat.add_comm 1 j])
      (by rwa [Nat.add_assoc, Nat.add_comm 1 k])
    rw [this, Nat.add_assoc, Nat.add_comm 1 k]
    simp

/-! ## The synchronisation cycle: lemmas -/

section
variable (toUpperCase : Str → Str)

theorem fetchAndUpdateData_of_failure (mounted : State) (env : CycleEnv)
    (hprices : ∃ e, fetchGoogleSheetData toUpperCase env.isoNow env.prices = Except.error e)
    (hboot : ∃ e, fetchGoogleSheetData toUpperCase env.isoNow env.bootstrapPrices = Except.error e) :
    fetchAndUpdateData toUpperCase mounted env = exchangeRateFallback env := by
  obtain ⟨e1, h1⟩ := hprices
  obtain ⟨e2, h2⟩ := hboot
  have hr : refreshPrices toUpperCase mounted env = exchangeRateFallback env := by
    simp [refreshPrices, h1]
  unfold fetchAndUpdateData
  split
  · split
    · split
      · simp [h2, hr]
      · exact hr
    · exact hr
  · exact hr

theorem fetchAndUpdateData_of_refresh (mounted : State) (env : CycleEnv) (d : SheetData)
    (hne : mounted.portfolio ≠ [])
    (hprices : fetchGoogleSheetData toUpperCase env.isoNow env.prices = Except.ok d) :
    fetchAndUpdateData toUpperCase mounted env
      = some (Action.UPDATE_PORTFOLIO_PRICES
          (updatePortfolioWithSheetData toUpperCase env.isoNow mounted.portfolio d.stocks)
          d.exchangeRate) := by
  have hlen : ¬ mounted.portfolio.length = 0 := by
    simpa [List.length_eq_zero] using hne
  simp [fetchAndUpdateData, hlen, refreshPrices, hprices]

theorem fetchAndUpdateData_of_prices (mounted : State) (env : CycleEnv) (d : SheetData)
    (hprices : fetchGoogleSheetData toUpperCase env.isoNow env.prices = Except.ok d)
    (hboot : fetchGoogleSheetData toUpperCase env.isoNow env.bootstrapPrices = Except.ok d) :
    ∃ portfolio, fetchAndUpdateData toUpperCase mounted env
      = some (Action.UPDATE_PORTFOLIO_PRICES portfolio d.exchangeRate) := by
  have hr : refreshPrices toUpperCase mounted env
      = some (Action.UPDATE_PORTFOLIO_PRICES
          (updatePortfolioWithSheetData toUpperCase env.isoNow mounted.portfolio d.stocks)
          d.exchangeRate) := by
    simp [refreshPrices, hprices]
  unfold fetchAndUpdateData
  split
  · split
    · split
      · rw [hboot]
        exact ⟨_, rfl⟩
      · exact ⟨_, hr⟩
    · exact ⟨_, hr⟩
  · exact ⟨_, hr⟩

end

theorem round_1400 : JSNum.round (JSNum.fin 1400) = JSNum.fin 1400 := by
  have h : ⌊(1400 : ℚ) + 1 / 2⌋ = 1400 := by
    rw [Int.floor_eq_iff]
    norm_num
  show JSNum.fin ((⌊(1400 : ℚ) + 1 / 2⌋ : ℤ) : ℚ) = JSNum.fin 1400
  rw [h]
  norm_num

section
variable (toUpperCase : Str → Str)

theorem commitCycle_of_total_failure (now : Nat) (mounted current : State) (env : CycleEnv)
    (hprices : ∃ e, fetchGoogleSheetData toUpperCase env.isoNow env.prices = Except.error e)
    (hboot : ∃ e, fetchGoogleSheetData toUpperCase env.isoNow env.bootstrapPrices = Except.error e)
    (hfail : ∀ j, j < 3 → attemptRate (env.attempts j) = none) :
    commitCycle toUpperCase now mounted current env
      = appReducer now current
          (Action.UPDATE_EXCHANGE_RATE DEFAULT_EXCHANGE_RATE "manual".toList env.finalNow) := by
  have hauto := autoFetchLoop_all_fail env.attempts env.finalNow 3 0
    (fun j _ h2 => hfail j (by omega))
  have htruthy : DEFAULT_EXCHANGE_RATE.truthy = true := by decide
  simp [commitCycle, fetchAndUpdateData_of_failure toUpperCase mounted env hprices hboot,
    exchangeRateFallback, autoFetchExchangeRate, hauto, htruthy]

theorem commitCycle_of_api_rate (now : Nat) (mounted current : State) (env : CycleEnv)
    (k : Nat) (rate : JSNum) (hk : k ≤ 2)
    (hprices : ∃ e, fetchGoogleSheetData toUpperCase env.isoNow env.prices = Except.error e)
    (hboot : ∃ e, fetchGoogleSheetData toUpperCase env.isoNow env.bootstrapPrices = Except.error e)
    (hfail : ∀ j, j < k → attemptRate (env.attempts j) = none)
    (hrate : attemptRate (env.attempts k) = some rate) (htruthy : rate.round.truthy = true) :
    commitCycle toUpperCase now mounted current env
      = appReducer now current
          (Action.UPDATE_EXCHANGE_RATE rate.round "api".toList (env.attempts k).now) := by
  have hauto := autoFetchLoop_first_rate env.attempts env.finalNow 3 0 k rate (by omega)
    (fun j hj => by simpa using hfail j hj) (by simpa using hrate)
  simp only [Nat.zero_add] at hauto
  simp [commitCycle, fetchAndUpdateData_of_failure toUpperCase mounted env hprices hboot,
    exchangeRateFallback, autoFetchExchangeRate, hauto, htruthy]

theorem commitCycle_of_refresh (now : Nat) (mounted current : State) (env : CycleEnv)
    (d : SheetData) (hne : mounted.portfolio ≠ [])
    (hprices : fetchGoogleSheetData toUpperCase env.isoNow env.prices = Except.ok d) :
    commitCycle toUpperCase now mounted current env
      = appReducer now current (Action.UPDATE_PORTFOLIO_PRICES
          (updatePortfolioWithSheetData toUpperCase env.isoNow mounted.portfolio d.stocks)
          d.exchangeRate) := by
  simp [commitCycle, fetchAndUpdateData_of_refresh toUpperCase mounted env d hne hprices]

theorem updatePortfolio_ids (now : Str) (portfolio : List Holding) (sheetStocks : List Quote) :
    (updatePortfolioWithSheetData toUpperCase now portfolio sheetStocks).map Holding.id
      = portfolio.map Holding.id := by
  rw [updatePortfolio_eq_map, List.map_map]
  apply List.map_congr_left
  intro stock _
  simp only [Function.comp, updateHolding]
  split <;> rfl

end

/-! ## The synchronisation cycle: specification -/

/-- C4 (graceful degradation, evaluated on the code): the price request is
rejected and all three attempts of the secondary source fail, yet the cycle
dispatches `UPDATE_EXCHANGE_RATE` with the default rate: the state that held the
rate 1400 from the price sheet is committed with the rate 1477, the source tag
`manual` and a new time stamp. -/
theorem commitCycle_total_failure_overwrites_rate :
    commitCycle asciiUpperCase 9 sampleState sampleState
        (sampleEnv FetchOutcome.rejected offlineAttempt)
      = { sampleState with
          settings :=
            { exchangeRate := JSNum.fin 1477
              exchangeRateSource := "manual".toList
              exchangeRateLastUpdated := 9
              currency := "KRW".toList } } ∧
    commitCycle asciiUpperCase 9 sampleState sampleState
        (sampleEnv FetchOutcome.rejected offlineAttempt) ≠ sampleState := by
  have h := commitCycle_of_total_failure asciiUpperCase 9 sampleState sampleState
    (sampleEnv FetchOutcome.rejected offlineAttempt) ⟨_, rfl⟩ ⟨_, rfl⟩ (fun _ _ => rfl)
  rw [h]
  exact ⟨rfl, by decide⟩

/-- C9 (Scenario D, with the source tag the code uses): when every price request
of the cycle fails and the first answer of the secondary source, within its three
attempts, is the rate 1400, the committed state is the state before the cycle
with exchange rate 1400, source tag `api` and the time stamp of that answer; the
portfolio and every other slice are as before the cycle. -/
theorem commitCycle_fallback_rate (toUpperCase : Str → Str) (now : Nat)
    (mounted current : State) (env : CycleEnv) (k : Nat) (hk : k ≤ 2)
    (hprices : ∃ e, fetchGoogleSheetData toUpperCase env.isoNow env.prices = Except.error e)
    (hboot : ∃ e, fetchGoogleSheetData toUpperCase env.isoNow env.bootstrapPrices = Except.error e)
    (hfail : ∀ j, j < k → attemptRate (env.attempts j) = none)
    (hrate : attemptRate (env.attempts k) = some (JSNum.fin 1400)) :
    commitCycle toUpperCase now mounted current env
      = { current with
          settings :=
            { current.settings with
              exchangeRate := JSNum.fin 1400
              exchangeRateSource := "api".toList
              exchangeRateLastUpdated := (env.attempts k).now } } ∧
    (commitCycle toUpperCase now mounted current env).portfolio = current.portfolio := by
  have h := commitCycle_of_api_rate toUpperCase now mounted current env k (JSNum.fin 1400) hk
    hprices hboot hfail hrate (by rw [round_1400]; decide)
  rw [h, round_1400]
  exact ⟨rfl, rfl⟩

/-- An instance of C9: the price request is rejected and the primary API of the
secondary source answers 1400 at the first attempt. -/
theorem commitCycle_fallback_rate_witness :
    commitCycle asciiUpperCase 9 sampleState sampleState
        (sampleEnv FetchOutcome.rejected (onlineAttempt 1400))
      = { sampleState with
          settings :=
            { sampleState.settings with
              exchangeRate := JSNum.fin 1400
              exchangeRateSource := "api".toList
              exchangeRateLastUpdated := 5 } } ∧
    (commitCycle asciiUpperCase 9 sampleState sampleState
        (sampleEnv FetchOutcome.rejected (onlineAttempt 1400))).portfolio
      = sampleState.portfolio :=
  commitCycle_fallback_rate asciiUpperCase 9 sampleState sampleState
    (sampleEnv FetchOutcome.rejected (onlineAttempt 1400)) 0 (by decide) ⟨_, rfl⟩ ⟨_, rfl⟩
    (fun _ hj => absurd hj (Nat.not_lt_zero _)) (by decide)

/-- C9 as stated fails on the source tag: in Scenario D the committed source tag
is `api`, not `external-api`. -/
theorem commitCycle_fallback_source_tag :
    (commitCycle asciiUpperCase 9 sampleState sampleState
        (sampleEnv FetchOutcome.rejected (onlineAttempt 1400))).settings.exchangeRateSource
      = "api".toList ∧
    (commitCycle asciiUpperCase 9 sampleState sampleState
        (sampleEnv FetchOutcome.rejected (onlineAttempt 1400))).settings.exchangeRateSource
      ≠ "external-api".toList := by
  have h := commitCycle_of_api_rate asciiUpperCase 9 sampleState sampleState
    (sampleEnv FetchOutcome.rejected (onlineAttempt 1400)) 0 (JSNum.fin 1400) (by decide)
    ⟨_, rfl⟩ ⟨_, rfl⟩ (fun _ hj => absurd hj (Nat.not_lt_zero _)) (by decide)
    (by rw [round_1400]; decide)
  rw [h]
  exact ⟨rfl, by decide⟩

/-- C10 (evaluated on the code): the application starts with the position
`stock-AAPL`, the user adds `stock-TSLA`, and the next timer cycle fetches the
price sheet.  The cycle reconciles the portfolio of the first render and commits
it: the added position is in the state before the commit and the committed
portfolio holds `stock-AAPL` alone. -/
theorem commitCycle_drops_added_holding :
    sampleHolding "Tesla" "TSLA" 300
      ∈ (dispatchAll sampleState
          [(1, Action.ADD_STOCK (sampleHolding "Tesla" "TSLA" 300))]).portfolio ∧
    (commitCycle asciiUpperCase 9 sampleState
        (dispatchAll sampleState [(1, Action.ADD_STOCK (sampleHolding "Tesla" "TSLA" 300))])
        (sampleEnv (FetchOutcome.response true sampleSheet) offlineAttempt)).portfolio.map
        Holding.id
      = ["stock-AAPL".toList] := by
  refine ⟨by decide, ?_⟩
  have hfetch := fetchGoogleSheetData_of_lines asciiUpperCase sampleNow sampleSheet
    "Ticker,Price".toList ["AAPL,150.25".toList] (by decide) (by decide)
  rw [commitCycle_of_refresh asciiUpperCase 9 sampleState _
    (sampleEnv (FetchOutcome.response true sampleSheet) offlineAttempt) _ (by decide) hfetch]
  show (updatePortfolioWithSheetData asciiUpperCase sampleNow sampleState.portfolio _).map
    Holding.id = _
  rw [updatePortfolio_ids]
  decide

/-! ## The price extraction: evaluation on the sample sheets -/

theorem parseFloat_150_25 : parseFloat (stripNonNumeric "150.25".toList) = JSNum.fin 150.25 := by
  have h : scanFloat (stripNonNumeric "150.25".toList) = some (false, 15025, -2) := by decide
  simp only [parseFloat, h]
  norm_num

theorem parseFloat_1300 : parseFloat (stripNonNumeric "1300".toList) = JSNum.fin 1300 := by
  have h : scanFloat (stripNonNumeric "1300".toList) = some (false, 1300, 0) := by decide
  simp only [parseFloat, h]
  norm_num

theorem parseFloat_5 : parseFloat (stripNonNumeric "5".toList) = JSNum.fin 5 := by
  have h : scanFloat (stripNonNumeric "5".toList) = some (false, 5, 0) := by decide
  simp only [parseFloat, h]
  norm_num

theorem rowPriceValue_aapl : rowPriceValue (sampleRow "AAPL" "150.25") = JSNum.fin 150.25 :=
  parseFloat_150_25

theorem rowPriceValue_usd : rowPriceValue (sampleRow "USD" "1300") = JSNum.fin 1300 :=
  parseFloat_1300

theorem rowPriceValue_tickerless : rowPriceValue (sampleRow "" "5") = JSNum.fin 5 :=
  parseFloat_5

theorem scenarioSheet_stocks :
    ([sampleRow "AAPL" "150.25", sampleRow "USD" "1300"].filter (isStockRow asciiUpperCase)).map
      quoteOfRow = [{ ticker := "AAPL".toList, price := JSNum.fin 150.25 }] := by
  have h1 : isStockRow asciiUpperCase (sampleRow "AAPL" "150.25") = true := by
    have ht : truthyStr (rowTicker (sampleRow "AAPL" "150.25")) = true := by decide
    have hs : isSentinelRow asciiUpperCase (sampleRow "AAPL" "150.25") = false := by decide
    simp only [isStockRow, ht, hs, rowPriceValue_aapl, JSNum.gtZero]
    norm_num
  have h2 : isStockRow asciiUpperCase (sampleRow "USD" "1300") = false := by
    have hs : isSentinelRow asciiUpperCase (sampleRow "USD" "1300") = true := by decide
    simp [isStockRow, hs]
  have hq : quoteOfRow (sampleRow "AAPL" "150.25")
      = { ticker := "AAPL".toList, price := JSNum.fin 150.25 } := by
    have ht : (rowTicker (sampleRow "AAPL" "150.25")).getD [] = "AAPL".toList := by decide
    simp only [quoteOfRow, ht, rowPriceValue_aapl]
  simp [List.filter_cons, h1, h2, hq]

theorem scenarioSheet_rate :
    rateOfRows asciiUpperCase [sampleRow "AAPL" "150.25", sampleRow "USD" "1300"]
      = JSNum.fin 1300 := by
  have h1 : isRateRow asciiUpperCase (sampleRow "AAPL" "150.25") = false := by
    have hs : isSentinelRow asciiUpperCase (sampleRow "AAPL" "150.25") = false := by decide
    simp [isRateRow, hs]
  have h2 : isRateRow asciiUpperCase (sampleRow "USD" "1300") = true := by
    have ht : truthyStr (rowTicker (sampleRow "USD" "1300")) = true := by decide
    have hs : isSentinelRow asciiUpperCase (sampleRow "USD" "1300") = true := by decide
    simp [isRateRow, ht, hs, rowPriceValue_usd, JSNum.gtZero]
  simp [rateOfRows, List.filter_cons, h1, h2, rowPriceValue_usd]

theorem rateOfRows_default (toUpperCase : Str → Str) (rows : List Row)
    (h : ∀ row ∈ rows, isSentinelRow toUpperCase row = true → (rowPriceValue row).gtZero = false) :
    rateOfRows toUpperCase rows = sheetDefaultRate := by
  have hnil : rows.filter (isRateRow toUpperCase) = [] := by
    rw [List.filter_eq_nil_iff]
    intro row hrow
    by_cases hs : isSentinelRow toUpperCase row = true
    · simp [isRateRow, h row hrow hs]
    · simp [isRateRow, hs]
  simp [rateOfRows, hnil]

theorem parseCSV_ok_inv {csvText : Str} {rows : List Row} (h : parseCSV csvText = Except.ok rows) :
    ∃ header lines, split '\n' (trim csvText) = header :: lines ∧ lines ≠ [] ∧
      rows = rowsOfCleanLines header lines := by
  rcases hs : split '\n' (trim csvText) with _ | ⟨header, _ | ⟨line, rest⟩⟩
  · simp [parseCSV, hs] at h
  · simp [parseCSV, hs] at h
  · refine ⟨header, line :: rest, rfl, by simp, ?_⟩
    rw [parseCSV_of_lines csvText header (line :: rest) hs (by simp)] at h
    exact (Except.ok.inj h).symm

theorem fetchGoogleSheetData_ok_inv (toUpperCase : Str → Str) {now body : Str} {d : SheetData}
    (h : fetchGoogleSheetData toUpperCase now (FetchOutcome.response true body) = Except.ok d) :
    ∃ rows, parseCSV body = Except.ok rows ∧ (∀ row ∈ rows, Row.Clean row) ∧
      d.stocks = (rows.filter (isStockRow toUpperCase)).map quoteOfRow ∧
      d.exchangeRate = rateOfRows toUpperCase rows := by
  cases hp : parseCSV body with
  | error e => simp [fetchGoogleSheetData, hp] at h
  | ok rows =>
    obtain ⟨header, lines, hsplit, hne, hrows⟩ := parseCSV_ok_inv hp
    rw [fetchGoogleSheetData_of_lines toUpperCase now body header lines hsplit hne] at h
    have hd := Except.ok.inj h
    subst hd
    subst hrows
    exact ⟨_, rfl, rowsOfCleanLines_clean header lines, rfl, rfl⟩

/-! ## The price extraction: specification -/

/-- C6 (sentinel exclusivity): no quote in the `stocks` list that
`fetchGoogleSheetData` extracts from a fetched table has a ticker equal to `USD`
or `USDKRW` case-insensitively, and the `stocks` list is the one extracted from
the table without its sentinel rows: such a row can only affect `exchangeRate`. -/
theorem sentinel_excluded_from_stocks (toUpperCase : Str → Str) (now body : Str) (d : SheetData)
    (h : fetchGoogleSheetData toUpperCase now (FetchOutcome.response true body) = Except.ok d) :
    (∀ s ∈ d.stocks,
      toUpperCase s.ticker ≠ "USD".toList ∧ toUpperCase s.ticker ≠ "USDKRW".toList) ∧
    ∃ rows, parseCSV body = Except.ok rows ∧
      d.stocks
        = (extractPrices toUpperCase
            (rows.filter (fun row => !isSentinelRow toUpperCase row))).1 := by
  obtain ⟨rows, hparse, hclean, hstocks, _⟩ := fetchGoogleSheetData_ok_inv toUpperCase h
  constructor
  · intro s hs
    rw [hstocks] at hs
    obtain ⟨row, hrow, rfl⟩ := List.mem_map.mp hs
    have hstock := (List.mem_filter.mp hrow).2
    simp only [isStockRow, Bool.and_eq_true, Bool.not_eq_true', isSentinelRow] at hstock
    obtain ⟨⟨ht, hsent⟩, _⟩ := hstock
    cases hT : rowTicker row with
    | none => rw [hT] at ht; simp [truthyStr] at ht
    | some t =>
      rw [hT] at hsent
      simpa [quoteOfRow, hT, isSentinel] using hsent
  · refine ⟨rows, hparse, ?_⟩
    have hclean2 : ∀ row ∈ rows.filter (fun row => !isSentinelRow toUpperCase row),
        Row.Clean row := fun row hrow => hclean row (List.mem_filter.mp hrow).1
    rw [extractPrices_eq toUpperCase _ hclean2, hstocks, List.filter_filter]
    congr 1
    apply List.filter_congr
    intro row _
    by_cases hs : isSentinelRow toUpperCase row = true <;> simp [isStockRow, hs]

/-- An instance of C6 on the sheet of Scenario A: the `USD` row yields no quote. -/
theorem sentinel_excluded_from_stocks_witness :
    (∀ s ∈ [({ ticker := "AAPL".toList, price := JSNum.fin 150.25 } : Quote)],
      asciiUpperCase s.ticker ≠ "USD".toList ∧ asciiUpperCase s.ticker ≠ "USDKRW".toList) ∧
    ∃ rows, parseCSV scenarioSheet = Except.ok rows ∧
      [({ ticker := "AAPL".toList, price := JSNum.fin 150.25 } : Quote)]
        = (extractPrices asciiUpperCase
            (rows.filter (fun row => !isSentinelRow asciiUpperCase row))).1 :=
  sentinel_excluded_from_stocks asciiUpperCase sampleNow scenarioSheet
    { stocks := [{ ticker := "AAPL".toList, price := JSNum.fin 150.25 }]
      exchangeRate := JSNum.fin 1300
      lastUpdated := sampleNow }
    (by
      rw [fetchGoogleSheetData_of_lines asciiUpperCase sampleNow scenarioSheet
        "Ticker,Price".toList ["AAPL,150.25".toList, "USD,1300".toList, "#N/A,999".toList]
        (by decide) (by decide)]
      have hrows : rowsOfCleanLines "Ticker,Price".toList
          ["AAPL,150.25".toList, "USD,1300".toList, "#N/A,999".toList]
          = [sampleRow "AAPL" "150.25", sampleRow "USD" "1300"] := by decide
      rw [hrows, scenarioSheet_stocks, scenarioSheet_rate])

/-- C8 (extraction contract, with the guard on the ticker): for a fetched table
with a header line and data lines, `fetchGoogleSheetData` returns as `stocks`
the quotes of exactly those rows, in input order, that are built from the lines
free of error markers, have a non-empty ticker that is no sentinel and have a
positive price; and as `exchangeRate` the price of the last sentinel row with a
positive price, which is the price of the sentinel row when there is one such
row, and 1300 when there is none. -/
theorem extraction_contract (toUpperCase : Str → Str) (now csvText header : Str)
    (lines : List Str) (hsplit : split '\n' (trim csvText) = header :: lines)
    (hne : lines ≠ []) :
    ∃ d, fetchGoogleSheetData toUpperCase now (FetchOutcome.response true csvText) = Except.ok d ∧
      d.stocks = ((rowsOfCleanLines header lines).filter (isStockRow toUpperCase)).map quoteOfRow ∧
      d.exchangeRate = rateOfRows toUpperCase (rowsOfCleanLines header lines) ∧
      (∀ row, (rowsOfCleanLines header lines).filter (isRateRow toUpperCase) = [row] →
        d.exchangeRate = rowPriceValue row) ∧
      ((rowsOfCleanLines header lines).filter (isRateRow toUpperCase) = [] →
        d.exchangeRate = JSNum.fin 1300) := by
  refine ⟨_, fetchGoogleSheetData_of_lines toUpperCase now csvText header lines hsplit hne,
    rfl, rfl, ?_, ?_⟩
  · intro row hrow
    simp [rateOfRows, hrow]
  · intro hnil
    simp [rateOfRows, hnil, sheetDefaultRate]

/-- Scenario A, as an instance of C8: the data lines `AAPL,150.25`, `USD,1300`
and `#N/A,999` give the one quote AAPL at 150.25 and the exchange rate 1300; the
third line is dropped. -/
theorem extraction_contract_witness :
    ∃ d, fetchGoogleSheetData asciiUpperCase sampleNow (FetchOutcome.response true scenarioSheet)
        = Except.ok d ∧
      d.stocks = [{ ticker := "AAPL".toList, price := JSNum.fin 150.25 }] ∧
      d.exchangeRate = JSNum.fin 1300 := by
  obtain ⟨d, hd, hstocks, hrate, _⟩ := extraction_contract asciiUpperCase sampleNow scenarioSheet
    "Ticker,Price".toList ["AAPL,150.25".toList, "USD,1300".toList, "#N/A,999".toList]
    (by decide) (by decide)
  have hrows : rowsOfCleanLines "Ticker,Price".toList
      ["AAPL,150.25".toList, "USD,1300".toList, "#N/A,999".toList]
      = [sampleRow "AAPL" "150.25", sampleRow "USD" "1300"] := by decide
  rw [hrows] at hstocks hrate
  exact ⟨d, hd, hstocks.trans scenarioSheet_stocks, hrate.trans scenarioSheet_rate⟩

/-- C8 as stated fails on a row without a ticker: the sheet with the one data
line `,5` has a row that is no sentinel, is free of error markers and has the
positive price 5, and the extraction returns no quote. -/
theorem extraction_skips_tickerless_row :
    fetchGoogleSheetData asciiUpperCase sampleNow (FetchOutcome.response true tickerlessSheet)
      = Except.ok { stocks := [], exchangeRate := JSNum.fin 1300, lastUpdated := sampleNow } ∧
    (rowsOfCleanLines "Ticker,Price".toList [",5".toList]).filter
        (fun row => !isSentinelRow asciiUpperCase row && (rowPriceValue row).gtZero)
      = [sampleRow "" "5"] := by
  have hrows : rowsOfCleanLines "Ticker,Price".toList [",5".toList] = [sampleRow "" "5"] := by
    decide
  have hsent : isSentinelRow asciiUpperCase (sampleRow "" "5") = false := by decide
  have hticker : truthyStr (rowTicker (sampleRow "" "5")) = false := by decide
  constructor
  · rw [fetchGoogleSheetData_of_lines asciiUpperCase sampleNow tickerlessSheet
      "Ticker,Price".toList [",5".toList] (by decide) (by decide), hrows]
    have h1 : isStockRow asciiUpperCase (sampleRow "" "5") = false := by
      simp [isStockRow, hticker]
    have h2 : rateOfRows asciiUpperCase [sampleRow "" "5"] = JSNum.fin 1300 :=
      rateOfRows_default asciiUpperCase _ (by
        intro row hrow hs
        simp only [List.mem_singleton] at hrow
        subst hrow
        rw [hsent] at hs
        cases hs)
    simp [List.filter_cons, h1, h2]
  · rw [hrows]
    simp only [List.filter_cons, hsent, rowPriceValue_tickerless, JSNum.gtZero]
    norm_num

/-! ## The exchange rate after a price refresh -/

theorem commitCycle_rate_of_prices (toUpperCase : Str → Str) (now : Nat)
    (mounted current : State) (env : CycleEnv) (d : SheetData)
    (hprices : fetchGoogleSheetData toUpperCase env.isoNow env.prices = Except.ok d)
    (hboot : fetchGoogleSheetData toUpperCase env.isoNow env.bootstrapPrices = Except.ok d) :
    (commitCycle toUpperCase now mounted current env).settings.exchangeRate = d.exchangeRate ∧
    (commitCycle toUpperCase now mounted current env).settings.exchangeRateSource
      = "google-sheets".toList := by
  obtain ⟨portfolio, h⟩ := fetchAndUpdateData_of_prices toUpperCase mounted env d hprices hboot
  simp only [commitCycle, h]
  exact ⟨rfl, rfl⟩

theorem commitCycle_default_rate (toUpperCase : Str → Str) (now : Nat)
    (mounted current : State) (env : CycleEnv) (body header : Str) (lines : List Str)
    (hprices : env.prices = FetchOutcome.response true body)
    (hboot : env.bootstrapPrices = FetchOutcome.response true body)
    (hsplit : split '\n' (trim body) = header :: lines) (hne : lines ≠ [])
    (hnone : ∀ row ∈ rowsOfCleanLines header lines,
      isSentinelRow toUpperCase row = true → (rowPriceValue row).gtZero = false) :
    (commitCycle toUpperCase now mounted current env).settings.exchangeRate = JSNum.fin 1300 ∧
    (commitCycle toUpperCase now mounted current env).settings.exchangeRateSource
      = "google-sheets".toList := by
  have hfetch := fetchGoogleSheetData_of_lines toUpperCase env.isoNow body header lines hsplit hne
  have h := commitCycle_rate_of_prices toUpperCase now mounted current env _
    (by rw [hprices]; exact hfetch) (by rw [hboot]; exact hfetch)
  refine ⟨h.1.trans ?_, h.2⟩
  exact rateOfRows_default toUpperCase _ hnone

theorem sampleSheet_no_rate_row :
    ∀ row ∈ rowsOfCleanLines "Ticker,Price".toList ["AAPL,150.25".toList],
      isSentinelRow asciiUpperCase row = true → (rowPriceValue row).gtZero = false := by
  have hrows : rowsOfCleanLines "Ticker,Price".toList ["AAPL,150.25".toList]
      = [sampleRow "AAPL" "150.25"] := by decide
  have hsent : isSentinelRow asciiUpperCase (sampleRow "AAPL" "150.25") = false := by decide
  intro row hrow hs
  rw [hrows, List.mem_singleton] at hrow
  subst hrow
  rw [hsent] at hs
  cases hs

/-- C5 (with the fallback the code has): when the price-sheet fetch of a cycle
succeeds and the table has no sentinel row (ticker `USD` or `USDKRW`) whose price
parses to a positive number, the committed exchange rate is the default 1300 of
`fetchGoogleSheetData`, tagged `google-sheets`, whatever rate the state held
before the cycle. -/
theorem refresh_without_sentinel_commits_default (toUpperCase : Str → Str) (now : Nat)
    (mounted current : State) (env : CycleEnv) (body header : Str) (lines : List Str)
    (hprices : env.prices = FetchOutcome.response true body)
    (hboot : env.bootstrapPrices = FetchOutcome.response true body)
    (hsplit : split '\n' (trim body) = header :: lines) (hne : lines ≠ [])
    (hnone : ∀ row ∈ rowsOfCleanLines header lines,
      isSentinelRow toUpperCase row = true → (rowPriceValue row).gtZero = false) :
    (commitCycle toUpperCase now mounted current env).settings.exchangeRate = JSNum.fin 1300 ∧
    (commitCycle toUpperCase now mounted current env).settings.exchangeRateSource
      = "google-sheets".toList :=
  commitCycle_default_rate toUpperCase now mounted current env body header lines hprices hboot
    hsplit hne hnone

/-- An instance of C5: a sheet with the one row `AAPL,150.25`, fetched by a state
that holds the rate 1400. -/
theorem refresh_without_sentinel_commits_default_witness :
    (commitCycle asciiUpperCase 9 sampleState sampleState
        (sampleEnv (FetchOutcome.response true sampleSheet) offlineAttempt)).settings.exchangeRate
      = JSNum.fin 1300 ∧
    (commitCycle asciiUpperCase 9 sampleState sampleState
        (sampleEnv (FetchOutcome.response true sampleSheet)
          offlineAttempt)).settings.exchangeRateSource
      = "google-sheets".toList :=
  refresh_without_sentinel_commits_default asciiUpperCase 9 sampleState sampleState
    (sampleEnv (FetchOutcome.response true sampleSheet) offlineAttempt) sampleSheet
    "Ticker,Price".toList ["AAPL,150.25".toList] rfl rfl (by decide) (by decide)
    sampleSheet_no_rate_row

/-- C5 as stated fails: the state holds the exchange rate 1400, the fetched sheet
has no sentinel row, and the committed exchange rate is 1300, not 1400. -/
theorem refresh_without_sentinel_loses_rate :
    sampleState.settings.exchangeRate = JSNum.fin 1400 ∧
    (commitCycle asciiUpperCase 9 sampleState sampleState
        (sampleEnv (FetchOutcome.response true sampleSheet) offlineAttempt)).settings.exchangeRate
      = JSNum.fin 1300 ∧
    (commitCycle asciiUpperCase 9 sampleState sampleState
        (sampleEnv (FetchOutcome.response true sampleSheet) offlineAttempt)).settings.exchangeRate
      ≠ sampleState.settings.exchangeRate := by
  have h := (commitCycle_default_rate asciiUpperCase 9 sampleState sampleState
    (sampleEnv (FetchOutcome.response true sampleSheet) offlineAttempt) sampleSheet
    "Ticker,Price".toList ["AAPL,150.25".toList] rfl rfl (by decide) (by decide)
    sampleSheet_no_rate_row).1
  refine ⟨rfl, h, ?_⟩
  rw [h]
  decide

/-- An instance of C7: the line `#N/A,999` yields no row, and the rows are those
of the sheet without that line. -/
theorem parseCSV_error_rows_excluded_witness :
    parseCSV "Ticker,Price\nAAPL,150.25\n#N/A,999\nUSD,1300".toList
      = Except.ok [sampleRow "AAPL" "150.25", sampleRow "USD" "1300"] ∧
    parseCSV "Ticker,Price\nAAPL,150.25\nUSD,1300".toList
      = parseCSV "Ticker,Price\nAAPL,150.25\n#N/A,999\nUSD,1300".toList :=
  ⟨(parseCSV_error_rows_excluded "Ticker,Price\nAAPL,150.25\n#N/A,999\nUSD,1300".toList
      "Ticker,Price".toList ["AAPL,150.25".toList, "#N/A,999".toList, "USD,1300".toList]
      (by decide) (by decide)).1,
    (parseCSV_error_rows_excluded "Ticker,Price\nAAPL,150.25\n#N/A,999\nUSD,1300".toList
      "Ticker,Price".toList ["AAPL,150.25".toList, "#N/A,999".toList, "USD,1300".toList]
      (by decide) (by decide)).2 ["AAPL,150.25".toList] ["USD,1300".toList] "#N/A,999".toList
      "Ticker,Price\nAAPL,150.25\nUSD,1300".toList rfl (by decide) (by decide) (by decide)⟩

/-! ## Reconciler: idempotence -/

section
variable (toUpperCase : Str → Str)

theorem holdingKey_updateHolding (now : Str) (sheetStocks : List Quote) (stock : Holding) :
    holdingKey (updateHolding toUpperCase now sheetStocks stock) = holdingKey stock := by
  unfold updateHolding
  split <;> rfl

theorem matchesHolding_updateHolding (now : Str) (sheetStocks : List Quote) (stock : Holding) :
    matchesHolding toUpperCase (updateHolding toUpperCase now sheetStocks stock)
      = matchesHolding toUpperCase stock := by
  funext s
  simp only [matchesHolding, holdingKey_updateHolding]

theorem updateHolding_price_of_find (now : Str) (sheetStocks : List Quote) (stock : Holding) :
    (updateHolding toUpperCase now sheetStocks stock).currentPrice
      = match sheetStocks.find? (matchesHolding toUpperCase stock) with
        | some sheetStock => sheetStock.price
        | none => stock.currentPrice := by
  unfold updateHolding
  split <;> rfl

theorem updateHolding_price_clock (now1 now2 : Str) (sheetStocks : List Quote) (stock : Holding) :
    (updateHolding toUpperCase now1 sheetStocks stock).currentPrice
      = (updateHolding toUpperCase now2 sheetStocks stock).currentPrice := by
  rw [updateHolding_price_of_find, updateHolding_price_of_find]

theorem updateHolding_price_again (now1 now2 : Str) (sheetStocks : List Quote) (stock : Holding) :
    (updateHolding toUpperCase now2 sheetStocks
        (updateHolding toUpperCase now1 sheetStocks stock)).currentPrice
      = (updateHolding toUpperCase now1 sheetStocks stock).currentPrice := by
  rw [updateHolding_price_of_find toUpperCase now2, matchesHolding_updateHolding,
    updateHolding_price_of_find toUpperCase now1]
  split <;> rfl

/-- C11 (idempotent reconciliation): two calls of `updatePortfolioWithSheetData`
on the same holdings and quotes, at whatever times, give the same `currentPrice`
at every position, and reconciling the result once more against the same quotes
leaves the `currentPrice` of every position unchanged. -/
theorem updatePortfolio_idempotent_prices (now1 now2 : Str) (H : List Holding) (Q : List Quote) :
    (updatePortfolioWithSheetData toUpperCase now1 H Q).map Holding.currentPrice
      = (updatePortfolioWithSheetData toUpperCase now2 H Q).map Holding.currentPrice ∧
    (updatePortfolioWithSheetData toUpperCase now2
        (updatePortfolioWithSheetData toUpperCase now1 H Q) Q).map Holding.currentPrice
      = (updatePortfolioWithSheetData toUpperCase now1 H Q).map Holding.currentPrice := by
  simp only [updatePortfolio_eq_map, List.map_map]
  constructor
  · apply List.map_congr_left
    intro stock _
    exact updateHolding_price_clock toUpperCase now1 now2 Q stock
  · apply List.map_congr_left
    intro stock _
    exact updateHolding_price_again toUpperCase now1 now2 Q stock

end

/-! ## The state container: portfolio actions -/

theorem ids_of_UPDATE_STOCK (now : Nat) (state : State) (payload : Holding) :
    (appReducer now state (Action.UPDATE_STOCK payload)).portfolio.map Holding.id
      = state.portfolio.map Holding.id := by
  show (state.portfolio.map (fun item => if item.id = payload.id then payload else item)).map
    Holding.id = _
  rw [List.map_map]
  apply List.map_congr_left
  intro item _
  simp only [Function.comp]
  split
  · next h => exact h.symm
  · rfl

theorem ids_of_DELETE_STOCK (now : Nat) (state : State) (payload : Str) :
    (appReducer now state (Action.DELETE_STOCK payload)).portfolio.map Holding.id
      = (state.portfolio.map Holding.id).filter (fun i => i ≠ payload) := by
  show (state.portfolio.filter (fun item => item.id ≠ payload)).map Holding.id = _
  rw [List.filter_map]
  rfl

theorem ids_of_ADD_STOCK (now : Nat) (state : State) (payload : Holding) :
    (appReducer now state (Action.ADD_STOCK payload)).portfolio.map Holding.id
      = state.portfolio.map Holding.id ++ [payload.id] := by
  show (state.portfolio ++ [payload]).map Holding.id = _
  simp

/-- C12 (identifier uniqueness, with the condition `ADD_STOCK` needs): when the
ids of the portfolio are pairwise distinct, they are so again after every
`UPDATE_STOCK`, after every `DELETE_STOCK`, and after an `ADD_STOCK` whose payload
has an id that no holding of the portfolio has. -/
theorem reducer_keeps_ids_distinct (now : Nat) (state : State)
    (h : idsDistinct state.portfolio) :
    (∀ payload, idsDistinct (appReducer now state (Action.UPDATE_STOCK payload)).portfolio) ∧
    (∀ payload, idsDistinct (appReducer now state (Action.DELETE_STOCK payload)).portfolio) ∧
    (∀ payload, payload.id ∉ state.portfolio.map Holding.id →
      idsDistinct (appReducer now state (Action.ADD_STOCK payload)).portfolio) := by
  unfold idsDistinct at h ⊢
  refine ⟨?_, ?_, ?_⟩
  · intro payload
    rw [ids_of_UPDATE_STOCK]
    exact h
  · intro payload
    rw [ids_of_DELETE_STOCK]
    exact h.filter _
  · intro payload hnew
    rw [ids_of_ADD_STOCK]
    exact List.Nodup.append h (List.nodup_singleton _) (by simpa using hnew)

/-- An instance of C12: adding `stock-TSLA` to the portfolio that holds
`stock-AAPL`. -/
theorem reducer_keeps_ids_distinct_witness :
    idsDistinct
      (appReducer 1 sampleState (Action.ADD_STOCK (sampleHolding "Tesla" "TSLA" 300))).portfolio :=
  (reducer_keeps_ids_distinct 1 sampleState (by unfold idsDistinct; decide)).2.2
    (sampleHolding "Tesla" "TSLA" 300) (by decide)

/-- C12 as stated fails for `ADD_STOCK`: the portfolio holds `stock-AAPL` once,
and after an `ADD_STOCK` whose payload has the id `stock-AAPL` it holds that id
twice. -/
theorem reducer_add_duplicates_id :
    idsDistinct sampleState.portfolio ∧
    (appReducer 1 sampleState
        (Action.ADD_STOCK (sampleHolding "Apple" "AAPL" 100))).portfolio.map Holding.id
      = ["stock-AAPL".toList, "stock-AAPL".toList] ∧
    ¬ idsDistinct
      (appReducer 1 sampleState (Action.ADD_STOCK (sampleHolding "Apple" "AAPL" 100))).portfolio := by
  refine ⟨by unfold idsDistinct; decide, by decide, ?_⟩
  unfold idsDistinct
  decide

/-- C13 (bulk restore): after `RESTORE_ALL`, the portfolio, the journals and the
studies are the slice of the payload when it is present and the empty list when
it is missing; the macro indicators are the slice of the payload when present and
the current ones otherwise; and each field of the settings is the field of the
settings of the payload when present and the current field otherwise. -/
theorem restore_all_slices (now : Nat) (state : State) (payload : RestorePayload) :
    (∀ x, payload.portfolio = some x →
      (appReducer now state (Action.RESTORE_ALL payload)).portfolio = x) ∧
    (payload.portfolio = none →
      (appReducer now state (Action.RESTORE_ALL payload)).portfolio = []) ∧
    (∀ x, payload.journals = some x →
      (appReducer now state (Action.RESTORE_ALL payload)).journals = x) ∧
    (payload.journals = none →
      (appReducer now state (Action.RESTORE_ALL payload)).journals = []) ∧
    (∀ x, payload.studies = some x →
      (appReducer now state (Action.RESTORE_ALL payload)).studies = x) ∧
    (payload.studies = none →
      (appReducer now state (Action.RESTORE_ALL payload)).studies = []) ∧
    (∀ x, payload.macroIndicators = some x →
      (appReducer now state (Action.RESTORE_ALL payload)).macroIndicators = x) ∧
    (payload.macroIndicators = none →
      (appReducer now state (Action.RESTORE_ALL payload)).macroIndicators
        = state.macroIndicators) ∧
    (payload.settings = none →
      (appReducer now state (Action.RESTORE_ALL payload)).settings = state.settings) ∧
    (∀ patch, payload.settings = some patch →
      (appReducer now state (Action.RESTORE_ALL payload)).settings
        = { exchangeRate := patch.exchangeRate.getD state.settings.exchangeRate
            exchangeRateSource := patch.exchangeRateSource.getD state.settings.exchangeRateSource
            exchangeRateLastUpdated :=
              patch.exchangeRateLastUpdated.getD state.settings.exchangeRateLastUpdated
            currency := patch.currency.getD state.settings.currency }) := by
  refine ⟨?_, ?_, ?_, ?_, ?_, ?_, ?_, ?_, ?_, ?_⟩ <;> intro h <;>
    first
    | (intro h2; simp [appReducer, h2, Settings.merge])
    | simp [appReducer, h, Settings.merge]

/-! ## The bootstrap import: lemmas -/

theorem scanFloat_sign {s : Str} {negative : Bool} {mantissa : Nat} {exponent : Int}
    (h : scanFloat s = some (negative, mantissa, exponent)) (hneg : negative = true) :
    (trimStart s).head? = some '-' := by
  unfold scanFloat at h
  simp only at h
  split at h
  · cases h
  · simp only [Option.some.injEq, Prod.mk.injEq] at h
    obtain ⟨h1, _⟩ := h
    rw [hneg] at h1
    split at h1
    · next r heq => rw [heq]; rfl
    · cases h1
    · cases h1

theorem parseFloat_nonneg {s : Str} (h : (trimStart s).head? ≠ some '-') :
    parseFloat s = JSNum.nan ∨ ∃ q, parseFloat s = JSNum.fin q ∧ 0 ≤ q := by
  unfold parseFloat
  cases hs : scanFloat s with
  | none => exact Or.inl rfl
  | some r =>
    obtain ⟨negative, mantissa, exponent⟩ := r
    refine Or.inr ⟨_, rfl, ?_⟩
    cases negative with
    | true => exact absurd (scanFloat_sign hs rfl) h
    | false =>
      simp only [Bool.false_eq_true, if_false, one_mul]
      positivity

theorem parseFloat_zero : parseFloat "0".toList = JSNum.fin 0 := by
  have h : scanFloat "0".toList = some (false, 0, 0) := by decide
  simp only [parseFloat, h]
  norm_num

section
variable (toUpperCase toLowerCase : Str → Str)

theorem portfolioRow_fields {idNow createdNow index : Nat} {row : Row} {h : Holding}
    (hrow : portfolioRow toUpperCase toLowerCase idNow createdNow row index = some h) :
    (∃ cell, portfolioCountry row = some cell ∧ cell ≠ [] ∧ h.country = toUpperCase cell ∧
      h.currency = if toUpperCase cell = "US".toList then "USD".toList else "KRW".toList) ∧
    h.quantity = parseFloatOrZero (portfolioQuantity row) ∧
    h.avgPrice = parseFloatOrZero (portfolioAvgPrice row) ∧
    h.currentPrice = h.avgPrice := by
  unfold portfolioRow at hrow
  simp only at hrow
  split at hrow
  · next n ns t ts c cs hn ht hc =>
    simp only [Option.some.injEq] at hrow
    subst hrow
    exact ⟨⟨c :: cs, hc, by simp, rfl, rfl⟩, rfl, rfl, rfl⟩
  · cases hrow

theorem mem_portfolioMap {idClock createdClock : Nat → Nat} {rows : List Row} {start : Nat}
    {h : Holding}
    (hmem : some h ∈ portfolioMap toUpperCase toLowerCase idClock createdClock rows start) :
    ∃ row ∈ rows, ∃ index,
      portfolioRow toUpperCase toLowerCase (idClock index) (createdClock index) row index
        = some h := by
  induction rows generalizing start with
  | nil => simp [portfolioMap] at hmem
  | cons row rest ih =>
    unfold portfolioMap at hmem
    rcases List.mem_cons.mp hmem with h1 | h1
    · exact ⟨row, List.mem_cons_self _ _, start, h1.symm⟩
    · obtain ⟨r, hr, i, hi⟩ := ih h1
      exact ⟨r, List.mem_cons_of_mem _ hr, i, hi⟩

theorem mem_portfolioOfRows {idClock createdClock : Nat → Nat} {rows : List Row} {h : Holding}
    (hmem : h ∈ portfolioOfRows toUpperCase toLowerCase idClock createdClock rows) :
    ∃ row ∈ rows, ∃ index,
      portfolioRow toUpperCase toLowerCase (idClock index) (createdClock index) row index
        = some h := by
  unfold portfolioOfRows at hmem
  rw [List.mem_filterMap] at hmem
  obtain ⟨o, ho, hid⟩ := hmem
  simp only [id] at hid
  subst hid
  exact mem_portfolioMap toUpperCase toLowerCase ho

end

theorem parseFloat_10 : parseFloat "10".toList = JSNum.fin 10 := by
  have h : scanFloat "10".toList = some (false, 10, 0) := by decide
  simp only [parseFloat, h]
  norm_num

theorem parseFloat_90 : parseFloat "90".toList = JSNum.fin 90 := by
  have h : scanFloat "90".toList = some (false, 90, 0) := by decide
  simp only [parseFloat, h]
  norm_num

theorem parseFloat_minus_5 : parseFloat "-5".toList = JSNum.fin (-5) := by
  have h : scanFloat "-5".toList = some (true, 5, 0) := by decide
  simp only [parseFloat, h]
  norm_num

theorem natToStr_7 : natToStr 7 = "7".toList := by
  simp [natToStr]
  decide

theorem portfolioOfRows_sample :
    portfolioOfRows asciiUpperCase asciiLowerCase (fun _ => 7) (fun _ => 8)
        [samplePortfolioRow "us" "10" "90"]
      = [importedSample] := by
  have hq : parseFloatOrZero (portfolioQuantity (samplePortfolioRow "us" "10" "90"))
      = JSNum.fin 10 := parseFloat_10
  have ha : parseFloatOrZero (portfolioAvgPrice (samplePortfolioRow "us" "10" "90"))
      = JSNum.fin 90 := parseFloat_90
  have hn : portfolioName (samplePortfolioRow "us" "10" "90") = some "Apple".toList := by decide
  have ht : portfolioTicker (samplePortfolioRow "us" "10" "90") = some "AAPL".toList := by decide
  have hc : portfolioCountry (samplePortfolioRow "us" "10" "90") = some "us".toList := by decide
  have h0 : natToStr 0 = "0".toList := by decide
  have hrow : portfolioRow asciiUpperCase asciiLowerCase 7 8 (samplePortfolioRow "us" "10" "90") 0
      = some importedSample := by
    simp only [portfolioRow, hq, ha, hn, ht, hc, natToStr_7, h0]
    rfl
  simp only [portfolioOfRows, portfolioMap, hrow]
  rfl

theorem parseFloatOrZero_missing {cell : Option Str} (h : truthyStr cell = false) :
    parseFloatOrZero cell = JSNum.fin 0 := by
  rcases cell with _ | (_ | ⟨c, cs⟩)
  · exact parseFloat_zero
  · exact parseFloat_zero
  · simp [truthyStr] at h

theorem parseFloatOrZero_nonneg {cell : Str} (h : (trimStart cell).head? ≠ some '-') :
    parseFloatOrZero (some cell) = JSNum.nan ∨ nonNegative (parseFloatOrZero (some cell)) := by
  cases cell with
  | nil => exact Or.inr ⟨0, parseFloat_zero, le_refl _⟩
  | cons c cs => exact parseFloat_nonneg h

/-! ## The bootstrap import: specification -/

/-- C14 (currency of an imported holding, as the code derives it): every holding
of the row transform of `fetchPortfolioFromSheet` has the currency USD if and
only if its country is US, and KRW otherwise, so KRW when its country is KR; its
country is the upper-cased, non-empty country cell of its row, whatever that
cell holds. -/
theorem bootstrap_currency (toUpperCase toLowerCase : Str → Str)
    (idClock createdClock : Nat → Nat) (rows : List Row) (h : Holding)
    (hmem : h ∈ portfolioOfRows toUpperCase toLowerCase idClock createdClock rows) :
    (h.currency = "USD".toList ↔ h.country = "US".toList) ∧
    (h.currency = "KRW".toList ↔ h.country ≠ "US".toList) ∧
    (h.country = "KR".toList → h.currency = "KRW".toList) ∧
    ∃ row ∈ rows, ∃ cell, portfolioCountry row = some cell ∧ cell ≠ [] ∧
      h.country = toUpperCase cell := by
  obtain ⟨row, hrow, index, hrowh⟩ := mem_portfolioOfRows toUpperCase toLowerCase hmem
  obtain ⟨⟨cell, hcell, hne, hcountry, hcurrency⟩, _⟩ :=
    portfolioRow_fields toUpperCase toLowerCase hrowh
  rw [← hcountry] at hcurrency
  have hdiff : "USD".toList ≠ "KRW".toList := by decide
  have hkr : "KR".toList ≠ "US".toList := by decide
  refine ⟨?_, ?_, ?_, row, hrow, cell, hcell, hne, hcountry⟩
  · by_cases hus : h.country = "US".toList
    · simp [hcurrency, hus]
    · simp only [hcurrency, hus, if_false, iff_false]
      exact fun h1 => hdiff h1.symm
  · by_cases hus : h.country = "US".toList
    · rw [hcurrency, if_pos hus]
      exact ⟨fun h1 => absurd h1 hdiff, fun h2 => absurd hus h2⟩
    · simp [hcurrency, hus]
  · intro hk
    rw [hcurrency, hk, if_neg hkr]

/-- An instance of C14: the row with the country cell `us` gives a holding with
country US and currency USD. -/
theorem bootstrap_currency_witness :
    (importedSample.currency = "USD".toList ↔ importedSample.country = "US".toList) ∧
    (importedSample.currency = "KRW".toList ↔ importedSample.country ≠ "US".toList) ∧
    (importedSample.country = "KR".toList → importedSample.currency = "KRW".toList) ∧
    ∃ row ∈ [samplePortfolioRow "us" "10" "90"], ∃ cell, portfolioCountry row = some cell ∧
      cell ≠ [] ∧ importedSample.country = asciiUpperCase cell :=
  bootstrap_currency asciiUpperCase asciiLowerCase (fun _ => 7) (fun _ => 8)
    [samplePortfolioRow "us" "10" "90"] importedSample
    (by rw [portfolioOfRows_sample]; exact List.mem_singleton.mpr rfl)

/-- C14 as stated fails on the country: the row with the country cell `JP` gives
a holding whose country is JP, neither KR nor US, and whose currency is KRW. -/
theorem bootstrap_country_unchecked :
    (portfolioOfRows asciiUpperCase asciiLowerCase (fun _ => 7) (fun _ => 8)
        [samplePortfolioRow "JP" "10" "90"]).map (fun h => (h.country, h.currency))
      = [("JP".toList, "KRW".toList)] := by
  decide

/-- C15 (numbers of an imported holding, as the code derives them): every holding
of the row transform of `fetchPortfolioFromSheet` has as quantity and as avgPrice
the number `parseFloat` reads from the cell of its row, and 0 when the cell is
missing or empty, and its currentPrice is its avgPrice.  Such a number is `NaN` or
non-negative when the cell does not begin, after white space, with a minus sign. -/
theorem bootstrap_numbers (toUpperCase toLowerCase : Str → Str)
    (idClock createdClock : Nat → Nat) (rows : List Row) (h : Holding)
    (hmem : h ∈ portfolioOfRows toUpperCase toLowerCase idClock createdClock rows) :
    ∃ row ∈ rows,
      h.quantity = parseFloatOrZero (portfolioQuantity row) ∧
      h.avgPrice = parseFloatOrZero (portfolioAvgPrice row) ∧
      h.currentPrice = h.avgPrice ∧
      (truthyStr (portfolioQuantity row) = false → h.quantity = JSNum.fin 0) ∧
      (truthyStr (portfolioAvgPrice row) = false → h.avgPrice = JSNum.fin 0) ∧
      (∀ cell, portfolioQuantity row = some cell → (trimStart cell).head? ≠ some '-' →
        h.quantity = JSNum.nan ∨ nonNegative h.quantity) ∧
      (∀ cell, portfolioAvgPrice row = some cell → (trimStart cell).head? ≠ some '-' →
        h.avgPrice = JSNum.nan ∨ nonNegative h.avgPrice) := by
  obtain ⟨row, hrow, index, hrowh⟩ := mem_portfolioOfRows toUpperCase toLowerCase hmem
  obtain ⟨_, hq, ha, hc⟩ := portfolioRow_fields toUpperCase toLowerCase hrowh
  refine ⟨row, hrow, hq, ha, hc, ?_, ?_, ?_, ?_⟩
  · intro hmiss
    rw [hq, parseFloatOrZero_missing hmiss]
  · intro hmiss
    rw [ha, parseFloatOrZero_missing hmiss]
  · intro cell hcell hsign
    rw [hq, hcell]
    exact parseFloatOrZero_nonneg hsign
  · intro cell hcell hsign
    rw [ha, hcell]
    exact parseFloatOrZero_nonneg hsign

/-- An instance of C15: the row with the cells `10` and `90`. -/
theorem bootstrap_numbers_witness :
    ∃ row ∈ [samplePortfolioRow "us" "10" "90"],
      importedSample.quantity = parseFloatOrZero (portfolioQuantity row) ∧
      importedSample.avgPrice = parseFloatOrZero (portfolioAvgPrice row) ∧
      importedSample.currentPrice = importedSample.avgPrice ∧
      (truthyStr (portfolioQuantity row) = false → importedSample.quantity = JSNum.fin 0) ∧
      (truthyStr (portfolioAvgPrice row) = false → importedSample.avgPrice = JSNum.fin 0) ∧
      (∀ cell, portfolioQuantity row = some cell → (trimStart cell).head? ≠ some '-' →
        importedSample.quantity = JSNum.nan ∨ nonNegative importedSample.quantity) ∧
      (∀ cell, portfolioAvgPrice row = some cell → (trimStart cell).head? ≠ some '-' →
        importedSample.avgPrice = JSNum.nan ∨ nonNegative importedSample.avgPrice) :=
  bootstrap_numbers asciiUpperCase asciiLowerCase (fun _ => 7) (fun _ => 8)
    [samplePortfolioRow "us" "10" "90"] importedSample
    (by rw [portfolioOfRows_sample]; exact List.mem_singleton.mpr rfl)

/-- C15 as stated fails on a signed cell: the row with the quantity cell `-5`
gives a holding with the quantity -5, which is not non-negative. -/
theorem bootstrap_negative_quantity :
    (portfolioOfRows asciiUpperCase asciiLowerCase (fun _ => 7) (fun _ => 8)
        [samplePortfolioRow "us" "-5" "90"]).map Holding.quantity = [JSNum.fin (-5)] ∧
    ¬ nonNegative (JSNum.fin (-5)) := by
  constructor
  · have hq : parseFloatOrZero (portfolioQuantity (samplePortfolioRow "us" "-5" "90"))
        = JSNum.fin (-5) := parseFloat_minus_5
    simp only [portfolioOfRows, portfolioMap, portfolioRow, hq]
    rfl
  · rintro ⟨q, hq, hpos⟩
    have : q = -5 := (JSNum.fin.inj hq).symm
    rw [this] at hpos
    norm_num at hpos

/-! ## Validation of a manual rate: specification -/

/-- C17 (`validateExchangeRate`): the result is `isValid = true` with
`error = null` exactly when the argument is a number that is not `NaN` and lies
between 100 and 10000, both included; for every other argument, a number or not,
it is `isValid = false` with an error message.  The function is total: it returns
for every argument. -/
theorem validateExchangeRate_spec (rate : Option JSVal) :
    ((validateExchangeRate rate).isValid = true ∧ (validateExchangeRate rate).error = none ↔
      ∃ q, rate = some (JSVal.num (JSNum.fin q)) ∧ 100 ≤ q ∧ q ≤ 10000) ∧
    ((validateExchangeRate rate).isValid = false ∧ (validateExchangeRate rate).error ≠ none ↔
      ¬ ∃ q, rate = some (JSVal.num (JSNum.fin q)) ∧ 100 ≤ q ∧ q ≤ 10000) := by
  rcases rate with _ | (s | (_ | q))
  · simp [validateExchangeRate]
  · simp [validateExchangeRate]
  · simp [validateExchangeRate]
  · simp only [validateExchangeRate]
    by_cases h0 : q ≤ 0
    · have : ¬ (100 ≤ q ∧ q ≤ 10000) := fun h => by linarith [h.1]
      simp [h0, this]
    · by_cases hr : q < 100 ∨ q > 10000
      · have : ¬ (100 ≤ q ∧ q ≤ 10000) := fun h => by
          rcases hr with h1 | h1 <;> linarith [h.1, h.2]
        simp [h0, hr, this]
      · have hin : 100 ≤ q ∧ q ≤ 10000 := by
          constructor
          · exact not_lt.mp (fun h => hr (Or.inl h))
          · exact not_lt.mp (fun h => hr (Or.inr h))
        simp [h0, hr, hin]

/-- C16 (the reducer as it is): for every state and every payload,
`SET_MANUAL_EXCHANGE_RATE` stores the payload as the exchange rate, with the
source tag `manual` and the time of the action, and leaves the rest of the state
as it is; the stored rate is one `validateExchangeRate` accepts exactly when the
payload is. -/
theorem manual_rate_stored_as_given (now : Nat) (state : State) (payload : JSNum) :
    appReducer now state (Action.SET_MANUAL_EXCHANGE_RATE payload)
      = { state with
          settings :=
            { state.settings with
              exchangeRate := payload
              exchangeRateSource := "manual".toList
              exchangeRateLastUpdated := now } } ∧
    (validateExchangeRate (some (JSVal.num
        (appReducer now state
          (Action.SET_MANUAL_EXCHANGE_RATE payload)).settings.exchangeRate))).isValid
      = (validateExchangeRate (some (JSVal.num payload))).isValid :=
  ⟨rfl, rfl⟩

/-- C16 as stated fails: the payload 50 is outside the range 100–10,000,
`validateExchangeRate` rejects it, and the reducer stores it in place of the rate
1400. -/
theorem manual_rate_out_of_range_stored :
    (validateExchangeRate (some (JSVal.num (JSNum.fin 50)))).isValid = false ∧
    (appReducer 1 sampleState
        (Action.SET_MANUAL_EXCHANGE_RATE (JSNum.fin 50))).settings.exchangeRate = JSNum.fin 50 ∧
    (appReducer 1 sampleState
        (Action.SET_MANUAL_EXCHANGE_RATE (JSNum.fin 50))).settings.exchangeRate
      ≠ sampleState.settings.exchangeRate := by
  refine ⟨by decide, rfl, ?_⟩
  show JSNum.fin 50 ≠ JSNum.fin 1400
  decide

/-! ## The CSV parser: failure and quoted cells -/

/-- C20 (failure of `parseCSV`): `parseCSV` throws exactly when the trimmed text
has fewer than 2 newline-separated lines; for a text with at least 2 lines it
returns the rows of the lines that carry no error marker, whatever the lines
hold. -/
theorem parseCSV_fails_iff (csvText : Str) :
    ((∃ e, parseCSV csvText = Except.error e) ↔ (split '\n' (trim csvText)).length < 2) ∧
    (2 ≤ (split '\n' (trim csvText)).length →
      ∃ header lines, split '\n' (trim csvText) = header :: lines ∧
        parseCSV csvText = Except.ok (rowsOfCleanLines header lines)) := by
  rcases hs : split '\n' (trim csvText) with _ | ⟨header, _ | ⟨line, rest⟩⟩
  · simp [parseCSV, hs]
  · simp [parseCSV, hs]
  · have hok := parseCSV_of_lines csvText header (line :: rest) hs (by simp)
    constructor
    · simp [hok]
    · intro _
      exact ⟨header, line :: rest, rfl, hok⟩

theorem parseFloat_quoted_1 : parseFloat (stripNonNumeric "\"1".toList) = JSNum.fin 1 := by
  have h : scanFloat (stripNonNumeric "\"1".toList) = some (false, 1, 0) := by decide
  simp only [parseFloat, h]
  norm_num

/-- C19 (evaluated on the code): `parseCSV` splits the line `AAPL,"1,300"` at
every comma and keeps the quotes, so the line has the three cells `AAPL`, `"1`
and `300"`, and the price sheet with that line yields the quote AAPL at 1. -/
theorem parseCSV_splits_inside_quotes :
    cellsOf "AAPL,\"1,300\"".toList = ["AAPL".toList, "\"1".toList, "300\"".toList] ∧
    parseCSV quotedSheet = Except.ok [sampleRow "AAPL" "\"1"] ∧
    fetchGoogleSheetData asciiUpperCase sampleNow (FetchOutcome.response true quotedSheet)
      = Except.ok
          { stocks := [{ ticker := "AAPL".toList, price := JSNum.fin 1 }]
            exchangeRate := JSNum.fin 1300
            lastUpdated := sampleNow } := by
  have hrows : rowsOfCleanLines "Ticker,Price".toList ["AAPL,\"1,300\"".toList]
      = [sampleRow "AAPL" "\"1"] := by decide
  have hparse := parseCSV_of_lines quotedSheet "Ticker,Price".toList
    ["AAPL,\"1,300\"".toList] (by decide) (by decide)
  rw [hrows] at hparse
  refine ⟨by decide, hparse, ?_⟩
  rw [fetchGoogleSheetData_of_lines asciiUpperCase sampleNow quotedSheet "Ticker,Price".toList
    ["AAPL,\"1,300\"".toList] (by decide) (by decide), hrows]
  have hprice : rowPriceValue (sampleRow "AAPL" "\"1") = JSNum.fin 1 := parseFloat_quoted_1
  have hsent : isSentinelRow asciiUpperCase (sampleRow "AAPL" "\"1") = false := by decide
  have hticker : truthyStr (rowTicker (sampleRow "AAPL" "\"1")) = true := by decide
  have hstock : isStockRow asciiUpperCase (sampleRow "AAPL" "\"1") = true := by
    simp only [isStockRow, hticker, hsent, hprice, JSNum.gtZero]
    norm_num
  have hquote : quoteOfRow (sampleRow "AAPL" "\"1")
      = { ticker := "AAPL".toList, price := JSNum.fin 1 } := by
    have ht : (rowTicker (sampleRow "AAPL" "\"1")).getD [] = "AAPL".toList := by decide
    simp only [quoteOfRow, ht, hprice]
  have hrate : rateOfRows asciiUpperCase [sampleRow "AAPL" "\"1"] = JSNum.fin 1300 :=
    rateOfRows_default asciiUpperCase _ (by
      intro row hrow hs
      simp only [List.mem_singleton] at hrow
      subst hrow
      rw [hsent] at hs
      cases hs)
  simp [List.filter_cons, hstock, hquote, hrate]

/-! ## The price extraction: numeric coercion -/

theorem isStockRow_price (toUpperCase : Str → Str) {row : Row}
    (h : isStockRow toUpperCase row = true) :
    ∃ p, rowPrice row = some p ∧ rowPriceValue row = parseFloat (stripNonNumeric p) ∧
      ∃ q, rowPriceValue row = JSNum.fin q ∧ 0 < q := by
  simp only [isStockRow, Bool.and_eq_true] at h
  obtain ⟨_, hg⟩ := h
  cases hp : rowPrice row with
  | none => simp [rowPriceValue, hp, JSNum.gtZero] at hg
  | some p =>
    refine ⟨p, rfl, by simp [rowPriceValue, hp], ?_⟩
    cases hv : rowPriceValue row with
    | nan => rw [hv] at hg; simp [JSNum.gtZero] at hg
    | fin q =>
      rw [hv] at hg
      exact ⟨q, rfl, by simpa [JSNum.gtZero] using hg⟩

/-- C18 (numeric coercion): every quote that `fetchGoogleSheetData` extracts from
a fetched table has as price the number parsed from the price cell of its row
after every character other than a digit or a dot is deleted, and that number is
strictly positive; the quotes are those of the table without its non-sentinel
rows whose price is no positive number; and the extraction succeeds for every
table that `parseCSV` accepts. -/
theorem numeric_coercion (toUpperCase : Str → Str) (now body : Str) (d : SheetData)
    (h : fetchGoogleSheetData toUpperCase now (FetchOutcome.response true body) = Except.ok d) :
    (∃ rows, parseCSV body = Except.ok rows ∧
      (∀ s ∈ d.stocks, ∃ row ∈ rows, ∃ p, rowPrice row = some p ∧
        s.price = parseFloat (stripNonNumeric p) ∧ ∃ q, s.price = JSNum.fin q ∧ 0 < q) ∧
      d.stocks
        = (extractPrices toUpperCase
            (rows.filter (fun row =>
              isSentinelRow toUpperCase row || (rowPriceValue row).gtZero))).1) ∧
    ∀ body2 rows2, parseCSV body2 = Except.ok rows2 →
      ∃ d2, fetchGoogleSheetData toUpperCase now (FetchOutcome.response true body2)
        = Except.ok d2 := by
  obtain ⟨rows, hparse, hclean, hstocks, _⟩ := fetchGoogleSheetData_ok_inv toUpperCase h
  refine ⟨⟨rows, hparse, ?_, ?_⟩, ?_⟩
  · intro s hs
    rw [hstocks] at hs
    obtain ⟨row, hrow, rfl⟩ := List.mem_map.mp hs
    obtain ⟨hmem, hstock⟩ := List.mem_filter.mp hrow
    obtain ⟨p, hp, hval, q, hq, hpos⟩ := isStockRow_price toUpperCase hstock
    exact ⟨row, hmem, p, hp, hval, q, hq, hpos⟩
  · have hclean2 : ∀ row ∈ rows.filter (fun row =>
        isSentinelRow toUpperCase row || (rowPriceValue row).gtZero), Row.Clean row :=
      fun row hrow => hclean row (List.mem_filter.mp hrow).1
    rw [extractPrices_eq toUpperCase _ hclean2, hstocks, List.filter_filter]
    congr 1
    apply List.filter_congr
    intro row _
    by_cases hg : (rowPriceValue row).gtZero = true <;> simp [isStockRow, hg]
  · intro body2 rows2 hparse2
    obtain ⟨header, lines, hsplit, hne, _⟩ := parseCSV_ok_inv hparse2
    exact ⟨_, fetchGoogleSheetData_of_lines toUpperCase now body2 header lines hsplit hne⟩

/-- An instance of C18 on the sheet of Scenario A: the quote AAPL has the price
150.25 parsed from its cell. -/
theorem numeric_coercion_witness :
    (∃ rows, parseCSV scenarioSheet = Except.ok rows ∧
      (∀ s ∈ [({ ticker := "AAPL".toList, price := JSNum.fin 150.25 } : Quote)],
        ∃ row ∈ rows, ∃ p, rowPrice row = some p ∧
          s.price = parseFloat (stripNonNumeric p) ∧ ∃ q, s.price = JSNum.fin q ∧ 0 < q) ∧
      [({ ticker := "AAPL".toList, price := JSNum.fin 150.25 } : Quote)]
        = (extractPrices asciiUpperCase
            (rows.filter (fun row =>
              isSentinelRow asciiUpperCase row || (rowPriceValue row).gtZero))).1) ∧
    ∀ body2 rows2, parseCSV body2 = Except.ok rows2 →
      ∃ d2, fetchGoogleSheetData asciiUpperCase sampleNow (FetchOutcome.response true body2)
        = Except.ok d2 :=
  numeric_coercion asciiUpperCase sampleNow scenarioSheet
    { stocks := [{ ticker := "AAPL".toList, price := JSNum.fin 150.25 }]
      exchangeRate := JSNum.fin 1300
      lastUpdated := sampleNow }
    (by
      rw [fetchGoogleSheetData_of_lines asciiUpperCase sampleNow scenarioSheet
        "Ticker,Price".toList ["AAPL,150.25".toList, "USD,1300".toList, "#N/A,999".toList]
        (by decide) (by decide)]
      have hrows : rowsOfCleanLines "Ticker,Price".toList
          ["AAPL,150.25".toList, "USD,1300".toList, "#N/A,999".toList]
          = [sampleRow "AAPL" "150.25", sampleRow "USD" "1300"] := by decide
      rw [hrows, scenarioSheet_stocks, scenarioSheet_rate])

/-! ## The persistent store: specification -/

theorem Store.getItem_setItem (store : Store) (key value : Str) :
    (store.setItem key value).getItem key = some value := by
  induction store with
  | nil => simp [Store.setItem, Store.getItem]
  | cons kv rest ih =>
    obtain ⟨k, v⟩ := kv
    unfold Store.setItem
    split
    · next h => simp [Store.getItem, h]
    · next h => simp [Store.getItem, h, ih]

theorem Store.getItem_setItem_other (store : Store) (key value other : Str) (h : other ≠ key) :
    (store.setItem key value).getItem other = store.getItem other := by
  induction store with
  | nil => simp [Store.setItem, Store.getItem, h.symm]
  | cons kv rest ih =>
    obtain ⟨k, v⟩ := kv
    unfold Store.setItem
    split
    · next hk =>
      subst hk
      simp [Store.getItem, h.symm]
    · next hk =>
      by_cases hko : k = other
      · simp [Store.getItem, hko]
      · simp [Store.getItem, hko, ih]

/-- C21 (`saveToStorage`): for every key and value the function returns a
boolean.  When serialization or the write throws, a quota error included, it
returns `false`, leaves the store as it was and shows the alert exactly for a
quota error; otherwise it returns `true` and the store holds the serialized
value under the key, every other item being as before.  The state `AppProvider`
commits on a dispatch is the one `appReducer` returns, whatever the saves of the
persistence effects do. -/
theorem saveToStorage_never_throws (store : Store) (key : Str) (serialized : Except Str Str)
    (writeError : Option Str) :
    (∀ e, serialized = Except.error e ∨ (∃ text, serialized = Except.ok text) ∧ writeError = some e →
      (saveToStorage store key serialized writeError).success = false ∧
      (saveToStorage store key serialized writeError).store = store ∧
      ((saveToStorage store key serialized writeError).alerted = true ↔
        e = "QuotaExceededError".toList)) ∧
    (∀ text, serialized = Except.ok text → writeError = none →
      (saveToStorage store key serialized writeError).success = true ∧
      (saveToStorage store key serialized writeError).store.getItem key = some text ∧
      ∀ other, other ≠ key →
        (saveToStorage store key serialized writeError).store.getItem other
          = store.getItem other) ∧
    ∀ (env : PersistEnv) (now : Nat) (state : State) (action : Action),
      (providerDispatch env now state store action).1 = appReducer now state action := by
  refine ⟨?_, ?_, fun _ _ _ _ => rfl⟩
  · rintro e (h | ⟨⟨text, h⟩, hw⟩)
    · subst h
      simp [saveToStorage, saveFailed]
    · subst h
      subst hw
      simp [saveToStorage, saveFailed]
  · intro text hs hw
    subst hs
    subst hw
    refine ⟨rfl, Store.getItem_setItem store key text, ?_⟩
    intro other hne
    exact Store.getItem_setItem_other store key text other hne

/-! ## The retry loop: specification -/

theorem autoFetchCounted_fst (attempts : Nat → ApiAttempt) (finalNow remaining start : Nat) :
    (autoFetchCounted attempts finalNow remaining start).1
      = autoFetchLoop attempts finalNow remaining start := by
  induction remaining generalizing start with
  | zero => rfl
  | succ n ih =>
    unfold autoFetchCounted autoFetchLoop
    simp only
    split
    · rfl
    · exact ih (start + 1)

theorem autoFetchCounted_le (attempts : Nat → ApiAttempt) (finalNow remaining start : Nat) :
    (autoFetchCounted attempts finalNow remaining start).2 ≤ remaining := by
  induction remaining generalizing start with
  | zero => simp [autoFetchCounted]
  | succ n ih =>
    unfold autoFetchCounted
    simp only
    split
    · simp
    · exact Nat.succ_le_succ (ih (start + 1))

theorem autoFetchCounted_first_success (attempts : Nat → ApiAttempt)
    (finalNow remaining start k : Nat) (hk : k < remaining)
    (hfail : ∀ j, j < k → attemptSucceeds (attempts (start + j)) = false)
    (hok : attemptSucceeds (attempts (start + k)) = true) :
    autoFetchCounted attempts finalNow remaining start
      = (fetchExchangeRate (attempts (start + k)), k + 1) := by
  induction k generalizing remaining start with
  | zero =>
    obtain ⟨n, rfl⟩ : ∃ n, remaining = n + 1 := ⟨remaining - 1, by omega⟩
    unfold autoFetchCounted
    rw [Nat.add_zero] at hok ⊢
    unfold attemptSucceeds at hok
    simp only [hok, if_true, Nat.zero_add, Nat.add_zero]
  | succ k ih =>
    obtain ⟨n, rfl⟩ : ∃ n, remaining = n + 1 := ⟨remaining - 1, by omega⟩
    unfold autoFetchCounted
    have h0 := hfail 0 (Nat.succ_pos _)
    rw [Nat.add_zero] at h0
    unfold attemptSucceeds at h0
    have := ih n (start + 1) (by omega)
      (fun j hj => by have := hfail (j + 1) (by omega); rwa [Nat.add_assoc, Nat.add_comm 1 j])
      (by rwa [Nat.add_assoc, Nat.add_comm 1 k])
    simp only [h0, this, Nat.add_assoc, Nat.add_comm 1 k]
    simp

theorem autoFetchCounted_no_success (attempts : Nat → ApiAttempt)
    (finalNow remaining start : Nat)
    (hfail : ∀ j, j < remaining → attemptSucceeds (attempts (start + j)) = false) :
    autoFetchCounted attempts finalNow remaining start
      = ({ rate := DEFAULT_EXCHANGE_RATE
           source := "manual".toList
           error := some "API 연결 실패. 수동으로 환율을 설정해주세요.".toList
           timestamp := finalNow }, remaining) := by
  induction remaining generalizing start with
  | zero => rfl
  | succ n ih =>
    unfold autoFetchCounted
    have h0 := hfail 0 (Nat.succ_pos _)
    rw [Nat.add_zero] at h0
    unfold attemptSucceeds at h0
    have := ih (start + 1)
      (fun j hj => by have := hfail (j + 1) (by omega); rwa [Nat.add_assoc, Nat.add_comm 1 j])
    simp only [h0, this]
    simp

/-- C22 (bounded retry): with `maxRetries = 2`, the loop of
`autoFetchExchangeRate` calls `fetchExchangeRate` at most 3 times; when attempt
`k` is the first whose result has the source `api` and no error, the loop makes
`k + 1` calls and returns the result of that attempt; when none of the three
attempts is one, it makes 3 calls and returns the default rate with the source
`manual` and an error message. -/
theorem autoFetch_bounded_retry (attempts : Nat → ApiAttempt) (finalNow : Nat) :
    (autoFetchCounted attempts finalNow 3 0).1 = autoFetchExchangeRate attempts finalNow 2 ∧
    (autoFetchCounted attempts finalNow 3 0).2 ≤ 3 ∧
    (∀ k, k < 3 → attemptSucceeds (attempts k) = true →
      (∀ j, j < k → attemptSucceeds (attempts j) = false) →
      autoFetchExchangeRate attempts finalNow 2 = fetchExchangeRate (attempts k) ∧
      (autoFetchCounted attempts finalNow 3 0).2 = k + 1) ∧
    ((∀ j, j < 3 → attemptSucceeds (attempts j) = false) →
      (autoFetchCounted attempts finalNow 3 0).2 = 3 ∧
      (autoFetchExchangeRate attempts finalNow 2).rate = DEFAULT_EXCHANGE_RATE ∧
      (autoFetchExchangeRate attempts finalNow 2).source = "manual".toList ∧
      (autoFetchExchangeRate attempts finalNow 2).error ≠ none) := by
  have hfst : (autoFetchCounted attempts finalNow 3 0).1
      = autoFetchExchangeRate attempts finalNow 2 := autoFetchCounted_fst attempts finalNow 3 0
  refine ⟨hfst, autoFetchCounted_le attempts finalNow 3 0, ?_, ?_⟩
  · intro k hk hok hfail
    have h := autoFetchCounted_first_success attempts finalNow 3 0 k hk
      (fun j hj => by simpa using hfail j hj) (by simpa using hok)
    rw [Nat.zero_add] at h
    rw [← hfst, h]
    exact ⟨rfl, rfl⟩
  · intro hfail
    have h := autoFetchCounted_no_success attempts finalNow 3 0
      (fun j hj => by simpa using hfail j hj)
    rw [← hfst, h]
    exact ⟨rfl, rfl, rfl, by simp⟩

/-! ## The study streak: specification -/

theorem checkIn_of_today (today yesterdayStr : Str) (writeFails : Bool)
    (stored : Option StreakData) (h : (getStreakData stored).lastStudyDate = some today) :
    checkIn today yesterdayStr writeFails stored
      = ({ lastStudyDate := (getStreakData stored).lastStudyDate
           currentStreak := (getStreakData stored).currentStreak
           maxStreak := (getStreakData stored).maxStreak
           isNewRecord := false
           streakIncreased := false }, stored) := by
  simp [checkIn, h]

theorem checkIn_of_other_day (today yesterdayStr : Str) (writeFails : Bool)
    (stored : Option StreakData) (h : (getStreakData stored).lastStudyDate ≠ some today) :
    (checkIn today yesterdayStr writeFails stored).1.lastStudyDate = some today ∧
    (checkIn today yesterdayStr writeFails stored).1.currentStreak
      = (if isYesterday yesterdayStr (getStreakData stored).lastStudyDate then
          (getStreakData stored).currentStreak + 1 else 1) ∧
    (checkIn today yesterdayStr writeFails stored).1.maxStreak
      = max (if isYesterday yesterdayStr (getStreakData stored).lastStudyDate then
          (getStreakData stored).currentStreak + 1 else 1) (getStreakData stored).maxStreak ∧
    (checkIn today yesterdayStr writeFails stored).2
      = saveStreakData writeFails stored
          { lastStudyDate := some today
            currentStreak :=
              if isYesterday yesterdayStr (getStreakData stored).lastStudyDate then
                (getStreakData stored).currentStreak + 1 else 1
            maxStreak :=
              max (if isYesterday yesterdayStr (getStreakData stored).lastStudyDate then
                (getStreakData stored).currentStreak + 1 else 1) (getStreakData stored).maxStreak } := by
  simp [checkIn, h]

theorem isYesterday_iff (yesterdayStr : Str) (dateStr : Option Str) :
    isYesterday yesterdayStr dateStr = true ↔ dateStr = some yesterdayStr ∧ yesterdayStr ≠ [] := by
  rcases dateStr with _ | (_ | ⟨c, cs⟩)
  · simp [isYesterday]
  · simp only [isYesterday, Bool.false_eq_true, false_iff, not_and, not_not]
    intro h
    exact (Option.some.inj h).symm
  · simp only [isYesterday, decide_eq_true_eq, Option.some.injEq]
    constructor
    · intro h
      exact ⟨h, by rw [← h]; simp⟩
    · intro h
      exact h.1

theorem checkIn_stored_today (today yesterdayStr : Str) (stored : Option StreakData) :
    (getStreakData (checkIn today yesterdayStr false stored).2).lastStudyDate = some today := by
  by_cases h : (getStreakData stored).lastStudyDate = some today
  · rw [checkIn_of_today today yesterdayStr false stored h]
    exact h
  · rw [(checkIn_of_other_day today yesterdayStr false stored h).2.2.2]
    rfl

/-- C23 (same-day check-in): for a stored record whose `lastStudyDate` is today,
`checkIn` returns the stored date and streaks with `isNewRecord = false` and
`streakIncreased = false` and leaves the stored record as it is.  Hence after a
check-in whose record was stored, a second check-in on the same day leaves the
stored record unchanged; a check-in whose write fails stores nothing. -/
theorem checkIn_same_day_noop (today yesterdayStr : Str) (writeFails : Bool)
    (record : StreakData) (h : record.lastStudyDate = some today) :
    checkIn today yesterdayStr writeFails (some record)
      = ({ lastStudyDate := record.lastStudyDate
           currentStreak := record.currentStreak
           maxStreak := record.maxStreak
           isNewRecord := false
           streakIncreased := false }, some record) ∧
    (∀ (stored : Option StreakData) (y1 y2 : Str) (w2 : Bool),
      (checkIn today y2 w2 (checkIn today y1 false stored).2).2
        = (checkIn today y1 false stored).2) ∧
    (∀ (stored : Option StreakData) (y1 : Str), (checkIn today y1 true stored).2 = stored) := by
  refine ⟨checkIn_of_today today yesterdayStr writeFails (some record) h, ?_, ?_⟩
  · intro stored y1 y2 w2
    rw [checkIn_of_today today y2 w2 _ (checkIn_stored_today today y1 stored)]
  · intro stored y1
    by_cases h1 : (getStreakData stored).lastStudyDate = some today
    · rw [checkIn_of_today today y1 true stored h1]
    · rw [(checkIn_of_other_day today y1 true stored h1).2.2.2]
      rfl

/-- An instance of C23: a record of today with the streak 3. -/
theorem checkIn_same_day_noop_witness :
    checkIn "2026-01-14".toList "2026-01-13".toList false (some (sampleStreak "2026-01-14" 3 5))
      = ({ lastStudyDate := some "2026-01-14".toList
           currentStreak := 3
           maxStreak := 5
           isNewRecord := false
           streakIncreased := false }, some (sampleStreak "2026-01-14" 3 5)) ∧
    (∀ (stored : Option StreakData) (y1 y2 : Str) (w2 : Bool),
      (checkIn "2026-01-14".toList y2 w2 (checkIn "2026-01-14".toList y1 false stored).2).2
        = (checkIn "2026-01-14".toList y1 false stored).2) ∧
    (∀ (stored : Option StreakData) (y1 : Str),
      (checkIn "2026-01-14".toList y1 true stored).2 = stored) :=
  checkIn_same_day_noop "2026-01-14".toList "2026-01-13".toList false
    (sampleStreak "2026-01-14" 3 5) rfl

/-- C24 (streak step): for a stored record whose `lastStudyDate` is not today,
`checkIn` returns, and stores when the write goes through, `lastStudyDate =
today` and `currentStreak = previous currentStreak + 1` when `lastStudyDate` is
yesterday, and `currentStreak = 1` otherwise; `maxStreak` is the larger of the
new `currentStreak` and the previous `maxStreak`, and `isNewRecord` is true
exactly when the new `currentStreak` exceeds the previous `maxStreak`. -/
theorem checkIn_step_rule (today yesterdayStr : Str) (writeFails : Bool)
    (stored : Option StreakData) (h : (getStreakData stored).lastStudyDate ≠ some today) :
    (checkIn today yesterdayStr writeFails stored).1.lastStudyDate = some today ∧
    ((getStreakData stored).lastStudyDate = some yesterdayStr ∧ yesterdayStr ≠ [] →
      (checkIn today yesterdayStr writeFails stored).1.currentStreak
        = (getStreakData stored).currentStreak + 1) ∧
    (¬ ((getStreakData stored).lastStudyDate = some yesterdayStr ∧ yesterdayStr ≠ []) →
      (checkIn today yesterdayStr writeFails stored).1.currentStreak = 1) ∧
    (checkIn today yesterdayStr writeFails stored).1.maxStreak
      = max (checkIn today yesterdayStr writeFails stored).1.currentStreak
          (getStreakData stored).maxStreak ∧
    ((checkIn today yesterdayStr writeFails stored).1.isNewRecord = true ↔
      (checkIn today yesterdayStr writeFails stored).1.currentStreak
        > (getStreakData stored).maxStreak) ∧
    (writeFails = false →
      (checkIn today yesterdayStr writeFails stored).2
        = some
            { lastStudyDate := some today
              currentStreak := (checkIn today yesterdayStr writeFails stored).1.currentStreak
              maxStreak := (checkIn today yesterdayStr writeFails stored).1.maxStreak }) := by
  obtain ⟨hdate, hcur, hmax, hstore⟩ := checkIn_of_other_day today yesterdayStr writeFails stored h
  refine ⟨hdate, ?_, ?_, ?_, ?_, ?_⟩
  · intro hy
    rw [hcur, if_pos ((isYesterday_iff _ _).mpr hy)]
  · intro hy
    have : ¬ isYesterday yesterdayStr (getStreakData stored).lastStudyDate = true :=
      fun hc => hy ((isYesterday_iff _ _).mp hc)
    rw [hcur, if_neg this]
  · rw [hmax, hcur]
  · rw [hcur]
    simp [checkIn, h]
  · intro hw
    subst hw
    rw [hstore, hcur, hmax]
    rfl

/-- An instance of C24: the last study was yesterday, with the streak 3. -/
theorem checkIn_step_rule_witness :
    (checkIn "2026-01-14".toList "2026-01-13".toList false
        (some (sampleStreak "2026-01-13" 3 3))).1.currentStreak = 4 ∧
    (checkIn "2026-01-14".toList "2026-01-13".toList false
        (some (sampleStreak "2026-01-13" 3 3))).1.isNewRecord = true ∧
    (checkIn "2026-01-14".toList "2026-01-13".toList false
        (some (sampleStreak "2026-01-13" 3 3))).2 = some (sampleStreak "2026-01-14" 4 4) := by
  have h := checkIn_step_rule "2026-01-14".toList "2026-01-13".toList false
    (some (sampleStreak "2026-01-13" 3 3)) (by decide)
  have hcur := h.2.1 ⟨rfl, by decide⟩
  refine ⟨hcur, ?_, ?_⟩
  · rw [h.2.2.2.2.1, hcur]
    decide
  · rw [h.2.2.2.2.2 rfl, h.2.2.2.1, hcur]
    rfl

/-- C28 (streak invariant, with the case the same-day return leaves out): if the
stored record has `maxStreak ≥ currentStreak ≥ 0`, then the record stored after a
`checkIn` again has `maxStreak ≥ currentStreak`, its `maxStreak` is not smaller
than the previous one, and its `currentStreak` is at least 1 when the previous
`currentStreak` was at least 1, or when the previous `lastStudyDate` was not today
and the write went through; the same holds of the object `checkIn` returns, whose
`currentStreak` is at least 1 whenever the previous `lastStudyDate` was not
today. -/
theorem checkIn_keeps_invariant (today yesterdayStr : Str) (writeFails : Bool)
    (stored : Option StreakData)
    (hinv : (getStreakData stored).currentStreak ≤ (getStreakData stored).maxStreak)
    (hpos : 0 ≤ (getStreakData stored).currentStreak) :
    (getStreakData (checkIn today yesterdayStr writeFails stored).2).currentStreak
      ≤ (getStreakData (checkIn today yesterdayStr writeFails stored).2).maxStreak ∧
    (getStreakData stored).maxStreak
      ≤ (getStreakData (checkIn today yesterdayStr writeFails stored).2).maxStreak ∧
    (1 ≤ (getStreakData stored).currentStreak →
      1 ≤ (getStreakData (checkIn today yesterdayStr writeFails stored).2).currentStreak) ∧
    ((getStreakData stored).lastStudyDate ≠ some today → writeFails = false →
      1 ≤ (getStreakData (checkIn today yesterdayStr writeFails stored).2).currentStreak) ∧
    (checkIn today yesterdayStr writeFails stored).1.currentStreak
      ≤ (checkIn today yesterdayStr writeFails stored).1.maxStreak ∧
    (getStreakData stored).maxStreak
      ≤ (checkIn today yesterdayStr writeFails stored).1.maxStreak ∧
    ((getStreakData stored).lastStudyDate ≠ some today →
      1 ≤ (checkIn today yesterdayStr writeFails stored).1.currentStreak) := by
  by_cases h : (getStreakData stored).lastStudyDate = some today
  · rw [checkIn_of_today today yesterdayStr writeFails stored h]
    exact ⟨hinv, le_refl _, id, fun hne => absurd h hne, hinv, le_refl _,
      fun hne => absurd h hne⟩
  · obtain ⟨_, hcur, hmax, hstore⟩ := checkIn_of_other_day today yesterdayStr writeFails stored h
    have hnew : (1 : Int) ≤ (if isYesterday yesterdayStr (getStreakData stored).lastStudyDate then
        (getStreakData stored).currentStreak + 1 else 1) := by
      split
      · omega
      · exact le_refl _
    rw [hcur, hmax, hstore]
    refine ⟨?_, ?_, ?_, ?_, le_max_left _ _, le_max_right _ _, fun _ => hnew⟩
    · cases writeFails with
      | true => exact hinv
      | false => exact le_max_left _ _
    · cases writeFails with
      | true => exact le_refl _
      | false => exact le_max_right _ _
    · intro h1
      cases writeFails with
      | true => exact h1
      | false => exact hnew
    · intro _ hw
      subst hw
      exact hnew

/-- An instance of C28: the last study was yesterday, with the streak 3 of 5. -/
theorem checkIn_keeps_invariant_witness :
    (getStreakData (checkIn "2026-01-14".toList "2026-01-13".toList false
        (some (sampleStreak "2026-01-13" 3 5))).2).currentStreak
      ≤ (getStreakData (checkIn "2026-01-14".toList "2026-01-13".toList false
        (some (sampleStreak "2026-01-13" 3 5))).2).maxStreak ∧
    1 ≤ (getStreakData (checkIn "2026-01-14".toList "2026-01-13".toList false
        (some (sampleStreak "2026-01-13" 3 5))).2).currentStreak :=
  ⟨(checkIn_keeps_invariant "2026-01-14".toList "2026-01-13".toList false
      (some (sampleStreak "2026-01-13" 3 5)) (by decide) (by decide)).1,
    (checkIn_keeps_invariant "2026-01-14".toList "2026-01-13".toList false
      (some (sampleStreak "2026-01-13" 3 5)) (by decide) (by decide)).2.2.2.1 (by decide) rfl⟩

/-- C28 as stated fails on a record of today with the streak 0: it satisfies
`maxStreak ≥ currentStreak ≥ 0`, `checkIn` returns early and leaves it stored, and
its `currentStreak` is 0, not at least 1. -/
theorem checkIn_same_day_keeps_zero :
    (sampleStreak "2026-01-14" 0 0).currentStreak ≤ (sampleStreak "2026-01-14" 0 0).maxStreak ∧
    0 ≤ (sampleStreak "2026-01-14" 0 0).currentStreak ∧
    (checkIn "2026-01-14".toList "2026-01-13".toList false
        (some (sampleStreak "2026-01-14" 0 0))).2 = some (sampleStreak "2026-01-14" 0 0) ∧
    (checkIn "2026-01-14".toList "2026-01-13".toList false
        (some (sampleStreak "2026-01-14" 0 0))).1.currentStreak = 0 ∧
    ¬ 1 ≤ (getStreakData (checkIn "2026-01-14".toList "2026-01-13".toList false
        (some (sampleStreak "2026-01-14" 0 0))).2).currentStreak := by
  decide

/-! ## Recommendations and report order: evaluation -/

/-- C25 (evaluated on the code): `getRebalancingRecommendation` names four of the
six categories of `STOCK_CATEGORIES`; for `value` and for `defense` it returns
`null` at every market score.  For `leverage`, `growth`, `inverse` and `dividend`
it returns a recommendation, from the bullish table when the score is at least
10, from the bearish table when it is at most -10, and from the neutral table
otherwise. -/
theorem recommendation_missing_for_value_and_defense (marketScore : JSNum) :
    "value".toList ∈ STOCK_CATEGORIES ∧ "defense".toList ∈ STOCK_CATEGORIES ∧
    getRebalancingRecommendation "value".toList marketScore = none ∧
    getRebalancingRecommendation "defense".toList marketScore = none ∧
    (∀ category ∈ ["leverage".toList, "growth".toList, "inverse".toList, "dividend".toList],
      (getRebalancingRecommendation category marketScore).isSome = true ∧
      (marketScore.ge (JSNum.fin 10) = true →
        getRebalancingRecommendation category marketScore = bullishTable category) ∧
      (marketScore.ge (JSNum.fin 10) = false → marketScore.le (JSNum.fin (-10)) = true →
        getRebalancingRecommendation category marketScore = bearishTable category) ∧
      (marketScore.ge (JSNum.fin 10) = false → marketScore.le (JSNum.fin (-10)) = false →
        getRebalancingRecommendation category marketScore = neutralTable category)) := by
  have hv1 : bullishTable "value".toList = none := by decide
  have hv2 : bearishTable "value".toList = none := by decide
  have hv3 : neutralTable "value".toList = none := by decide
  have hd1 : bullishTable "defense".toList = none := by decide
  have hd2 : bearishTable "defense".toList = none := by decide
  have hd3 : neutralTable "defense".toList = none := by decide
  refine ⟨by decide, by decide, ?_, ?_, ?_⟩
  · unfold getRebalancingRecommendation
    split
    · exact hv1
    · split
      · exact hv2
      · exact hv3
  · unfold getRebalancingRecommendation
    split
    · exact hd1
    · split
      · exact hd2
      · exact hd3
  · intro category hcat
    have hb : (bullishTable category).isSome = true := by
      simp only [List.mem_cons, List.mem_singleton, List.not_mem_nil, or_false] at hcat
      rcases hcat with h | h | h | h <;> subst h <;> decide
    have hbe : (bearishTable category).isSome = true := by
      simp only [List.mem_cons, List.mem_singleton, List.not_mem_nil, or_false] at hcat
      rcases hcat with h | h | h | h <;> subst h <;> decide
    have hn : (neutralTable category).isSome = true := by
      simp only [List.mem_cons, List.mem_singleton, List.not_mem_nil, or_false] at hcat
      rcases hcat with h | h | h | h <;> subst h <;> decide
    refine ⟨?_, ?_, ?_, ?_⟩
    · unfold getRebalancingRecommendation
      split
      · exact hb
      · split
        · exact hbe
        · exact hn
    · intro h1
      simp [getRebalancingRecommendation, h1]
    · intro h1 h2
      simp [getRebalancingRecommendation, h1, h2]
    · intro h1 h2
      simp [getRebalancingRecommendation, h1, h2]

/-- C26 (evaluated on the code): the report dated `26.01.14` (14 January 2026)
is read as 260114 and the report dated `2025.12.31` as 20251231, so the sort puts
the report of 2025 before the report of 2026: the later date comes later. -/
theorem sortReports_mixed_year_formats :
    parseDate "26.01.14".toList = some 260114 ∧
    parseDate "2025.12.31".toList = some 20251231 ∧
    sortReports [sampleReport "later" "26.01.14", sampleReport "earlier" "2025.12.31"]
      = [sampleReport "earlier" "2025.12.31", sampleReport "later" "26.01.14"] := by
  decide

/-! ## The bootstrap import: identifiers -/

theorem digitChar_ne_dash : ∀ d, d < 10 → Nat.digitChar d ≠ '-' := by decide

theorem digitChar_inj : ∀ a, a < 10 → ∀ b, b < 10 → Nat.digitChar a = Nat.digitChar b → a = b := by
  decide

theorem map_digitChar_inj : ∀ (l₁ l₂ : List Nat), (∀ d ∈ l₁, d < 10) → (∀ d ∈ l₂, d < 10) →
    l₁.map Nat.digitChar = l₂.map Nat.digitChar → l₁ = l₂
  | [], [], _, _, _ => rfl
  | [], _ :: _, _, _, h => by simp at h
  | _ :: _, [], _, _, h => by simp at h
  | a :: as, b :: bs, h1, h2, h => by
    simp only [List.map_cons, List.cons.injEq] at h
    have hab := digitChar_inj a (h1 a (List.mem_cons_self _ _)) b (h2 b (List.mem_cons_self _ _)) h.1
    have := map_digitChar_inj as bs (fun d hd => h1 d (List.mem_cons_of_mem _ hd))
      (fun d hd => h2 d (List.mem_cons_of_mem _ hd)) h.2
    rw [hab, this]

theorem natToStr_no_dash (n : Nat) : ∀ c ∈ natToStr n, c ≠ '-' := by
  intro c hc
  unfold natToStr at hc
  split at hc
  · simp only [List.mem_singleton] at hc
    rw [hc]
    decide
  · obtain ⟨d, hd, rfl⟩ := List.mem_map.mp hc
    exact digitChar_ne_dash d (Nat.digits_lt_base (by decide) (List.mem_reverse.mp hd))

theorem natToStr_pos_ne_zero {m : Nat} (hm : m ≠ 0) :
    (Nat.digits 10 m).reverse.map Nat.digitChar ≠ ['0'] := by
  intro h
  have hlast := Nat.getLast_digit_ne_zero 10 hm
  have hne : Nat.digits 10 m ≠ [] := Nat.digits_ne_nil_iff_ne_zero.mpr hm
  have h0 : ['0'] = [0].map Nat.digitChar := by decide
  rw [h0] at h
  have hrev := map_digitChar_inj _ _
    (fun d hd => Nat.digits_lt_base (by decide) (List.mem_reverse.mp hd))
    (fun d hd => by simp only [List.mem_singleton] at hd; omega) h
  have hd : Nat.digits 10 m = [0] := by
    have := congrArg List.reverse hrev
    simpa using this
  apply hlast
  simp [hd]

theorem natToStr_inj {n m : Nat} (h : natToStr n = natToStr m) : n = m := by
  unfold natToStr at h
  by_cases hn : n = 0
  · by_cases hm : m = 0
    · rw [hn, hm]
    · rw [if_pos hn, if_neg hm] at h
      exact absurd h.symm (natToStr_pos_ne_zero hm)
  · by_cases hm : m = 0
    · rw [if_neg hn, if_pos hm] at h
      exact absurd h (natToStr_pos_ne_zero hn)
    · rw [if_neg hn, if_neg hm] at h
      have hrev := map_digitChar_inj _ _
        (fun d hd => Nat.digits_lt_base (by decide) (List.mem_reverse.mp hd))
        (fun d hd => Nat.digits_lt_base (by decide) (List.mem_reverse.mp hd)) h
      exact Nat.digits_inj_iff.mp (List.reverse_injective hrev)

/-- The text of an id after its last dash. -/
theorem suffix_after_dash {a b d₁ d₂ : Str} (h₁ : ∀ c ∈ d₁, c ≠ '-') (h₂ : ∀ c ∈ d₂, c ≠ '-')
    (h : a ++ '-' :: d₁ = b ++ '-' :: d₂) : d₁ = d₂ := by
  have hrev := congrArg List.reverse h
  simp only [List.reverse_append, List.reverse_cons, List.append_assoc, List.singleton_append]
    at hrev
  have ht := congrArg (List.takeWhile (fun c => c != '-')) hrev
  have key : ∀ (d rest : Str), (∀ c ∈ d, c ≠ '-') →
      List.takeWhile (fun c => c != '-') (d.reverse ++ '-' :: rest) = d.reverse := by
    intro d rest hd
    rw [List.takeWhile_append_of_pos]
    · simp
    · intro c hc
      simpa using hd c (List.mem_reverse.mp hc)
  rw [key d₁ _ h₁, key d₂ _ h₂] at ht
  exact List.reverse_injective ht


section
variable (toUpperCase toLowerCase : Str → Str)

theorem portfolioRow_id {idNow createdNow index : Nat} {row : Row} {h : Holding}
    (hrow : portfolioRow toUpperCase toLowerCase idNow createdNow row index = some h) :
    ∃ a, h.id = a ++ '-' :: natToStr index := by
  unfold portfolioRow at hrow
  simp only at hrow
  split at hrow
  · next n ns t ts c cs hn ht hc =>
    simp only [Option.some.injEq] at hrow
    subst hrow
    exact ⟨toLowerCase (c :: cs) ++ "-".toList ++ (t :: ts) ++ "-".toList ++ natToStr idNow,
      by simp⟩
  · cases hrow

theorem portfolioMap_id {idClock createdClock : Nat → Nat} {rows : List Row} {start : Nat}
    {h : Holding}
    (hmem : some h ∈ portfolioMap toUpperCase toLowerCase idClock createdClock rows start) :
    ∃ a i, start ≤ i ∧ h.id = a ++ '-' :: natToStr i := by
  induction rows generalizing start with
  | nil => simp [portfolioMap] at hmem
  | cons row rest ih =>
    unfold portfolioMap at hmem
    rcases List.mem_cons.mp hmem with h1 | h1
    · obtain ⟨a, ha⟩ := portfolioRow_id toUpperCase toLowerCase h1.symm
      exact ⟨a, start, le_refl _, ha⟩
    · obtain ⟨a, i, hi, ha⟩ := ih h1
      exact ⟨a, i, by omega, ha⟩

theorem portfolioMap_ids_nodup (idClock createdClock : Nat → Nat) (rows : List Row)
    (start : Nat) :
    (((portfolioMap toUpperCase toLowerCase idClock createdClock rows start).filterMap id).map
      Holding.id).Nodup := by
  induction rows generalizing start with
  | nil => simp [portfolioMap]
  | cons row rest ih =>
    unfold portfolioMap
    cases hrow : portfolioRow toUpperCase toLowerCase (idClock start) (createdClock start) row
        start with
    | none => simpa using ih (start + 1)
    | some h =>
      simp only [List.filterMap_cons, id, List.map_cons, List.nodup_cons]
      refine ⟨?_, ih (start + 1)⟩
      intro hin
      obtain ⟨h2, hh2, hid⟩ := List.mem_map.mp hin
      rw [List.mem_filterMap] at hh2
      obtain ⟨o, ho, hoid⟩ := hh2
      simp only [id] at hoid
      subst hoid
      obtain ⟨a, ha⟩ := portfolioRow_id toUpperCase toLowerCase hrow
      obtain ⟨b, i, hi, hb⟩ := portfolioMap_id toUpperCase toLowerCase ho
      rw [ha, hb] at hid
      have := natToStr_inj (suffix_after_dash (natToStr_no_dash i) (natToStr_no_dash start) hid)
      omega

end

/-- C27 (identifiers of the bootstrap import): the ids of the holdings that the
row transform of `fetchPortfolioFromSheet` returns are pairwise distinct,
whatever the country and ticker cells and the readings of the clock are. -/
theorem bootstrap_ids_distinct (toUpperCase toLowerCase : Str → Str)
    (idClock createdClock : Nat → Nat) (rows : List Row) :
    idsDistinct (portfolioOfRows toUpperCase toLowerCase idClock createdClock rows) :=
  portfolioMap_ids_nodup toUpperCase toLowerCase idClock createdClock rows 0

/-! ## Portfolio value: specification -/

theorem JSNum.add_right_comm (a b c : JSNum) : (a.add b).add c = (a.add c).add b := by
  cases a <;> cases b <;> cases c <;> simp [JSNum.add]
  ring

theorem JSNum.add_mul_distrib (k u v r : JSNum) :
    (k.add (u.mul r)).add (v.mul r) = k.add ((u.add v).mul r) := by
  cases k <;> cases u <;> cases v <;> cases r <;> simp [JSNum.add, JSNum.mul]
  ring

theorem addHoldingValue_krw (exchangeRate : JSNum) (acc : ValueTotals) (item : Holding)
    (hk : item.currency = "KRW".toList) :
    addHoldingValue exchangeRate acc item
      = { totalKRW := acc.totalKRW.add (holdingValue item),
          totalUSD := acc.totalUSD,
          krStocksValue := acc.krStocksValue.add (holdingValue item),
          usStocksValue := acc.usStocksValue } := by
  unfold addHoldingValue
  rw [if_pos hk]
  rfl

theorem addHoldingValue_usd (exchangeRate : JSNum) (acc : ValueTotals) (item : Holding)
    (hu : item.currency = "USD".toList) :
    addHoldingValue exchangeRate acc item
      = { totalKRW := acc.totalKRW.add ((holdingValue item).mul exchangeRate),
          totalUSD := acc.totalUSD.add (holdingValue item),
          krStocksValue := acc.krStocksValue,
          usStocksValue := acc.usStocksValue.add (holdingValue item) } := by
  have hk : ¬ item.currency = "KRW".toList := by
    rw [hu]
    decide
  unfold addHoldingValue
  rw [if_neg hk, if_pos hu]
  rfl

theorem addHoldingValue_other (exchangeRate : JSNum) (acc : ValueTotals) (item : Holding)
    (hk : ¬ item.currency = "KRW".toList) (hu : ¬ item.currency = "USD".toList) :
    addHoldingValue exchangeRate acc item = acc := by
  unfold addHoldingValue
  rw [if_neg hk, if_neg hu]

theorem foldl_addHoldingValue (exchangeRate : JSNum) (portfolio : List Holding)
    (acc : ValueTotals) :
    (portfolio.foldl (addHoldingValue exchangeRate) acc).krStocksValue
      = ((portfolio.filter (fun item => item.currency = "KRW".toList)).map holdingValue).foldl
          JSNum.add acc.krStocksValue ∧
    (portfolio.foldl (addHoldingValue exchangeRate) acc).usStocksValue
      = ((portfolio.filter (fun item => item.currency = "USD".toList)).map holdingValue).foldl
          JSNum.add acc.usStocksValue := by
  induction portfolio generalizing acc with
  | nil => exact ⟨rfl, rfl⟩
  | cons item rest ih =>
    rw [List.foldl_cons]
    by_cases hk : item.currency = "KRW".toList
    · have hu : ¬ item.currency = "USD".toList := by
        rw [hk]
        decide
      rw [List.filter_cons_of_pos (p := fun item : Holding => decide (item.currency = "KRW".toList)) (decide_eq_true hk),
        List.filter_cons_of_neg (p := fun item : Holding => decide (item.currency = "USD".toList)) (by simpa using hu), List.map_cons, List.foldl_cons,
        addHoldingValue_krw exchangeRate acc item hk]
      exact ih _
    · by_cases hu : item.currency = "USD".toList
      · rw [List.filter_cons_of_neg (p := fun item : Holding => decide (item.currency = "KRW".toList)) (by simpa using hk),
          List.filter_cons_of_pos (p := fun item : Holding => decide (item.currency = "USD".toList)) (decide_eq_true hu), List.map_cons, List.foldl_cons,
          addHoldingValue_usd exchangeRate acc item hu]
        exact ih _
      · rw [List.filter_cons_of_neg (p := fun item : Holding => decide (item.currency = "KRW".toList)) (by simpa using hk),
          List.filter_cons_of_neg (p := fun item : Holding => decide (item.currency = "USD".toList)) (by simpa using hu),
          addHoldingValue_other exchangeRate acc item hk hu]
        exact ih _

theorem foldl_addHoldingValue_totals (exchangeRate : JSNum) (portfolio : List Holding)
    (acc : ValueTotals) (hUSD : acc.totalUSD = acc.usStocksValue)
    (hKRW : acc.totalKRW = acc.krStocksValue.add (acc.usStocksValue.mul exchangeRate)) :
    (portfolio.foldl (addHoldingValue exchangeRate) acc).totalUSD
      = (portfolio.foldl (addHoldingValue exchangeRate) acc).usStocksValue ∧
    (portfolio.foldl (addHoldingValue exchangeRate) acc).totalKRW
      = (portfolio.foldl (addHoldingValue exchangeRate) acc).krStocksValue.add
          ((portfolio.foldl (addHoldingValue exchangeRate) acc).usStocksValue.mul exchangeRate) := by
  induction portfolio generalizing acc with
  | nil => exact ⟨hUSD, hKRW⟩
  | cons item rest ih =>
    rw [List.foldl_cons]
    apply ih
    · unfold addHoldingValue
      simp only
      split
      · exact hUSD
      · split
        · simp only [hUSD]
        · exact hUSD
    · unfold addHoldingValue
      simp only
      split
      · simp only [hKRW]
        exact JSNum.add_right_comm _ _ _
      · split
        · simp only [hKRW]
          exact JSNum.add_mul_distrib _ _ _ _
        · exact hKRW

theorem foldl_addHoldingValue_filter (exchangeRate : JSNum) (portfolio : List Holding)
    (acc : ValueTotals) :
    (portfolio.filter (fun item =>
        item.currency = "KRW".toList ∨ item.currency = "USD".toList)).foldl
        (addHoldingValue exchangeRate) acc
      = portfolio.foldl (addHoldingValue exchangeRate) acc := by
  induction portfolio generalizing acc with
  | nil => rfl
  | cons item rest ih =>
    by_cases h : item.currency = "KRW".toList ∨ item.currency = "USD".toList
    · rw [List.filter_cons_of_pos (p := fun item : Holding => decide (item.currency = "KRW".toList ∨ item.currency = "USD".toList)) (decide_eq_true h), List.foldl_cons, List.foldl_cons]
      exact ih _
    · rw [List.filter_cons_of_neg (p := fun item : Holding => decide (item.currency = "KRW".toList ∨ item.currency = "USD".toList)) (by simpa using h), List.foldl_cons,
        addHoldingValue_other exchangeRate acc item (fun hk => h (Or.inl hk))
          (fun hu => h (Or.inr hu))]
      exact ih _

/-- C29 (portfolio value breakdown): for every portfolio and every exchange rate,
in exact arithmetic, `calculatePortfolioValue` returns as `krStocksValue` and
`usStocksValue` the sums of `currentPrice × quantity` over the KRW and over the USD
holdings, `totalUSD = usStocksValue`, `usStocksValueInKRW = usStocksValue ×
exchangeRate` and `totalKRW = krStocksValue + usStocksValueInKRW`; the result is
the one of the portfolio without its holdings of any other currency. -/
theorem portfolio_value_breakdown (portfolio : List Holding) (exchangeRate : ℚ) :
    (calculatePortfolioValue portfolio (JSNum.fin exchangeRate)).krStocksValue
      = valueOfCurrency "KRW" portfolio ∧
    (calculatePortfolioValue portfolio (JSNum.fin exchangeRate)).usStocksValue
      = valueOfCurrency "USD" portfolio ∧
    (calculatePortfolioValue portfolio (JSNum.fin exchangeRate)).totalUSD
      = (calculatePortfolioValue portfolio (JSNum.fin exchangeRate)).usStocksValue ∧
    (calculatePortfolioValue portfolio (JSNum.fin exchangeRate)).usStocksValueInKRW
      = (calculatePortfolioValue portfolio (JSNum.fin exchangeRate)).usStocksValue.mul
          (JSNum.fin exchangeRate) ∧
    (calculatePortfolioValue portfolio (JSNum.fin exchangeRate)).totalKRW
      = (calculatePortfolioValue portfolio (JSNum.fin exchangeRate)).krStocksValue.add
          (calculatePortfolioValue portfolio (JSNum.fin exchangeRate)).usStocksValueInKRW ∧
    calculatePortfolioValue
        (portfolio.filter (fun item =>
          item.currency = "KRW".toList ∨ item.currency = "USD".toList))
        (JSNum.fin exchangeRate)
      = calculatePortfolioValue portfolio (JSNum.fin exchangeRate) := by
  have hsum := foldl_addHoldingValue (JSNum.fin exchangeRate) portfolio
    { totalKRW := JSNum.fin 0, totalUSD := JSNum.fin 0, krStocksValue := JSNum.fin 0,
      usStocksValue := JSNum.fin 0 }
  have htot := foldl_addHoldingValue_totals (JSNum.fin exchangeRate) portfolio
    { totalKRW := JSNum.fin 0, totalUSD := JSNum.fin 0, krStocksValue := JSNum.fin 0,
      usStocksValue := JSNum.fin 0 } rfl (by simp [JSNum.add, JSNum.mul])
  refine ⟨hsum.1, hsum.2, htot.1, rfl, htot.2, ?_⟩
  simp only [calculatePortfolioValue, foldl_addHoldingValue_filter]

/-! ## Market score: specification -/

theorem judgmentOrZero_bounds (indicator : Indicator)
    (h : indicator.judgment = none ∨ ∃ j ∈ JUDGMENT_LEVELS, indicator.judgment = some j) :
    ∃ q : ℚ, judgmentOrZero indicator = JSNum.fin q ∧ -2 ≤ q ∧ q ≤ 2 := by
  rcases h with h | ⟨j, hj, h⟩
  · exact ⟨0, by simp [judgmentOrZero, h], by norm_num, by norm_num⟩
  · simp only [JUDGMENT_LEVELS, List.mem_cons, List.mem_singleton, List.mem_nil_iff,
      or_false] at hj
    rcases hj with rfl | rfl | rfl | rfl | rfl
    · exact ⟨2, by simp [judgmentOrZero, h, JSNum.truthy], by norm_num, by norm_num⟩
    · exact ⟨1, by simp [judgmentOrZero, h, JSNum.truthy], by norm_num, by norm_num⟩
    · exact ⟨0, by simp [judgmentOrZero, h, JSNum.truthy], by norm_num, by norm_num⟩
    · exact ⟨-1, by simp [judgmentOrZero, h, JSNum.truthy], by norm_num, by norm_num⟩
    · exact ⟨-2, by simp [judgmentOrZero, h, JSNum.truthy], by norm_num, by norm_num⟩

theorem foldl_judgment_bounds (indicators : List Indicator)
    (h : ∀ indicator ∈ indicators,
      indicator.judgment = none ∨ ∃ j ∈ JUDGMENT_LEVELS, indicator.judgment = some j)
    (start : ℚ) :
    ∃ t : ℚ,
      indicators.foldl (fun sum indicator => sum.add (judgmentOrZero indicator))
          (JSNum.fin start) = JSNum.fin t ∧
      start - 2 * (indicators.length : ℚ) ≤ t ∧ t ≤ start + 2 * (indicators.length : ℚ) := by
  induction indicators generalizing start with
  | nil => exact ⟨start, rfl, by simp, by simp⟩
  | cons indicator rest ih =>
    obtain ⟨q, hq, hlo, hhi⟩ :=
      judgmentOrZero_bounds indicator (h indicator (List.mem_cons_self _ _))
    obtain ⟨t, ht, htlo, hthi⟩ :=
      ih (fun i hi => h i (List.mem_cons_of_mem _ hi)) (start + q)
    refine ⟨t, ?_, ?_, ?_⟩
    · rw [List.foldl_cons, hq]
      exact ht
    · rw [List.length_cons]
      push_cast
      linarith
    · rw [List.length_cons]
      push_cast
      linarith

/-- C30 (market score bounds): for every list of indicators whose judgment is one
of the `JUDGMENT_LEVELS` values or missing, `calculateMarketScore` returns a finite
`totalScore` with `minScore ≤ totalScore ≤ maxScore`, where `maxScore` is twice
and `minScore` minus twice the number of indicators, and its `sentiment` is
`getMarketSentiment totalScore`. -/
theorem market_score_bounds (indicators : List Indicator)
    (h : ∀ indicator ∈ indicators,
      indicator.judgment = none ∨ ∃ j ∈ JUDGMENT_LEVELS, indicator.judgment = some j) :
    ∃ t : ℚ,
      (calculateMarketScore indicators).totalScore = JSNum.fin t ∧
      (calculateMarketScore indicators).maxScore = JSNum.fin (2 * (indicators.length : ℚ)) ∧
      (calculateMarketScore indicators).minScore = JSNum.fin (-2 * (indicators.length : ℚ)) ∧
      -2 * (indicators.length : ℚ) ≤ t ∧ t ≤ 2 * (indicators.length : ℚ) ∧
      (calculateMarketScore indicators).minScore.le
        (calculateMarketScore indicators).totalScore = true ∧
      (calculateMarketScore indicators).totalScore.le
        (calculateMarketScore indicators).maxScore = true ∧
      (calculateMarketScore indicators).sentiment
        = getMarketSentiment (calculateMarketScore indicators).totalScore := by
  obtain ⟨t, ht, hlo, hhi⟩ := foldl_judgment_bounds indicators h 0
  have hlo2 : -2 * (indicators.length : ℚ) ≤ t := by linarith
  have hhi2 : t ≤ 2 * (indicators.length : ℚ) := by linarith
  have htotal : (calculateMarketScore indicators).totalScore = JSNum.fin t := ht
  have hmax : (calculateMarketScore indicators).maxScore
      = JSNum.fin (2 * (indicators.length : ℚ)) := by
    simp [calculateMarketScore, JSNum.mul, mul_comm]
  have hmin : (calculateMarketScore indicators).minScore
      = JSNum.fin (-2 * (indicators.length : ℚ)) := by
    simp [calculateMarketScore, JSNum.mul, mul_comm]
  refine ⟨t, htotal, hmax, hmin, hlo2, hhi2, ?_, ?_, rfl⟩
  · rw [htotal, hmin]
    simpa [JSNum.le] using hlo2
  · rw [htotal, hmax]
    simpa [JSNum.le] using hhi2

theorem market_score_bounds_witness :
    ∃ t : ℚ,
      (calculateMarketScore sampleIndicators).totalScore = JSNum.fin t ∧
      (calculateMarketScore sampleIndicators).maxScore
        = JSNum.fin (2 * (sampleIndicators.length : ℚ)) ∧
      (calculateMarketScore sampleIndicators).minScore
        = JSNum.fin (-2 * (sampleIndicators.length : ℚ)) ∧
      -2 * (sampleIndicators.length : ℚ) ≤ t ∧ t ≤ 2 * (sampleIndicators.length : ℚ) ∧
      (calculateMarketScore sampleIndicators).minScore.le
        (calculateMarketScore sampleIndicators).totalScore = true ∧
      (calculateMarketScore sampleIndicators).totalScore.le
        (calculateMarketScore sampleIndicators).maxScore = true ∧
      (calculateMarketScore sampleIndicators).sentiment
        = getMarketSentiment (calculateMarketScore sampleIndicators).totalScore :=
  market_score_bounds sampleIndicators (by
    intro indicator hi
    simp only [sampleIndicators, List.mem_cons, List.mem_singleton, List.mem_nil_iff,
      or_false] at hi
    rcases hi with rfl | rfl | rfl
    · exact Or.inr ⟨JSNum.fin 2, by simp [JUDGMENT_LEVELS], rfl⟩
    · exact Or.inr ⟨JSNum.fin (-1), by simp [JUDGMENT_LEVELS], rfl⟩
    · exact Or.inl rfl)

/-- The sample indicators score `2 - 1 + 0 = 1`, between `-6` and `6`: neutral. -/
theorem market_score_sample :
    (calculateMarketScore sampleIndicators).totalScore = JSNum.fin 1 ∧
    (calculateMarketScore sampleIndicators).sentiment = "중립".toList := by
  have htotal : (calculateMarketScore sampleIndicators).totalScore = JSNum.fin 1 := by
    simp [calculateMarketScore, sampleIndicators, judgmentOrZero, JSNum.truthy, JSNum.add]
    norm_num
  refine ⟨htotal, ?_⟩
  show getMarketSentiment (calculateMarketScore sampleIndicators).totalScore = _
  rw [htotal]
  simp [getMarketSentiment, JSNum.ge]
  norm_num

end StockStudy
